import Mathlib

/-!
Chat application: message model, room route and room/session coordination.

A shallow embedding of the chat application.

* `JSVal` and the functions of namespace `JSVal` model the JavaScript values
  the embedded functions handle (JSON-like data plus `undefined`), property
  reads and `String.prototype.trim`.
* Namespace `Message` embeds the statics of `src/models/message.js`
  (`dataCleanup`, `generateMessage`, `generateAdminNotif`).  The Mongoose
  operations they call are parameters (`MessageStore`), and every run
  returns the list of store calls it made.
* Namespace `RoomRouter` embeds the handler of `GET /validateUser` of
  `src/router/room.js`; the `Room` model operations are parameters.
* Namespace `Registry` models the room registry and the session manager,
  whose code is not part of the sources at hand, from the specification.
* Namespace `CommonFetch` embeds the client functions of
  `public/js/common/common-fetch.js`, with `fetch` as a parameter, and
  models how the request they build is read by the server.
* Namespace `ChatUtils` embeds the functions of
  `public/js/chat/chat-utils.js` over the parts of the DOM they touch.
-/

namespace ChatApp

/-! ## JavaScript values -/

/-- JavaScript values as the embedded functions see them: JSON-like data
together with `undefined`.  Numbers are the integers (timestamps, status
codes).  An object is its list of properties; a Mongoose document is seen
through its properties as well. -/
inductive JSVal where
  | undefined
  | null
  | bool (b : Bool)
  | num (n : Int)
  | str (s : String)
  | arr (items : List JSVal)
  | obj (props : List (String × JSVal))

namespace JSVal

/-- The `TypeError` raised by a property read on `undefined` or `null`
and by a call of something that is not a function. -/
def typeError (msg : String) : JSVal :=
  .obj [("name", .str "TypeError"), ("message", .str msg)]

/-- Value of property `k` in a property list, `undefined` when absent. -/
def lookup (k : String) : List (String × JSVal) → JSVal
  | [] => .undefined
  | (k', v) :: rest => if k' = k then v else lookup k rest

/-- The property read `v.k` (also the read made by a destructuring
pattern).  It throws on `undefined` and `null`.  On the other primitives and
on arrays it gives `undefined`: the keys read by the embedded code
(`_id`, `chatroom`, `sender`, `text`, `createdAt`, `email`, `username`,
`room`, `message`) are not defined on the built-in prototypes. -/
def getProp (v : JSVal) (k : String) : Except JSVal JSVal :=
  match v with
  | .undefined => .error (typeError ("Cannot read property " ++ k ++ " of undefined"))
  | .null => .error (typeError ("Cannot read property " ++ k ++ " of null"))
  | .obj props => .ok (lookup k props)
  | _ => .ok .undefined

/-- Names of the properties of an object, in order; no names for the
other values. -/
def keys : JSVal → List String
  | .obj props => props.map Prod.fst
  | _ => []

/-- Code points removed by `String.prototype.trim`: the ECMAScript
`WhiteSpace` and `LineTerminator` productions. -/
def isWhiteSpace (c : Char) : Bool :=
  let n := c.toNat
  n == 9 || n == 10 || n == 11 || n == 12 || n == 13 || n == 32 || n == 160 ||
  n == 5760 || (8192 ≤ n && n ≤ 8202) || n == 8232 || n == 8233 || n == 8239 ||
  n == 8287 || n == 12288 || n == 65279

/-- Removal of leading white space. -/
def trimStart (cs : List Char) : List Char := cs.dropWhile isWhiteSpace

/-- Removal of trailing white space. -/
def trimEnd (cs : List Char) : List Char :=
  (cs.reverse.dropWhile isWhiteSpace).reverse

/-- The function `String.prototype.trim`. -/
def trim (s : String) : String := ⟨trimEnd (trimStart s.data)⟩

/-- The method call `v.trim()`: defined on strings; on every other value
of `JSVal` it throws, as the value either cannot be read or has no
callable `trim`. -/
def callTrim : JSVal → Except JSVal String
  | .str s => .ok (trim s)
  | .undefined => .error (typeError "Cannot read property trim of undefined")
  | .null => .error (typeError "Cannot read property trim of null")
  | _ => .error (typeError "text.trim is not a function")

/-- A text is blank when it is empty or all of its characters are white
space. -/
def isBlank (s : String) : Prop := ∀ c ∈ s.data, isWhiteSpace c = true

end JSVal

/-! ## `src/models/message.js` -/

namespace Message

open JSVal

/-- A call made on the Mongoose `Message` model or on one of its
documents. -/
inductive StoreCall where
  | create (doc : JSVal)
  | execPopulate (doc : JSVal) (path : String) (select : String)

/-- The Mongoose operations used by the statics of the message model,
over a document store of state `σ`: `Model.create` and
`Document.execPopulate`.  Each returns the value its promise resolves to,
or the reason it rejects with, and the next state of the store. -/
structure MessageStore (σ : Type) where
  create : JSVal → σ → Except JSVal JSVal × σ
  execPopulate : JSVal → String → String → σ → Except JSVal JSVal × σ

/-- What a run of a static leaves behind: the value the call returns (or
its promise resolves to) or what it throws, the store calls made in
order, and the final state of the store. -/
structure Outcome (σ : Type) where
  result : Except JSVal JSVal
  calls : List StoreCall
  store : σ

/-- The number of `create` calls in a list of store calls. -/
def createCount : List StoreCall → Nat
  | [] => 0
  | .create _ :: rest => createCount rest + 1
  | .execPopulate _ _ _ :: rest => createCount rest

/-- Static `dataCleanup`:
`({ sender, text, createdAt }) => ({ sender: { email: sender.email,
username: sender.username }, text, createdAt })`. -/
def dataCleanup (m : JSVal) : Except JSVal JSVal :=
  match m.getProp "sender" with
  | .error e => .error e
  | .ok sender =>
  match m.getProp "text" with
  | .error e => .error e
  | .ok text =>
  match m.getProp "createdAt" with
  | .error e => .error e
  | .ok createdAt =>
  match sender.getProp "email" with
  | .error e => .error e
  | .ok email =>
  match sender.getProp "username" with
  | .error e => .error e
  | .ok username =>
    .ok (.obj [("sender", .obj [("email", email), ("username", username)]),
               ("text", text), ("createdAt", createdAt)])

/-- Static `generateMessage`:
`async function ({ _id, chatroom }, text)`.  The text is trimmed; an empty
result returns `undefined` at once; otherwise the message is created,
its sender populated, and the cleaned-up document returned. -/
def generateMessage {σ : Type} (M : MessageStore σ) (user text : JSVal) (s : σ) :
    Outcome σ :=
  match user.getProp "_id" with
  | .error e => { result := .error e, calls := [], store := s }
  | .ok _id =>
  match user.getProp "chatroom" with
  | .error e => { result := .error e, calls := [], store := s }
  | .ok chatroom =>
  match text.callTrim with
  | .error e => { result := .error e, calls := [], store := s }
  | .ok text =>
  if text = "" then
    { result := .ok .undefined, calls := [], store := s }
  else
    let doc := JSVal.obj [("sender", _id), ("chatroom", chatroom), ("text", .str text)]
    match M.create doc s with
    | (.error e, s1) => { result := .error e, calls := [.create doc], store := s1 }
    | (.ok message, s1) =>
      match M.execPopulate message "sender" "username email" s1 with
      | (.error e, s2) =>
        { result := .error e,
          calls := [.create doc, .execPopulate message "sender" "username email"],
          store := s2 }
      | (.ok populated, s2) =>
        { result := dataCleanup populated,
          calls := [.create doc, .execPopulate message "sender" "username email"],
          store := s2 }

/-- Static `generateAdminNotif`: `(chatroom, text) => ({ sender:
{ username: "Admin" }, chatroom, text, createdAt: new Date().getTime() })`.
The clock reading `new Date().getTime()` is the parameter `now`.  The body
makes no call on the model, so the store is handed back as it came. -/
def generateAdminNotif {σ : Type} (now : Int) (chatroom text : JSVal) (s : σ) :
    Outcome σ :=
  { result := .ok (.obj [("sender", .obj [("username", .str "Admin")]),
                         ("chatroom", chatroom), ("text", text),
                         ("createdAt", .num now)]),
    calls := [],
    store := s }

/-- Contents of an in-memory document store: the `users` and `messages`
collections, the counter ids are drawn from, and the clock that stamps
documents. -/
structure Db where
  users : List JSVal
  messages : List JSVal
  nextId : Nat
  clock : Int

/-- Whether a value is `undefined` or `null`, that is, fails the
`required: true` validator of a schema path. -/
def isNullish : JSVal → Bool
  | .undefined => true
  | .null => true
  | _ => false

/-- Equality of two document ids (strings or numbers). -/
def sameId : JSVal → JSVal → Bool
  | .str a, .str b => a == b
  | .num a, .num b => a == b
  | _, _ => false

/-- The validation error a rejected `create` carries. -/
def validationError (msg : String) : JSVal :=
  .obj [("name", .str "ValidationError"), ("message", .str msg)]

/-- The operation `create` on an in-memory store, following the schema of
`src/models/message.js`: `sender` and `chatroom` are required, `text` is a
string that is trimmed on assignment (`trim: true`) and required (so not
empty), and `timestamps: true` stamps `createdAt` and `updatedAt`.  The
stored document is the one returned.  Identifiers are numbers that stand
for `ObjectId` values; the cast of `sender` and `chatroom` to `ObjectId` is
left out, so every value that is present is taken. -/
def memCreate (doc : JSVal) (db : Db) : Except JSVal JSVal × Db :=
  match doc with
  | .obj props =>
    let sender := lookup "sender" props
    let chatroom := lookup "chatroom" props
    match lookup "text" props with
    | .str t =>
      if isNullish sender || isNullish chatroom || trim t == "" then
        (.error (validationError "Message validation failed"), db)
      else
        let stored := JSVal.obj
          [("_id", .num db.nextId), ("sender", sender), ("chatroom", chatroom),
           ("text", .str (trim t)), ("createdAt", .num db.clock),
           ("updatedAt", .num db.clock), ("__v", .num 0)]
        (.ok stored, { db with messages := db.messages ++ [stored],
                                nextId := db.nextId + 1 })
    | _ => (.error (validationError "Message validation failed"), db)
  | _ => (.error (validationError "Message validation failed"), db)

/-- The user document with the given id projected to `_id`, `username`
and `email` (the selection `username email`), `null` when there is
none. -/
def findSender (id : JSVal) : List JSVal → JSVal
  | [] => .null
  | .obj props :: rest =>
    if sameId (lookup "_id" props) id then
      .obj [("_id", lookup "_id" props), ("username", lookup "username" props),
            ("email", lookup "email" props)]
    else findSender id rest
  | _ :: rest => findSender id rest

/-- Replacement of the value of property `k` in a property list. -/
def setProp (k : String) (v : JSVal) : List (String × JSVal) → List (String × JSVal)
  | [] => []
  | (k', w) :: rest => if k' = k then (k', v) :: rest else (k', w) :: setProp k v rest

/-- The operation `execPopulate` on an in-memory store: the id held by
`sender` is replaced by the selected fields of the user it refers to. -/
def memExecPopulate (doc : JSVal) (_path : String) (_select : String) (db : Db) :
    Except JSVal JSVal × Db :=
  match doc with
  | .obj props => (.ok (.obj (setProp "sender" (findSender (lookup "sender" props) db.users) props)), db)
  | other => (.ok other, db)

/-- The in-memory document store. -/
def memStore : MessageStore Db :=
  { create := memCreate, execPopulate := memExecPopulate }

/-- A user document of the example store. -/
def exampleUser : JSVal :=
  .obj [("_id", .num 1), ("sessionId", .str "s1"), ("email", .str "kaye.cenizal@gmail.com"),
        ("username", .str "kaye"), ("chatroom", .num 7)]

/-- An example store holding one user and no message. -/
def exampleDb : Db :=
  { users := [exampleUser], messages := [], nextId := 100, clock := 1615000000000 }

/-- Texts of the stored messages of a chat room. -/
def textsOf (chatroom : JSVal) : List JSVal → List JSVal
  | [] => []
  | .obj props :: rest =>
    if sameId (lookup "chatroom" props) chatroom then
      lookup "text" props :: textsOf chatroom rest
    else textsOf chatroom rest
  | _ :: rest => textsOf chatroom rest

/-! ### Text filter

The profanity filter is a library that is not among the sources at hand;
it is modelled from section 4.4 of the specification with the substring
policy. -/

/-- Modelled from the spec: the case folding of the missing text filter,
lower-casing of the letters `A` to `Z`. -/
def lowerAscii (s : String) : List Char := s.data.map Char.toLower

/-- Modelled from the spec: helper of the missing text filter: whether the
second list begins with the first. -/
def startsWith : List Char → List Char → Bool
  | [], _ => true
  | _ :: _, [] => false
  | a :: as, b :: bs => a == b && startsWith as bs

/-- Modelled from the spec: helper of the missing text filter: whether the
first list occurs in the second as a run of consecutive characters. -/
def occursIn (term : List Char) : List Char → Bool
  | [] => term.isEmpty
  | c :: rest => startsWith term (c :: rest) || occursIn term rest

/-- Modelled from the spec: the match of one term by the missing text
filter: the text contains the term, ignoring case (substring policy). -/
def containsTerm (term text : String) : Bool :=
  occursIn (lowerAscii term) (lowerAscii text)

/-- Modelled from the spec: the missing text filter, which finds a text
profane when it contains a term of the blocklist. -/
def isProfane (blocklist : List String) (text : String) : Bool :=
  blocklist.any (fun term => containsTerm term text)

end Message

/-! ## `src/router/room.js` -/

namespace RoomRouter

open JSVal

/-- The operations of the `Room` model the route relies on, over room
documents of type `ρ`: the query `Room.findOne(filter)`, which resolves to a
document or to `null` (here `none`) or rejects, and the document method
`chatRoom.validateUser(email, username)`. -/
structure RoomModel (ρ : Type) where
  findOne : JSVal → Except JSVal (Option ρ)
  validateUser : ρ → JSVal → JSVal → Except JSVal JSVal

/-- A call made on the `Room` model or on a room document. -/
inductive RoomCall (ρ : Type) where
  | findOne (filter : JSVal)
  | validateUser (room : ρ) (email username : JSVal)

/-- A response sent with `res.status(code).send(body)`. -/
structure Response where
  status : Nat
  body : JSVal

/-- What a run of a route handler leaves behind: the responses sent, the
model calls made, and the exception that left the handler, if any. -/
structure HandlerRun (ρ : Type) where
  responses : List Response
  calls : List (RoomCall ρ)
  escaped : Option JSVal

/-- The `catch (error)` block: `res.status(400).send({ error: error.message })`. -/
def sendError {ρ : Type} (error : JSVal) (calls : List (RoomCall ρ)) : HandlerRun ρ :=
  match error.getProp "message" with
  | .error e => { responses := [], calls := calls, escaped := some e }
  | .ok message =>
    { responses := [{ status := 400, body := .obj [("error", message)] }],
      calls := calls, escaped := none }

/-- The handler of the route `GET /validateUser`; `query` is
`req.query`. -/
def validateUser {ρ : Type} (R : RoomModel ρ) (query : JSVal) : HandlerRun ρ :=
  match query.getProp "email" with
  | .error e => sendError e []
  | .ok email =>
  match query.getProp "username" with
  | .error e => sendError e []
  | .ok username =>
  match query.getProp "room" with
  | .error e => sendError e []
  | .ok room =>
  let filter := JSVal.obj [("name", room)]
  match R.findOne filter with
  | .error e => sendError e [.findOne filter]
  | .ok none =>
    { responses := [{ status := 200, body := .obj [("isValid", .bool true)] }],
      calls := [.findOne filter], escaped := none }
  | .ok (some chatRoom) =>
    match R.validateUser chatRoom email username with
    | .error e => sendError e [.findOne filter, .validateUser chatRoom email username]
    | .ok isValid =>
      { responses := [{ status := 200, body := .obj [("isValid", isValid)] }],
        calls := [.findOne filter, .validateUser chatRoom email username],
        escaped := none }

/-- Whether a call is a call of the access check `validateUser`. -/
def RoomCall.isAccessCheck {ρ : Type} : RoomCall ρ → Bool
  | .findOne _ => false
  | .validateUser _ _ _ => true

/-- An example `Room` model over room documents that are the lists of
emails in use: one stored room, `javascript`, and an access check that
asks whether the email is free. -/
def exampleRooms : RoomModel (List String) :=
  { findOne := fun filter =>
      match filter with
      | .obj [("name", .str "javascript")] => .ok (some ["kaye.cenizal@gmail.com"])
      | _ => .ok none,
    validateUser := fun emails email _ =>
      match email with
      | .str e => .ok (.bool (!emails.contains e))
      | _ => .ok (.bool true) }

/-- An example `Room` model whose lookup trims and lower-cases the name of
the filter before it compares it with the stored name; one stored room,
`javascript`, and the access check of `exampleRooms`. -/
def normalisingRooms : RoomModel (List String) :=
  { findOne := fun filter =>
      match filter with
      | .obj [("name", .str name)] =>
        if Message.lowerAscii (trim name) = "javascript".data then
          .ok (some ["kaye.cenizal@gmail.com"])
        else .ok none
      | _ => .ok none,
    validateUser := exampleRooms.validateUser }

/-- An example query string of a request. -/
def exampleQuery (email username room : String) : JSVal :=
  .obj [("email", .str email), ("username", .str username), ("room", .str room)]

/-- An example `Room` model whose lookup rejects with an `Error` of
message `Mock Error`, as a store that cannot be reached does. -/
def failingRooms : RoomModel Unit :=
  { findOne := fun _ => .error (.obj [("name", .str "Error"), ("message", .str "Mock Error")]),
    validateUser := fun _ _ _ => .ok (.bool true) }

/-- An example `Room` model with one stored room whose access check rejects
with an `Error` of message `Mock Error`. -/
def failingCheck : RoomModel Unit :=
  { findOne := fun _ => .ok (some ()),
    validateUser := fun _ _ _ =>
      .error (.obj [("name", .str "Error"), ("message", .str "Mock Error")]) }

/-- An example `Room` model whose lookup rejects with `null`, as
`Promise.reject(null)` does. -/
def nullRejectingRooms : RoomModel Unit :=
  { findOne := fun _ => .error .null,
    validateUser := fun _ _ _ => .ok (.bool true) }

/-- An example `Room` model with one stored room whose access check throws
`undefined`. -/
def undefinedThrowingCheck : RoomModel Unit :=
  { findOne := fun _ => .ok (some ()),
    validateUser := fun _ _ _ => .error .undefined }

/-- Whether a status code is of the 500 class. -/
def isServerError (status : Nat) : Bool := 500 ≤ status && status ≤ 599

end RoomRouter

/-! ## Room registry and session manager

The room model (`models/room.js`), the user model and the socket handlers
are not among the sources at hand; the definitions of this section follow
sections 3, 4.1 and 4.2 of the specification. -/

namespace Registry

open JSVal

/-- Modelled from the spec: the string functions the registry takes from
its platform and libraries, which are missing from the sources: the
lower-casing used to normalise emails and room names and to compare without
regard to case, and the test for a well-formed email address. -/
structure Env where
  toLowerCase : String → String
  isEmail : String → Bool

/-- Modelled from the spec: the missing user model.  A user is an
ephemeral membership record, identified by its connection, with its
email (lower-cased, trimmed), its username (trimmed) and the name of
the room that owns it. -/
structure User where
  connectionId : String
  email : String
  username : String
  room : String
deriving DecidableEq

/-- Modelled from the spec: the missing room model.  A room is identified by
its case-normalised name and holds the list of its active users in
order of joining. -/
structure Room where
  name : String
  users : List User
deriving DecidableEq

/-- Modelled from the spec: the state owned by the missing room registry
and session manager: the rooms in order of creation, and the connections
that have been closed. -/
structure State where
  rooms : List Room
  closed : List String
deriving DecidableEq

/-- Modelled from the spec: the states of a session of the missing session
manager, `UNJOINED`, `JOINED` and `CLOSED`. -/
inductive SessionState where
  | unjoined
  | joined
  | closed
deriving DecidableEq

/-- Modelled from the spec: the identity attributes of the missing user
model that a join may find in use. -/
inductive Field where
  | email
  | username
deriving DecidableEq

/-- Modelled from the spec: the result of `checkUserAccess` of the missing
room registry. -/
structure Access where
  isAllowed : Bool
  duplicateFields : List Field
deriving DecidableEq

/-- Modelled from the spec: the kinds of `ValidationError` of the missing
session manager. -/
inductive ValidationKind where
  | missingField
  | invalidEmail
  | duplicateEmail
  | duplicateUsername
deriving DecidableEq

/-- Modelled from the spec: the result of `join` of the missing session
manager: success, or a validation error with its kinds.  A request that is
no transition of the session, made by a closed connection or by a joined
connection that asks for another room or identity than those of its
session, is answered `notUnjoined`. -/
inductive JoinResult where
  | success
  | validationError (kinds : List ValidationKind)
  | notUnjoined
deriving DecidableEq

/-- Modelled from the spec: equality of two strings ignoring case, as the
missing `checkUserAccess` compares emails and usernames. -/
def eqIgnoreCase (E : Env) (a b : String) : Bool :=
  E.toLowerCase a == E.toLowerCase b

/-- Modelled from the spec: the case/trim normalisation of a room name of
the missing room registry. -/
def normalizeRoomName (E : Env) (name : String) : String :=
  E.toLowerCase (trim name)

/-- Modelled from the spec: lookup of a stored room of the missing
registry by its normalised name. -/
def lookupRoom (st : State) (key : String) : Option Room :=
  st.rooms.find? (fun r => r.name == key)

/-- Modelled from the spec: `findRoom(name)` of the missing room registry,
a case/trim-normalised lookup. -/
def findRoom (E : Env) (st : State) (name : String) : Option Room :=
  lookupRoom st (normalizeRoomName E name)

/-- Modelled from the spec: `getOrCreateRoom(name)` of the missing room
registry: the stored room of that name, or a new room without users
appended to the registry. -/
def getOrCreateRoom (E : Env) (st : State) (name : String) : Room × State :=
  match findRoom E st name with
  | some room => (room, st)
  | none =>
    let room : Room := { name := normalizeRoomName E name, users := [] }
    (room, { st with rooms := st.rooms ++ [room] })

/-- Modelled from the spec: whether an active user is the prior entry of
the caller that a reconnect replaces: the entry of the connection of the
caller itself that holds the same email and the same username, ignoring
case. -/
def isReplaced (E : Env) (caller email username : String) (u : User) : Bool :=
  u.connectionId == caller && eqIgnoreCase E u.email email &&
    eqIgnoreCase E u.username username

/-- Modelled from the spec: the active users of a room the duplicate check
of the missing room registry compares against: all of them, except the
prior entry of the caller when the caller is a connection whose own session
in the room is being replaced.  A caller without a connection, such as the
HTTP route, is `none`. -/
def comparedUsers (E : Env) (room : Room) (caller : Option String)
    (email username : String) : List User :=
  match caller with
  | none => room.users
  | some c => room.users.filter (fun u => !isReplaced E c email username u)

/-- Modelled from the spec: `checkUserAccess(room, email, username)` of
the missing room registry, with the caller it is made for.  Email and
username are compared without regard to case with those of all active users
of the room, the prior entry of the caller that is being replaced set
aside; the fields found in use are reported, and access is allowed when
there is none. -/
def checkUserAccess (E : Env) (room : Room) (caller : Option String)
    (email username : String) : Access :=
  let others := comparedUsers E room caller email username
  let emailUsed := others.any (fun u => eqIgnoreCase E u.email email)
  let usernameUsed := others.any (fun u => eqIgnoreCase E u.username username)
  let duplicateFields :=
    (if emailUsed then [Field.email] else []) ++
    (if usernameUsed then [Field.username] else [])
  { isAllowed := duplicateFields.isEmpty, duplicateFields := duplicateFields }

/-- Modelled from the spec: `addUser(room, connectionId, email, username)`
of the missing room registry: fails with the duplicate fields when
`checkUserAccess` disallows, otherwise appends the user to the active
list and returns it with the room.  The prior entry of the connection that
the check set aside is the stale session the new user replaces, and is
dropped from the list. -/
def addUser (E : Env) (room : Room) (connectionId email username : String) :
    Except (List Field) (User × Room) :=
  let access := checkUserAccess E room (some connectionId) email username
  if access.isAllowed then
    let user : User :=
      { connectionId := connectionId, email := email, username := username,
        room := room.name }
    .ok (user,
      { room with
        users := comparedUsers E room (some connectionId) email username ++ [user] })
  else .error access.duplicateFields

/-- Modelled from the spec: `removeUser(room, connectionId)` of the missing
room registry: the room without the user of that connection, the same
room when there is none. -/
def removeUser (room : Room) (connectionId : String) : Room :=
  { room with users := room.users.filter (fun u => u.connectionId != connectionId) }

/-- Modelled from the spec: write-back of a changed room into the
missing registry, at the place of the room of the same name. -/
def putRoom (st : State) (room : Room) : State :=
  { st with rooms := st.rooms.map (fun r => if r.name == room.name then room else r) }

/-- Modelled from the spec: the room a connection is joined to, the
reference the missing session manager holds per live connection. -/
def sessionRoom (st : State) (connectionId : String) : Option Room :=
  st.rooms.find? (fun r => r.users.any (fun u => u.connectionId == connectionId))

/-- Modelled from the spec: the state of the session of a connection in the
missing session manager: `CLOSED` after a disconnect, `JOINED` while the
connection has an active user, `UNJOINED` otherwise. -/
def sessionState (st : State) (connectionId : String) : SessionState :=
  if st.closed.contains connectionId then .closed
  else if (sessionRoom st connectionId).isSome then .joined
  else .unjoined

/-- Modelled from the spec: the validation-error kind the missing session
manager reports for a duplicate field. -/
def duplicateKind : Field → ValidationKind
  | .email => .duplicateEmail
  | .username => .duplicateUsername

/-- Modelled from the spec: whether a join request is a reconnect: the
connection is not closed and has a session, the room asked for is the room
of that session, and the session holds the email and username asked for,
so that the request replaces the session of the caller by a new one of the
same identity. -/
def isReconnect (E : Env) (st : State) (connectionId : String)
    (email username roomName : Option String) : Bool :=
  match email, username, roomName, sessionRoom st connectionId with
  | some email, some username, some roomName, some room =>
    !st.closed.contains connectionId &&
      room.name == normalizeRoomName E roomName &&
      room.users.any (isReplaced E connectionId (E.toLowerCase (trim email)) (trim username))
  | _, _, _, _ => false

/-- Modelled from the spec: `join(connectionId, email, username, roomName)`
of the missing session manager.  The inputs are normalised (trimmed, the
email lower-cased); a field that is absent or empty is a `MissingField`
error and a malformed email an `InvalidEmail` error; then the room is
fetched or created and the user added, a refusal of `addUser` being a
validation error with the duplicate kinds.  Every error is found before
any mutation, so a failed join hands back the state it received.  A join
is the transition out of `UNJOINED`; the one request of a connection that
has a session which is served is the reconnect with the identity of that
session, in which the stale entry is set aside by the duplicate check and
replaced; a closed connection, and a joined connection that asks for
another room or identity, get `notUnjoined`. -/
def join (E : Env) (st : State) (connectionId : String)
    (email username roomName : Option String) : JoinResult × State :=
  if sessionState st connectionId != .unjoined &&
      !isReconnect E st connectionId email username roomName then (.notUnjoined, st)
  else
    match email, username, roomName with
    | some email, some username, some roomName =>
      let email := E.toLowerCase (trim email)
      let username := trim username
      if email == "" || username == "" || normalizeRoomName E roomName == "" then
        (.validationError [.missingField], st)
      else if !E.isEmail email then
        (.validationError [.invalidEmail], st)
      else
        let (room, st1) := getOrCreateRoom E st roomName
        match addUser E room connectionId email username with
        | .error duplicateFields =>
          (.validationError (duplicateFields.map duplicateKind), st)
        | .ok (_, room1) => (.success, putRoom st1 room1)
    | _, _, _ => (.validationError [.missingField], st)

/-- Modelled from the spec: `leave(connectionId)` of the missing session
manager, an idempotent removal of the user of the connection from the
room it is joined to. -/
def leave (st : State) (connectionId : String) : State :=
  match sessionRoom st connectionId with
  | some room => putRoom st (removeUser room connectionId)
  | none => st

/-- Modelled from the spec: `onDisconnect(connectionId)` of the missing
session manager: the user of the connection, if it had joined, is
removed, and the session is `CLOSED` from then on. -/
def onDisconnect (st : State) (connectionId : String) : State :=
  let st1 := leave st connectionId
  { st1 with closed :=
      if st1.closed.contains connectionId then st1.closed
      else connectionId :: st1.closed }

/-- Modelled from the spec: `getActiveRoomNames()` of the missing room
registry, the names of the rooms with at least one active user, in
order of first activation. -/
def getActiveRoomNames (st : State) : List String :=
  (st.rooms.filter (fun r => !r.users.isEmpty)).map (fun r => r.name)

/-- Modelled from the spec: the requests the missing session manager
serves. -/
inductive Op where
  | join (connectionId : String) (email username roomName : Option String)
  | leave (connectionId : String)
  | disconnect (connectionId : String)
deriving DecidableEq

/-- Modelled from the spec: the state after the missing session manager
has served one request. -/
def step (E : Env) (st : State) : Op → State
  | .join c email username roomName => (join E st c email username roomName).2
  | .leave c => leave st c
  | .disconnect c => onDisconnect st c

/-- Modelled from the spec: the state after the missing session manager
has served a sequence of requests, one after the other. -/
def run (E : Env) (st : State) (ops : List Op) : State :=
  ops.foldl (step E) st

/-- Modelled from the spec: the registry of the missing room model at
start, without rooms and without closed connections. -/
def initial : State := { rooms := [], closed := [] }

/-- Modelled from the spec: a state is reachable when the missing session
manager gets to it from the initial state by serving requests. -/
def Reachable (E : Env) (st : State) : Prop :=
  ∃ ops : List Op, run E initial ops = st

/-- Modelled from the spec: per-room uniqueness of the identity of the
missing user model: no two active users of the room at different places of
its list have emails equal ignoring case, nor usernames equal ignoring
case. -/
def UniqueIn (E : Env) (room : Room) : Prop :=
  room.users.Pairwise (fun a b =>
    eqIgnoreCase E a.email b.email = false ∧
    eqIgnoreCase E a.username b.username = false)

/-- Modelled from the spec: the invariant of the state of the missing
registry: every room keeps the identities of its active users unique. -/
def Inv (E : Env) (st : State) : Prop := ∀ r ∈ st.rooms, UniqueIn E r

/-- Modelled from the spec: an instance of the platform functions for
examples: lower-casing of the letters `A` to `Z`, and an email test that
asks for an `@` with text on both sides. -/
def exampleEnv : Env :=
  { toLowerCase := fun s => ⟨s.data.map Char.toLower⟩,
    isEmail := fun s =>
      match s.data.span (fun c => c != '@') with
      | (_ :: _, _ :: _ :: _) => true
      | _ => false }

/-- Modelled from the spec: an example run of the missing session manager:
the same email and username join two rooms, and a second user joins the
second room. -/
def exampleOps : List Op :=
  [.join "a" (some " Kaye.Cenizal@Gmail.com ") (some "kaye") (some "JavaScript"),
   .join "b" (some "kaye.cenizal@gmail.com") (some "kaye") (some "css"),
   .join "c" (some "user2@gmail.com") (some "user2") (some " CSS ")]

/-- Modelled from the spec: the state the example run ends in. -/
def exampleState : State := run exampleEnv initial exampleOps

/-- Modelled from the spec: the example run of the missing session manager
followed by a reconnect: connection `b` joins the room of its session again
with the email and username of that session, written in another case. -/
def reconnectOps : List Op :=
  exampleOps ++ [.join "b" (some "Kaye.Cenizal@Gmail.com") (some "KAYE") (some "CSS")]

/-- Modelled from the spec: the names of the rooms of the missing registry,
in order of creation. -/
def roomNames (st : State) : List String := st.rooms.map (fun r => r.name)

/-- Modelled from the spec: the active-user list of the room of the given
normalised name in the missing registry, empty when there is no such
room. -/
def roomUsers (st : State) (key : String) : List User :=
  match lookupRoom st key with
  | some room => room.users
  | none => []

/-- Modelled from the spec: the record of the first activations: the names
seen active so far, followed by the names that are active now and were
never seen active before. -/
def recordActivations (seen active : List String) : List String :=
  seen ++ active.filter (fun n => !seen.contains n)

/-- Modelled from the spec: the record of first activations kept along a
run of the missing session manager: after every request the active-rooms
list is read and the names not seen before are appended. -/
def activationLog (E : Env) : State → List String → List Op → List String
  | _, seen, [] => seen
  | st, seen, op :: ops =>
    activationLog E (step E st op)
      (recordActivations seen (getActiveRoomNames (step E st op))) ops

/-- Modelled from the spec: the rooms in the order in which they were
first activated along a run of the missing session manager that starts
from the empty registry. -/
def firstActivationOrder (E : Env) (ops : List Op) : List String :=
  activationLog E initial [] ops

/-- Modelled from the spec: a sequence of joins to one room served by the
missing session manager, each given by connection, email and username;
the results are returned in order with the final state. -/
def joinAll (E : Env) (st : State) (roomName : String) :
    List (String × String × String) → List JoinResult × State
  | [] => ([], st)
  | (c, email, username) :: rest =>
    let served := join E st c (some email) (some username) (some roomName)
    let others := joinAll E served.2 roomName rest
    (served.1 :: others.1, others.2)

/-- Modelled from the spec: an example run of the missing session manager
after which the rooms `javascript`, `css` and `html` are active. -/
def threeRoomsOps : List Op :=
  [.join "a" (some "kaye.cenizal@gmail.com") (some "kaye") (some "javascript"),
   .join "b" (some "user1@gmail.com") (some "user1") (some "css"),
   .join "c" (some "user2@gmail.com") (some "user2") (some "html")]

/-- Modelled from the spec: an example run of the missing session manager
in which the room `css` empties and is joined again. -/
def refillOps : List Op :=
  threeRoomsOps ++
    [.disconnect "b",
     .join "d" (some "callie.par@gmail.com") (some "callie") (some "CSS")]

end Registry

/-! ## `public/js/common/common-fetch.js` -/

namespace CommonFetch

open JSVal

/-- What the client reads of the `Response` a `fetch` resolves to: the flag
`ok`, the status code, and what `response.json()` resolves to or rejects
with. -/
structure FetchResponse where
  ok : Bool
  status : Nat
  json : Except JSVal JSVal

/-- The function `fetch` of the browser: for a URL, the response its
promise resolves to, or the reason it rejects with. -/
abbrev Fetch := String → Except JSVal FetchResponse

/-- A call made by a client function: `fetch(url)` or `response.json()`. -/
inductive FetchCall where
  | fetch (url : String)
  | json
deriving DecidableEq

/-- What a run of a client function leaves behind: the value its promise
resolves to or the reason it rejects with, and the calls made in order. -/
structure FetchRun where
  result : Except JSVal JSVal
  calls : List FetchCall

/-- The error `new Error("An error has occured: " + response.status)`,
with the status written in decimal as the template literal does. -/
def statusError (status : Nat) : JSVal :=
  .obj [("name", .str "Error"), ("message", .str ("An error has occured: " ++ toString status))]

/-- The URL of the request of `isUserValid`, the template literal
`/validateUser?email=$(email)&username=$(username)&room=$(room)`: the three
values are put in as they are. -/
def validateUserUrl (email username room : String) : String :=
  "/validateUser?email=" ++ email ++ "&username=" ++ username ++ "&room=" ++ room

/-- The steps both client functions make once `fetch` has been called:
reject on a rejected fetch, throw the status error when the response is not
ok, else read the JSON body and return its property `key` (the
destructuring throws on a body that is `undefined` or `null`). -/
def readProperty (fetched : Except JSVal FetchResponse) (url key : String) : FetchRun :=
  match fetched with
  | .error e => { result := .error e, calls := [.fetch url] }
  | .ok response =>
    if !response.ok then
      { result := .error (statusError response.status), calls := [.fetch url] }
    else
      match response.json with
      | .error e => { result := .error e, calls := [.fetch url, .json] }
      | .ok body => { result := body.getProp key, calls := [.fetch url, .json] }

/-- Function `isUserValid`:
`async (email, username, room)`, which fetches the validation URL and
returns the `isValid` of the JSON body. -/
def isUserValid (fetch : Fetch) (email username room : String) : FetchRun :=
  readProperty (fetch (validateUserUrl email username room))
    (validateUserUrl email username room) "isValid"

/-- Function `getActiveRooms`: `async ()`, which fetches `/getActiveRooms`
and returns the `rooms` of the JSON body. -/
def getActiveRooms (fetch : Fetch) : FetchRun :=
  readProperty (fetch "/getActiveRooms") "/getActiveRooms" "rooms"

/-- An example `fetch` that answers `/getActiveRooms` with two rooms and
every other URL with status 404. -/
def exampleFetch : Fetch := fun url =>
  if url = "/getActiveRooms" then
    .ok { ok := true, status := 200,
          json := .ok (.obj [("rooms", .arr [.str "javascript", .str "python"])]) }
  else
    .ok { ok := false, status := 404, json := .ok (.obj [("error", .str "Not found")]) }

/-- An example `fetch` that answers every URL with status 200 and no active
room, and `isValid: true`. -/
def emptyFetch : Fetch := fun _ =>
  .ok { ok := true, status := 200,
        json := .ok (.obj [("rooms", .arr []), ("isValid", .bool true)]) }

/-! ### The request as the server reads it

The browser and the query parser of the server are libraries; they are
modelled here as far as the URL of `isUserValid` needs: the URL parser of
the browser (query state), and the parser behind `req.query` for keys
without brackets. -/

/-- The hexadecimal digit of a number below sixteen, in upper case. -/
def hexDigit (n : Nat) : Char :=
  if n < 10 then Char.ofNat (48 + n) else Char.ofNat (55 + n)

/-- The value of a hexadecimal digit. -/
def hexValue (c : Char) : Option Nat :=
  let n := c.toNat
  if 48 ≤ n ∧ n ≤ 57 then some (n - 48)
  else if 65 ≤ n ∧ n ≤ 70 then some (n - 55)
  else if 97 ≤ n ∧ n ≤ 102 then some (n - 87)
  else none

/-- The UTF-8 bytes of a character. -/
def utf8Bytes (c : Char) : List Nat :=
  let n := c.toNat
  if n < 128 then [n]
  else if n < 2048 then [192 + n / 64, 128 + n % 64]
  else if n < 65536 then [224 + n / 4096, 128 + (n / 64) % 64, 128 + n % 64]
  else [240 + n / 262144, 128 + (n / 4096) % 64, 128 + (n / 64) % 64, 128 + n % 64]

/-- Percent-encoding of one byte. -/
def percentByte (b : Nat) : List Char :=
  ['%', hexDigit (b / 16), hexDigit (b % 16)]

/-- Whether the URL parser of the browser percent-encodes a character of
the query: the controls, the blank, the two quotes, `<`, `>`, and all
above `~`. -/
def queryEncoded (c : Char) : Bool :=
  let n := c.toNat
  n ≤ 32 || n == 34 || n == 39 || n == 60 || n == 62 || n > 126

/-- The text of a URL without the controls and blanks at its start and at
its end, which the URL parser of the browser strips first. -/
def stripEnds (cs : List Char) : List Char :=
  ((cs.dropWhile (fun c => c.toNat ≤ 32)).reverse.dropWhile (fun c => c.toNat ≤ 32)).reverse

/-- The query string of the request the browser sends for a URL: controls
and blanks at the two ends are stripped, tabs and line breaks are dropped,
the query is what follows the first `?` up to the first `#` (where the
fragment, which is not sent, starts), and the characters of the query the
URL parser encodes are percent-encoded. -/
def sentQuery (url : String) : List Char :=
  let cleaned := (stripEnds url.data).filter
    (fun c => !(c.toNat == 9 || c.toNat == 10 || c.toNat == 13))
  let beforeFragment := cleaned.takeWhile (fun c => c != '#')
  let query := (beforeFragment.dropWhile (fun c => c != '?')).drop 1
  query.flatMap (fun c => if queryEncoded c then (utf8Bytes c).flatMap percentByte else [c])

/-- A character of an encoded text, or a byte written as `%XX`. -/
inductive Unit8 where
  | char (c : Char)
  | byte (b : Nat)

/-- The reading of `%XX` escapes; `none` when a `%` is not followed by two
hexadecimal digits. -/
def readEscapes : List Char → Option (List Unit8)
  | [] => some []
  | '%' :: a :: b :: rest =>
    match hexValue a, hexValue b, readEscapes rest with
    | some x, some y, some units => some (.byte (16 * x + y) :: units)
    | _, _, _ => none
  | '%' :: _ => none
  | c :: rest =>
    match readEscapes rest with
    | some units => some (.char c :: units)
    | none => none

/-- The UTF-8 decoding of the escaped bytes: `pending` holds the number of
continuation bytes still due, the code point gathered so far and the least
code point the sequence may stand for; `none` on a malformed sequence. -/
def decodeUnits : Option (Nat × Nat × Nat) → List Unit8 → Option (List Char)
  | none, [] => some []
  | some _, [] => none
  | none, .char c :: rest => (decodeUnits none rest).map (fun cs => c :: cs)
  | some _, .char _ :: _ => none
  | none, .byte b :: rest =>
    if b < 128 then (decodeUnits none rest).map (fun cs => Char.ofNat b :: cs)
    else if 192 ≤ b ∧ b < 224 then decodeUnits (some (1, b - 192, 128)) rest
    else if 224 ≤ b ∧ b < 240 then decodeUnits (some (2, b - 224, 2048)) rest
    else if 240 ≤ b ∧ b < 248 then decodeUnits (some (3, b - 240, 65536)) rest
    else none
  | some (k, acc, least), .byte b :: rest =>
    if 128 ≤ b ∧ b < 192 then
      let value := acc * 64 + (b - 128)
      if k = 1 then
        if least ≤ value ∧ value < 1114112 ∧ ¬ (55296 ≤ value ∧ value < 57344) then
          (decodeUnits none rest).map (fun cs => Char.ofNat value :: cs)
        else none
      else decodeUnits (some (k - 1, value, least)) rest
    else none

/-- The function `decodeURIComponent`; `none` stands for its `URIError`. -/
def decodeURIComponent (cs : List Char) : Option (List Char) :=
  match readEscapes cs with
  | some units => decodeUnits none units
  | none => none

/-- The decoder of the query parser: every `+` becomes a blank, then
`decodeURIComponent` is applied, and when that throws the text with the
blanks is kept. -/
def decodeComponent (cs : List Char) : String :=
  let withoutPlus := cs.map (fun c => if c == '+' then Char.ofNat 32 else c)
  match decodeURIComponent withoutPlus with
  | some decoded => ⟨decoded⟩
  | none => ⟨withoutPlus⟩

/-- The parts of a text between the occurrences of a separator. -/
def splitAt (sep : Char) : List Char → List (List Char)
  | [] => [[]]
  | c :: rest =>
    if c == sep then [] :: splitAt sep rest
    else
      match splitAt sep rest with
      | [] => [[c]]
      | part :: parts => (c :: part) :: parts

/-- Assignment of a parsed value to a key of the query object: a key that
has a value already gets the array of its values. -/
def addParam (key : String) (value : JSVal) : List (String × JSVal) → List (String × JSVal)
  | [] => [(key, value)]
  | (k, v) :: rest =>
    if k = key then
      match v with
      | .arr items => (k, .arr (items ++ [value])) :: rest
      | other => (k, .arr [other, value]) :: rest
    else (k, v) :: addParam key value rest

/-- The object `req.query` the server parses from a query string: the
string is cut at every `&`, each part at its first `=` (a part without
`=` has the empty value), key and value are decoded, and parts with an
empty key are dropped. -/
def parseQuery (query : List Char) : JSVal :=
  .obj ((splitAt '&' query).foldl
    (fun props part =>
      let key := decodeComponent (part.takeWhile (fun c => c != '='))
      let value := decodeComponent ((part.dropWhile (fun c => c != '=')).drop 1)
      if key = "" then props else addParam key (.str value) props)
    [])

/-- The object `req.query` of the request `isUserValid` makes. -/
def receivedQuery (email username room : String) : JSVal :=
  parseQuery (sentQuery (validateUserUrl email username room))

end CommonFetch

/-! ## `public/js/chat/chat-utils.js` -/

namespace ChatUtils

open JSVal

/-- What `autoscroll` reads of the last message: its `offsetHeight` and the
`marginBottom` of its computed style. -/
structure MessageBox where
  offsetHeight : Int
  marginBottom : String

/-- What `autoscroll` reads of the messages container `#messages-div`: its
last element child, if any, and its `offsetHeight`, `scrollHeight` and
`scrollTop`. -/
structure MessagesView where
  lastElementChild : Option MessageBox
  offsetHeight : Int
  scrollHeight : Int
  scrollTop : Int

/-- What `autoscroll` takes from its surroundings: the built-in `parseInt`
(`none` stands for `NaN`), the value `scrollTop` holds once a value has
been assigned to it (the browser keeps it within the scroll range), and
the flag `isMobile` of `common-utils`. -/
structure Browser where
  parseInt : String → Option Int
  scrollTopAfter : MessagesView → Int → Int
  isMobile : Bool

/-- A write made by `autoscroll`: the assignment to `messages.scrollTop`, or
`localStorage.setItem(key, value)`. -/
inductive DomWrite where
  | setScrollTop (value : Int)
  | setItem (key value : String)
deriving DecidableEq

/-- Whether a write is an assignment to `scrollTop`. -/
def DomWrite.isScroll : DomWrite → Bool
  | .setScrollTop _ => true
  | .setItem _ _ => false

/-- Function `autoscroll`.  `messages` is the container found when the
module was loaded (`none` for `null`).  The writes made are returned in
order; reading a property of `null` and `getComputedStyle(null)` throw. -/
def autoscroll (B : Browser) (messages : Option MessagesView) : Except JSVal (List DomWrite) :=
  match messages with
  | none => .error (typeError "Cannot read property lastElementChild of null")
  | some view =>
    match view.lastElementChild with
    | none => .error (typeError "getComputedStyle: parameter 1 is not of type Element")
    | some newMessage =>
      let scrolled : Bool :=
        match B.parseInt newMessage.marginBottom with
        | none => false
        | some newMessageMargin =>
          let newMessageHeight := newMessage.offsetHeight + newMessageMargin
          let visibleHeight := view.offsetHeight
          let containerHeight := view.scrollHeight
          let scrollOffset := view.scrollTop + visibleHeight
          decide (containerHeight - newMessageHeight ≤ scrollOffset)
      let scrollWrites := if scrolled then [DomWrite.setScrollTop view.scrollHeight] else []
      let scrollTopNow :=
        if scrolled then B.scrollTopAfter view view.scrollHeight else view.scrollTop
      let storeWrites :=
        if B.isMobile then [DomWrite.setItem "messages-scroll" (toString scrollTopNow)] else []
      .ok (scrollWrites ++ storeWrites)

/-- The number written by the leading digits of a text in the given
radix, `none` when the text starts with no such digit. -/
def readDigits (radix : Nat) (cs : List Char) : Option Int :=
  let digit : Char → Option Nat := fun c =>
    match CommonFetch.hexValue c with
    | some d => if d < radix then some d else none
    | none => none
  match cs.takeWhile (fun c => (digit c).isSome) with
  | [] => none
  | digits => some (Int.ofNat (digits.foldl (fun n c => radix * n + (digit c).getD 0) 0))

/-- The built-in `parseInt` called with one argument: white space at the
start is skipped, a sign is read, a prefix `0x` or `0X` makes the radix 16,
and the leading digits give the number; `none` stands for `NaN`. -/
def parseInt (s : String) : Option Int :=
  let cs := trimStart s.data
  let signed : Int × List Char :=
    match cs with
    | '-' :: rest => (-1, rest)
    | '+' :: rest => (1, rest)
    | _ => (1, cs)
  let magnitude :=
    match signed.2 with
    | '0' :: 'x' :: rest => readDigits 16 rest
    | '0' :: 'X' :: rest => readDigits 16 rest
    | rest => readDigits 10 rest
  magnitude.map (fun n => signed.1 * n)

/-- An example of the surroundings of `autoscroll`: the `parseInt` above, a
`scrollTop` that is kept between zero and the scroll height less the
visible height, on a mobile device. -/
def exampleBrowser : Browser :=
  { parseInt := parseInt,
    scrollTopAfter := fun view value => max 0 (min value (view.scrollHeight - view.offsetHeight)),
    isMobile := true }

/-- A `span` element as `toggleCollapseLinkText` sees it: its `textContent`
and its `innerHTML`. -/
structure Span where
  textContent : String
  innerHTML : String
deriving DecidableEq

/-- The double quote. -/
def quote : String := String.singleton (Char.ofNat 34)

/-- The markup of the angle-down icon, an `i` element of class
`fas fa-angle-down`. -/
def angleDown : String := "<i class=" ++ quote ++ "fas fa-angle-down" ++ quote ++ "></i>"

/-- The markup of the angle-up icon, an `i` element of class
`fas fa-angle-up`. -/
def angleUp : String := "<i class=" ++ quote ++ "fas fa-angle-up" ++ quote ++ "></i>"

/-- Function `toggleCollapseLinkText`.  The parent element is given by the
list `parentElement.querySelectorAll("span")` of its `span` elements, of
which the first two are taken to be apart (neither inside the other).
Assigning a plain text to `textContent` makes it the `innerHTML` too, and
assigning the icon markup to `innerHTML` leaves an empty `textContent`.
With fewer than two spans `link_text` is `undefined` and reading its
`textContent` throws. -/
def toggleCollapseLinkText (spans : List Span) : Except JSVal (List Span) :=
  match spans with
  | icon_span :: link_text :: rest =>
    if link_text.textContent = "Show less" then
      .ok ({ icon_span with innerHTML := angleDown, textContent := "" } ::
           { link_text with textContent := "Show more", innerHTML := "Show more" } :: rest)
    else
      .ok ({ icon_span with innerHTML := angleUp, textContent := "" } ::
           { link_text with textContent := "Show less", innerHTML := "Show less" } :: rest)
  | _ => .error (typeError "Cannot read property textContent of undefined")

/-- The pair of link text and icon markup shown by the first two spans. -/
def linkPair : List Span → Option (String × String)
  | icon_span :: link_text :: _ => some (link_text.textContent, icon_span.innerHTML)
  | _ => none

/-- Two calls of `toggleCollapseLinkText`, one after the other. -/
def toggleTwice (spans : List Span) : Except JSVal (List Span) :=
  match toggleCollapseLinkText spans with
  | .error e => .error e
  | .ok spans1 => toggleCollapseLinkText spans1

/-- The part of the DOM `removeTypingIndicatorMsg` uses, over documents of
type `δ` with elements of type `ε`: `document.querySelector(selector)`,
which gives the first element that matches (`none` for `null`) or throws,
and `element.remove()`. -/
structure Dom (δ ε : Type) where
  querySelector : δ → String → Except JSVal (Option ε)
  remove : δ → ε → δ

/-- The selector built by `removeTypingIndicatorMsg`, the template literal
`#$(username)-temp-msg-div`: the username is put in as it is. -/
def typingSelector (username : String) : String :=
  "#" ++ username ++ "-temp-msg-div"

/-- Function `removeTypingIndicatorMsg`: the document is queried with the
selector, and when an element is found it is queried again and what is
found then is removed. -/
def removeTypingIndicatorMsg {δ ε : Type} (D : Dom δ ε) (document : δ) (username : String) :
    Except JSVal δ :=
  match D.querySelector document (typingSelector username) with
  | .error e => .error e
  | .ok none => .ok document
  | .ok (some _) =>
    match D.querySelector document (typingSelector username) with
    | .error e => .error e
    | .ok none => .error (typeError "Cannot read property remove of null")
    | .ok (some element) => .ok (D.remove document element)

/-! ### A document for the examples

A document is the list of its elements in document order, each with its
id and its classes; selectors are read as far as they are an id selector
followed by class selectors. -/

/-- An element of an example document. -/
structure Element where
  id : String
  classes : List String
deriving DecidableEq

/-- Whether a character may stand in a CSS identifier: a letter, a digit,
`-`, `_`, or a character outside ASCII. -/
def isNameChar (c : Char) : Bool :=
  c.isAlphanum || c == '-' || c == '_' || c.toNat ≥ 128

/-- Whether a character may start a CSS identifier. -/
def isNameStart (c : Char) : Bool :=
  c.isAlpha || c == '_' || c.toNat ≥ 128

/-- Whether a run of name characters is a CSS identifier: it starts with a
name-start character, or with `-` followed by a name-start character or
another `-`. -/
def isIdentifier : List Char → Bool
  | [] => false
  | '-' :: c :: _ => isNameStart c || c == '-'
  | ['-'] => false
  | c :: _ => isNameStart c

/-- The class selectors that follow an id selector: each is a `.` and an
identifier; `none` when the text is not of that form. -/
def readClasses (fuel : Nat) (cs : List Char) : Option (List String) :=
  match fuel, cs with
  | _, [] => some []
  | 0, _ :: _ => none
  | fuel + 1, '.' :: rest =>
    let name := rest.takeWhile isNameChar
    if isIdentifier name then
      (readClasses fuel (rest.dropWhile isNameChar)).map (fun names => ⟨name⟩ :: names)
    else none
  | _ + 1, _ :: _ => none

/-- The reading of a selector of the form `#id.class.class`: the id and the
classes, or `none` when the selector is not of that form. -/
def readSelector (selector : String) : Option (String × List String) :=
  match selector.data with
  | '#' :: rest =>
    let name := rest.takeWhile isNameChar
    if isIdentifier name then
      (readClasses rest.length (rest.dropWhile isNameChar)).map (fun names => (⟨name⟩, names))
    else none
  | _ => none

/-- Whether a text is a run of id and class selectors, each a `#` or a `.`
followed by an identifier. -/
def readParts (fuel : Nat) (cs : List Char) : Bool :=
  match fuel, cs with
  | _, [] => true
  | 0, _ :: _ => false
  | fuel + 1, c :: rest =>
    (c == '#' || c == '.') && isIdentifier (rest.takeWhile isNameChar) &&
      readParts fuel (rest.dropWhile isNameChar)

/-- Whether a text is a compound selector made of a type selector, of id
and class selectors, or of both. -/
def isCompound (cs : List Char) : Bool :=
  let typeName := cs.takeWhile isNameChar
  !cs.isEmpty && (typeName.isEmpty || isIdentifier typeName) &&
    readParts cs.length (cs.dropWhile isNameChar)

/-- The parts of a selector between its runs of white space. -/
def splitBlanks (cs : List Char) : List (List Char) :=
  (cs.splitOnP isWhiteSpace).filter (fun part => !part.isEmpty)

/-- The exception an example document answers a selector it cannot read
with: the `SyntaxError` the browser throws for an invalid selector, which
here also stands for the selectors of the forms left out (attribute and
pseudo-class selectors, the combinators `>`, `+` and `~`, lists and
escapes). -/
def selectorError (selector : String) : JSVal :=
  .obj [("name", .str "SyntaxError"), ("message", .str (selector ++ " is not a valid selector"))]

/-- The example DOM: `querySelector` gives the place of the first element
with the id and all the classes of the selector, and `remove` takes the
element at a place out of the document.  A selector of several compound
selectors set apart by blanks asks for an element inside another; the
elements of an example document lie side by side, so it finds none. -/
def listDom : Dom (List Element) Nat :=
  { querySelector := fun document selector =>
      match readSelector selector with
      | some (id, classes) =>
        let place := document.findIdx
          (fun e => e.id == id && classes.all (fun c => e.classes.contains c))
        .ok (if place < document.length then some place else none)
      | none =>
        match splitBlanks selector.data with
        | first :: second :: more =>
          if (first :: second :: more).all isCompound then .ok none
          else .error (selectorError selector)
        | _ => .error (selectorError selector),
    remove := fun document place => document.eraseIdx place }

end ChatUtils

/-! ## Lemmas on trimming -/

namespace JSVal

theorem dropWhile_eq_nil_of_all (p : Char → Bool) (l : List Char)
    (h : ∀ c ∈ l, p c = true) : l.dropWhile p = [] := by
  induction l with
  | nil => rfl
  | cons a l ih =>
    have ha : p a = true := h a (List.mem_cons_self a l)
    have hl : ∀ c ∈ l, p c = true := fun c hc => h c (List.mem_cons_of_mem a hc)
    simp [List.dropWhile, ha, ih hl]

theorem dropWhile_ne_nil_of_exists (p : Char → Bool) (l : List Char)
    (h : ∃ c ∈ l, p c = false) : l.dropWhile p ≠ [] := by
  induction l with
  | nil => obtain ⟨c, hc, _⟩ := h; cases hc
  | cons a l ih =>
    cases hpa : p a with
    | false => simp [List.dropWhile, hpa]
    | true =>
      obtain ⟨c, hc, hpc⟩ := h
      rcases List.mem_cons.mp hc with rfl | hc'
      · rw [hpa] at hpc; cases hpc
      · simpa [List.dropWhile, hpa] using ih ⟨c, hc', hpc⟩

/-- What `dropWhile` removes satisfies the test, and what it keeps starts
with an element that fails it. -/
theorem dropWhile_split (p : Char → Bool) (l : List Char) :
    ∃ pre, (∀ c ∈ pre, p c = true) ∧ l = pre ++ l.dropWhile p ∧
      ∀ c, (l.dropWhile p).head? = some c → p c = false := by
  induction l with
  | nil => exact ⟨[], by simp, by simp, by simp⟩
  | cons a l ih =>
    cases hpa : p a with
    | false =>
      refine ⟨[], by simp, by simp [List.dropWhile, hpa], ?_⟩
      intro c hc
      simp [List.dropWhile, hpa] at hc
      rw [← hc]; exact hpa
    | true =>
      obtain ⟨pre, h1, h2, h3⟩ := ih
      refine ⟨a :: pre, ?_, ?_, ?_⟩
      · intro c hc
        rcases List.mem_cons.mp hc with rfl | hc'
        · exact hpa
        · exact h1 c hc'
      · simp only [List.dropWhile, hpa, List.cons_append]
        rw [← h2]
      · intro c hc
        simp only [List.dropWhile, hpa] at hc
        exact h3 c hc

theorem trimStart_split (l : List Char) :
    ∃ pre, (∀ c ∈ pre, isWhiteSpace c = true) ∧ l = pre ++ trimStart l ∧
      ∀ c, (trimStart l).head? = some c → isWhiteSpace c = false :=
  dropWhile_split isWhiteSpace l

theorem trimEnd_split (l : List Char) :
    ∃ post, (∀ c ∈ post, isWhiteSpace c = true) ∧ l = trimEnd l ++ post ∧
      ∀ c, (trimEnd l).getLast? = some c → isWhiteSpace c = false := by
  obtain ⟨pre, h1, h2, h3⟩ := dropWhile_split isWhiteSpace l.reverse
  refine ⟨pre.reverse, ?_, ?_, ?_⟩
  · intro c hc
    exact h1 c (List.mem_reverse.mp hc)
  · have := congrArg List.reverse h2
    simpa [trimEnd] using this
  · intro c hc
    apply h3 c
    simpa [trimEnd, List.getLast?_reverse] using hc

/-- A blank text trims to the empty string. -/
theorem trim_of_isBlank (s : String) (h : isBlank s) : trim s = "" := by
  have h1 : trimStart s.data = [] := dropWhile_eq_nil_of_all _ _ h
  simp [trim, h1, trimEnd]

/-- A text with a character that is not white space does not trim to the
empty string. -/
theorem trim_ne_empty (s : String) (h : ∃ c ∈ s.data, isWhiteSpace c = false) :
    trim s ≠ "" := by
  intro hcontra
  have hdata : trimEnd (trimStart s.data) = [] := by
    have := congrArg String.data hcontra
    simpa [trim] using this
  obtain ⟨post, hpost, hsplit, _⟩ := trimEnd_split (trimStart s.data)
  rw [hdata, List.nil_append] at hsplit
  have hne : trimStart s.data ≠ [] := dropWhile_ne_nil_of_exists _ _ h
  obtain ⟨pre, _, _, hhead⟩ := trimStart_split s.data
  cases hts : trimStart s.data with
  | nil => exact hne hts
  | cons a rest =>
    have ha : isWhiteSpace a = false := hhead a (by simp [hts])
    have ha' : isWhiteSpace a = true := hpost a (by rw [← hsplit, hts]; simp)
    rw [ha] at ha'; cases ha'

/-- The trimmed text is the text without a run of white space at its
start and one at its end, and it neither starts nor ends with white
space. -/
theorem trim_spec (s : String) :
    ∃ pre post, (∀ c ∈ pre, isWhiteSpace c = true) ∧
      (∀ c ∈ post, isWhiteSpace c = true) ∧
      s.data = pre ++ (trim s).data ++ post ∧
      (∀ c, (trim s).data.head? = some c → isWhiteSpace c = false) ∧
      (∀ c, (trim s).data.getLast? = some c → isWhiteSpace c = false) := by
  obtain ⟨pre, hpre, hsplit, hhead⟩ := trimStart_split s.data
  obtain ⟨post, hpost, hsplit2, hlast⟩ := trimEnd_split (trimStart s.data)
  refine ⟨pre, post, hpre, hpost, ?_, ?_, hlast⟩
  · show s.data = pre ++ trimEnd (trimStart s.data) ++ post
    rw [List.append_assoc, ← hsplit2, ← hsplit]
  · intro c hc
    apply hhead c
    have hc' : (trimEnd (trimStart s.data)).head? = some c := hc
    rw [hsplit2]
    cases hte : trimEnd (trimStart s.data) with
    | nil => rw [hte] at hc'; cases hc'
    | cons a rest => rw [hte] at hc'; simpa using hc'

/-- Trimming a trimmed text changes nothing. -/
theorem trim_trim (s : String) : trim (trim s) = trim s := by
  obtain ⟨_, _, _, _, _, hhead, hlast⟩ := trim_spec s
  have h1 : trimStart (trim s).data = (trim s).data := by
    cases hd : (trim s).data with
    | nil => rfl
    | cons a rest =>
      have ha : isWhiteSpace a = false := hhead a (by simp [hd])
      simp [trimStart, List.dropWhile, ha]
  have h2 : trimEnd (trim s).data = (trim s).data := by
    unfold trimEnd
    cases hd : (trim s).data.reverse with
    | nil =>
      have : (trim s).data = [] := by simpa using hd
      simp [this]
    | cons a rest =>
      have ha : isWhiteSpace a = false := by
        apply hlast a
        rw [← List.reverse_reverse (trim s).data, hd]
        simp
      have : (trim s).data = (a :: rest).reverse := by
        rw [← hd, List.reverse_reverse]
      rw [this]
      simp [List.dropWhile, ha]
  show (⟨trimEnd (trimStart (trim s).data)⟩ : String) = trim s
  rw [h1, h2]

end JSVal

/-! ## Theorems on `src/models/message.js` -/

namespace Message

open JSVal

theorem getProp_of_not_nullish (v : JSVal) (k : String) (h : isNullish v = false) :
    ∃ w, v.getProp k = .ok w := by
  cases v <;> simp [isNullish] at h <;> simp [getProp]

/-- The run of `generateMessage` on a user that is not nullish and a
string: either the trimmed text is empty and nothing happens, or `create`
is the first call, with the trimmed text. -/
theorem generateMessage_cases {σ : Type} (M : MessageStore σ) (user : JSVal)
    (t : String) (s : σ) (huser : isNullish user = false) :
    ∃ _id chatroom, user.getProp "_id" = .ok _id ∧ user.getProp "chatroom" = .ok chatroom ∧
      ((trim t = "" ∧
          generateMessage M user (.str t) s =
            { result := .ok .undefined, calls := [], store := s }) ∨
       (trim t ≠ "" ∧
          ∃ rest,
            (generateMessage M user (.str t) s).calls =
              .create (.obj [("sender", _id), ("chatroom", chatroom),
                             ("text", .str (trim t))]) :: rest ∧
            createCount rest = 0)) := by
  obtain ⟨_id, hid⟩ := getProp_of_not_nullish user "_id" huser
  obtain ⟨chatroom, hch⟩ := getProp_of_not_nullish user "chatroom" huser
  refine ⟨_id, chatroom, hid, hch, ?_⟩
  by_cases ht : trim t = ""
  · left
    refine ⟨ht, ?_⟩
    simp [generateMessage, hid, hch, callTrim, ht]
  · right
    refine ⟨ht, ?_⟩
    simp only [generateMessage, hid, hch, callTrim, ht, if_false]
    rcases hc : M.create (.obj [("sender", _id), ("chatroom", chatroom),
        ("text", .str (trim t))]) s with ⟨r, s1⟩
    cases r with
    | error e => exact ⟨[], by simp, rfl⟩
    | ok message =>
      rcases hp : M.execPopulate message "sender" "username email" s1 with ⟨r2, s2⟩
      cases r2 with
      | error e => exact ⟨[.execPopulate message "sender" "username email"], by simp [hp], rfl⟩
      | ok populated => exact ⟨[.execPopulate message "sender" "username email"], by simp [hp], rfl⟩

/-- C5: for every store, every user and every text that is empty or
consists of white space only, `generateMessage` makes no store call (so
`create` is never called) and leaves the store as it was; and for every
user that can be destructured (one that is neither `undefined` nor `null`)
it returns `undefined`, that is, no message. -/
theorem generateMessage_blank {σ : Type} (M : MessageStore σ) (user : JSVal)
    (t : String) (s : σ) (hblank : isBlank t) :
    (generateMessage M user (.str t) s).calls = [] ∧
    createCount (generateMessage M user (.str t) s).calls = 0 ∧
    (generateMessage M user (.str t) s).store = s ∧
    (isNullish user = false →
      (generateMessage M user (.str t) s).result = .ok .undefined) := by
  have ht : trim t = "" := trim_of_isBlank t hblank
  cases user <;> simp [generateMessage, getProp, callTrim, ht, isNullish, createCount]

theorem generateMessage_blank_witness :
    isBlank " \t\n " ∧
    (generateMessage memStore exampleUser (.str " \t\n ") exampleDb).calls = [] ∧
    (generateMessage memStore exampleUser (.str " \t\n ") exampleDb).store.messages = [] ∧
    (generateMessage memStore exampleUser (.str " \t\n ") exampleDb).result = .ok .undefined := by
  have hb : isBlank " \t\n " := by
    intro c hc
    simp at hc
    rcases hc with rfl | rfl | rfl | rfl <;> decide
  have h := generateMessage_blank memStore exampleUser " \t\n " exampleDb hb
  refine ⟨hb, h.1, ?_, h.2.2.2 rfl⟩
  rw [h.2.2.1]; rfl

/-- C6, as stated, fails: `damn` contains the blocklisted term `damn`, yet
`generateMessage` calls `create` with it, stores the message and returns
it. -/
theorem generateMessage_profane_counterexample :
    isProfane ["damn"] "damn" = true ∧
    (generateMessage memStore exampleUser (.str "damn") exampleDb).calls =
      [.create (.obj [("sender", .num 1), ("chatroom", .num 7), ("text", .str "damn")]),
       .execPopulate
         (.obj [("_id", .num 100), ("sender", .num 1), ("chatroom", .num 7),
                ("text", .str "damn"), ("createdAt", .num 1615000000000),
                ("updatedAt", .num 1615000000000), ("__v", .num 0)])
         "sender" "username email"] ∧
    (generateMessage memStore exampleUser (.str "damn") exampleDb).result =
      .ok (.obj [("sender", .obj [("email", .str "kaye.cenizal@gmail.com"),
                                  ("username", .str "kaye")]),
                 ("text", .str "damn"), ("createdAt", .num 1615000000000)]) ∧
    textsOf (.num 7)
      (generateMessage memStore exampleUser (.str "damn") exampleDb).store.messages =
      [.str "damn"] := by
  refine ⟨by decide, rfl, rfl, rfl⟩

/-- C6, amended: `generateMessage` applies no text filter.  For every store,
every user that can be destructured and every text that contains a
blocklisted term, it rejects before any persistence (no store call,
`undefined` returned, store unchanged) exactly when the text is empty
after trimming; otherwise it calls `create` exactly once, first of all,
with the trimmed text, as for any other text. -/
theorem generateMessage_profane {σ : Type} (M : MessageStore σ) (user : JSVal)
    (blocklist : List String) (t : String) (s : σ)
    (huser : isNullish user = false) (_hprofane : isProfane blocklist t = true) :
    (((generateMessage M user (.str t) s).calls = [] ∧
      (generateMessage M user (.str t) s).result = .ok .undefined ∧
      (generateMessage M user (.str t) s).store = s) ↔ trim t = "") ∧
    (trim t ≠ "" →
      ∃ _id chatroom rest,
        user.getProp "_id" = .ok _id ∧ user.getProp "chatroom" = .ok chatroom ∧
        (generateMessage M user (.str t) s).calls =
          .create (.obj [("sender", _id), ("chatroom", chatroom),
                         ("text", .str (trim t))]) :: rest ∧
        createCount (generateMessage M user (.str t) s).calls = 1) := by
  obtain ⟨_id, chatroom, hid, hch, h⟩ := generateMessage_cases M user t s huser
  rcases h with ⟨ht, hrun⟩ | ⟨ht, rest, hcalls, hrest⟩
  · refine ⟨⟨fun _ => ht, fun _ => ?_⟩, fun hne => absurd ht hne⟩
    rw [hrun]; exact ⟨rfl, rfl, rfl⟩
  · refine ⟨⟨fun h => ?_, fun h => absurd h ht⟩, fun _ => ?_⟩
    · rw [hcalls] at h; cases h.1
    · refine ⟨_id, chatroom, rest, hid, hch, hcalls, ?_⟩
      rw [hcalls]; simp [createCount, hrest]

theorem generateMessage_profane_witness :
    isNullish exampleUser = false ∧ isProfane ["damn"] "Damn it" = true ∧
    createCount (generateMessage memStore exampleUser (.str "Damn it") exampleDb).calls = 1 := by
  have h := generateMessage_profane memStore exampleUser ["damn"] "Damn it" exampleDb
    rfl (by decide)
  obtain ⟨_, _, _, _, _, _, hcount⟩ := h.2 (by decide)
  exact ⟨rfl, by decide, hcount⟩

/-- C7: for every message document whose `sender` is populated (is an
object), `dataCleanup` returns the record with `sender` holding the
`email` and the `username` of the sender, with the `text` and with the
`createdAt` of the document; the record has exactly the fields `sender`,
`text` and `createdAt`, its sender exactly `email` and `username`, and so
neither an `_id` nor a `chatroom`.  And when `create` and `execPopulate`
succeed, `generateMessage` returns `dataCleanup` of the created, populated
document. -/
theorem dataCleanup_record {σ : Type} (props sprops : List (String × JSVal))
    (hsender : lookup "sender" props = .obj sprops)
    (M : MessageStore σ) (uprops : List (String × JSVal)) (t : String) (s s1 s2 : σ)
    (message populated : JSVal) (ht : trim t ≠ "")
    (hcreate : M.create (.obj [("sender", lookup "_id" uprops),
        ("chatroom", lookup "chatroom" uprops), ("text", .str (trim t))]) s =
        (.ok message, s1))
    (hpopulate : M.execPopulate message "sender" "username email" s1 =
        (.ok populated, s2)) :
    dataCleanup (.obj props) =
      .ok (.obj [("sender", .obj [("email", lookup "email" sprops),
                                  ("username", lookup "username" sprops)]),
                 ("text", lookup "text" props),
                 ("createdAt", lookup "createdAt" props)]) ∧
    (∀ r, dataCleanup (.obj props) = .ok r →
      r.keys = ["sender", "text", "createdAt"] ∧
      (∀ sp, r.getProp "sender" = .ok sp → sp.keys = ["email", "username"]) ∧
      r.getProp "_id" = .ok .undefined ∧
      r.getProp "chatroom" = .ok .undefined) ∧
    (generateMessage M (.obj uprops) (.str t) s).result = dataCleanup populated := by
  have hclean : dataCleanup (.obj props) =
      .ok (.obj [("sender", .obj [("email", lookup "email" sprops),
                                  ("username", lookup "username" sprops)]),
                 ("text", lookup "text" props),
                 ("createdAt", lookup "createdAt" props)]) := by
    simp [dataCleanup, getProp, hsender]
  refine ⟨hclean, ?_, ?_⟩
  · intro r hr
    rw [hclean] at hr
    cases hr
    refine ⟨rfl, ?_, rfl, rfl⟩
    intro sp hsp
    simp [getProp, lookup] at hsp
    rw [← hsp]; rfl
  · simp [generateMessage, getProp, callTrim, ht, hcreate, hpopulate]

theorem dataCleanup_record_witness :
    dataCleanup
      (.obj [("_id", .num 100), ("sender", .obj [("_id", .num 1), ("username", .str "kaye"),
                ("email", .str "kaye.cenizal@gmail.com")]),
             ("chatroom", .num 7), ("text", .str "Hello!"), ("createdAt", .num 5),
             ("updatedAt", .num 5), ("__v", .num 0)]) =
      .ok (.obj [("sender", .obj [("email", .str "kaye.cenizal@gmail.com"),
                                  ("username", .str "kaye")]),
                 ("text", .str "Hello!"), ("createdAt", .num 5)]) ∧
    (generateMessage memStore exampleUser (.str " Hello! ") exampleDb).result =
      dataCleanup
        (.obj [("_id", .num 100), ("sender", .obj [("_id", .num 1), ("username", .str "kaye"),
                  ("email", .str "kaye.cenizal@gmail.com")]),
               ("chatroom", .num 7),
               ("text", .str "Hello!"), ("createdAt", .num 1615000000000),
               ("updatedAt", .num 1615000000000), ("__v", .num 0)]) := by
  have h := dataCleanup_record
    [("_id", .num 100), ("sender", .obj [("_id", .num 1), ("username", .str "kaye"),
        ("email", .str "kaye.cenizal@gmail.com")]),
     ("chatroom", .num 7), ("text", .str "Hello!"), ("createdAt", .num 5),
     ("updatedAt", .num 5), ("__v", .num 0)]
    [("_id", .num 1), ("username", .str "kaye"), ("email", .str "kaye.cenizal@gmail.com")]
    rfl memStore
    [("_id", .num 1), ("sessionId", .str "s1"), ("email", .str "kaye.cenizal@gmail.com"),
     ("username", .str "kaye"), ("chatroom", .num 7)]
    " Hello! " exampleDb
    (memCreate (.obj [("sender", .num 1), ("chatroom", .num 7), ("text", .str "Hello!")])
      exampleDb).2
    (memCreate (.obj [("sender", .num 1), ("chatroom", .num 7), ("text", .str "Hello!")])
      exampleDb).2
    (.obj [("_id", .num 100), ("sender", .num 1), ("chatroom", .num 7),
           ("text", .str "Hello!"), ("createdAt", .num 1615000000000),
           ("updatedAt", .num 1615000000000), ("__v", .num 0)])
    (.obj [("_id", .num 100), ("sender", .obj [("_id", .num 1), ("username", .str "kaye"),
              ("email", .str "kaye.cenizal@gmail.com")]),
           ("chatroom", .num 7),
           ("text", .str "Hello!"), ("createdAt", .num 1615000000000),
           ("updatedAt", .num 1615000000000), ("__v", .num 0)])
    (by decide) rfl rfl
  exact ⟨h.1, h.2.2⟩

theorem lookup_setProp_of_ne (k k2 : String) (v : JSVal) (props : List (String × JSVal))
    (h : k2 ≠ k) : lookup k2 (setProp k v props) = lookup k2 props := by
  induction props with
  | nil => rfl
  | cons p rest ih =>
    obtain ⟨k', w⟩ := p
    by_cases hk : k' = k
    · subst hk
      have hk2 : ¬ k' = k2 := fun h2 => h h2.symm
      simp [setProp, lookup, hk2]
    · by_cases hk2 : k' = k2
      · subst hk2
        simp [setProp, lookup, hk]
      · simp [setProp, lookup, hk, hk2, ih]

theorem dataCleanup_text (props : List (String × JSVal)) (r : JSVal)
    (h : dataCleanup (.obj props) = .ok r) :
    r.getProp "text" = .ok (lookup "text" props) := by
  unfold dataCleanup at h
  simp only [getProp] at h
  cases hs : lookup "sender" props <;> rw [hs] at h <;> simp at h <;>
    (rw [← h]; simp [getProp, lookup])

/-- The document `create` stores on the in-memory store. -/
theorem memCreate_ok (a b : JSVal) (t : String) (db : Db)
    (ha : isNullish a = false) (hb : isNullish b = false) (ht : trim t ≠ "") :
    memCreate (.obj [("sender", a), ("chatroom", b), ("text", .str t)]) db =
      (.ok (.obj [("_id", .num db.nextId), ("sender", a), ("chatroom", b),
                  ("text", .str (trim t)), ("createdAt", .num db.clock),
                  ("updatedAt", .num db.clock), ("__v", .num 0)]),
       { db with
         messages := db.messages ++
           [.obj [("_id", .num db.nextId), ("sender", a), ("chatroom", b),
                  ("text", .str (trim t)), ("createdAt", .num db.clock),
                  ("updatedAt", .num db.clock), ("__v", .num 0)]],
         nextId := db.nextId + 1 }) := by
  simp [memCreate, lookup, ha, hb, ht]

theorem memCreate_nullish (a b : JSVal) (t : String) (db : Db)
    (h : (isNullish a || isNullish b) = true) :
    ∃ e, memCreate (.obj [("sender", a), ("chatroom", b), ("text", .str t)]) db =
      (.error e, db) := by
  refine ⟨validationError "Message validation failed", ?_⟩
  simp only [Bool.or_eq_true] at h
  rcases h with h | h <;> simp [memCreate, lookup, h]

/-- C8: for every store, every user `{ _id, chatroom }` and every text with
a character that is not white space, `generateMessage` calls `create`
exactly once, first of all, with `sender` the `_id` of the user,
`chatroom` the chat room of the user and `text` the trimmed input.  The
trimmed input is the input without a run of white space at its start and
one at its end; it is not empty and neither starts nor ends with white
space.  On the in-memory store that follows the message schema, the
message appended to the stored ones has that text, and so has the
record returned. -/
theorem generateMessage_creates {σ : Type} (M : MessageStore σ)
    (uprops : List (String × JSVal)) (t : String) (s : σ) (db : Db)
    (h : ∃ c ∈ t.data, isWhiteSpace c = false) :
    (∃ rest,
      (generateMessage M (.obj uprops) (.str t) s).calls =
        .create (.obj [("sender", lookup "_id" uprops),
                       ("chatroom", lookup "chatroom" uprops),
                       ("text", .str (trim t))]) :: rest ∧
      createCount rest = 0) ∧
    createCount (generateMessage M (.obj uprops) (.str t) s).calls = 1 ∧
    trim t ≠ "" ∧
    (∃ pre post, (∀ c ∈ pre, isWhiteSpace c = true) ∧
      (∀ c ∈ post, isWhiteSpace c = true) ∧
      t.data = pre ++ (trim t).data ++ post) ∧
    (∀ c, (trim t).data.head? = some c → isWhiteSpace c = false) ∧
    (∀ c, (trim t).data.getLast? = some c → isWhiteSpace c = false) ∧
    (isNullish (lookup "_id" uprops) = false →
      isNullish (lookup "chatroom" uprops) = false →
      ∃ stored,
        (generateMessage memStore (.obj uprops) (.str t) db).store.messages =
          db.messages ++ [stored] ∧
        stored.getProp "text" = .ok (.str (trim t))) ∧
    (∀ r, (generateMessage memStore (.obj uprops) (.str t) db).result = .ok r →
      r.getProp "text" = .ok (.str (trim t))) := by
  have hne : trim t ≠ "" := trim_ne_empty t h
  obtain ⟨pre, post, hpre, hpost, hsplit, hhead, hlast⟩ := trim_spec t
  obtain ⟨_id, chatroom, hid, hch, hcases⟩ :=
    generateMessage_cases M (.obj uprops) t s rfl
  have hid' : _id = lookup "_id" uprops := by
    simp [getProp] at hid; exact hid.symm
  have hch' : chatroom = lookup "chatroom" uprops := by
    simp [getProp] at hch; exact hch.symm
  subst hid' hch'
  rcases hcases with ⟨ht, _⟩ | ⟨_, rest, hcalls, hrest⟩
  · exact absurd ht hne
  have htt : trim (trim t) = trim t := trim_trim t
  refine ⟨⟨rest, hcalls, hrest⟩, ?_, hne, ⟨pre, post, hpre, hpost, hsplit⟩, hhead, hlast,
    ?_, ?_⟩
  · rw [hcalls]; simp [createCount, hrest]
  · intro h1 h2
    have hc := memCreate_ok (lookup "_id" uprops) (lookup "chatroom" uprops) (trim t) db
      h1 h2 (by rw [htt]; exact hne)
    rw [htt] at hc
    refine ⟨.obj [("_id", .num db.nextId), ("sender", lookup "_id" uprops),
      ("chatroom", lookup "chatroom" uprops), ("text", .str (trim t)),
      ("createdAt", .num db.clock), ("updatedAt", .num db.clock), ("__v", .num 0)], ?_, ?_⟩
    · simp [generateMessage, getProp, callTrim, hne, memStore, hc, memExecPopulate]
    · simp [getProp, lookup]
  · intro r hr
    by_cases hnull : (isNullish (lookup "_id" uprops) ||
        isNullish (lookup "chatroom" uprops)) = true
    · obtain ⟨e, he⟩ := memCreate_nullish (lookup "_id" uprops) (lookup "chatroom" uprops)
        (trim t) db hnull
      simp [generateMessage, getProp, callTrim, hne, memStore, he] at hr
    · simp only [Bool.or_eq_true, not_or, Bool.not_eq_true] at hnull
      have hc := memCreate_ok (lookup "_id" uprops) (lookup "chatroom" uprops) (trim t) db
        hnull.1 hnull.2 (by rw [htt]; exact hne)
      rw [htt] at hc
      simp only [generateMessage, getProp, callTrim, hne, memStore, hc, memExecPopulate,
        if_false] at hr
      have := dataCleanup_text _ r hr
      rw [this, lookup_setProp_of_ne _ _ _ _ (by decide)]
      simp [lookup]

theorem generateMessage_creates_witness :
    (∃ c ∈ " Hello!\n".data, isWhiteSpace c = false) ∧
    (generateMessage memStore exampleUser (.str " Hello!\n") exampleDb).calls.head? =
      some (.create (.obj [("sender", .num 1), ("chatroom", .num 7),
                           ("text", .str "Hello!")])) ∧
    createCount (generateMessage memStore exampleUser (.str " Hello!\n") exampleDb).calls = 1 ∧
    textsOf (.num 7)
      (generateMessage memStore exampleUser (.str " Hello!\n") exampleDb).store.messages =
      [.str "Hello!"] := by
  have hex : ∃ c ∈ " Hello!\n".data, isWhiteSpace c = false :=
    ⟨'H', by decide, by decide⟩
  have h := generateMessage_creates memStore
    [("_id", .num 1), ("sessionId", .str "s1"), ("email", .str "kaye.cenizal@gmail.com"),
     ("username", .str "kaye"), ("chatroom", .num 7)]
    " Hello!\n" exampleDb exampleDb hex
  obtain ⟨⟨rest, hcalls, _⟩, hcount, _⟩ := h
  refine ⟨hex, ?_, hcount, rfl⟩
  show (generateMessage memStore
    (.obj [("_id", .num 1), ("sessionId", .str "s1"), ("email", .str "kaye.cenizal@gmail.com"),
     ("username", .str "kaye"), ("chatroom", .num 7)])
    (.str " Hello!\n") exampleDb).calls.head? = _
  rw [hcalls]
  rfl

/-- C9: for every chat room, text and clock reading, `generateAdminNotif`
returns the record with `sender` exactly `{ username: "Admin" }` (so
without email), with the chat room and the text it was given, unchanged,
and with `createdAt` the clock reading; the record has the fields
`sender`, `chatroom`, `text` and `createdAt` only, so no `_id`; and the
run makes no store call and leaves the store as it was. -/
theorem generateAdminNotif_record {σ : Type} (now : Int) (chatroom text : JSVal) (s : σ) :
    (generateAdminNotif now chatroom text s).result =
      .ok (.obj [("sender", .obj [("username", .str "Admin")]),
                 ("chatroom", chatroom), ("text", text), ("createdAt", .num now)]) ∧
    (∀ r, (generateAdminNotif now chatroom text s).result = .ok r →
      r.keys = ["sender", "chatroom", "text", "createdAt"] ∧
      r.getProp "sender" = .ok (.obj [("username", .str "Admin")]) ∧
      (∀ sp, r.getProp "sender" = .ok sp →
        sp.keys = ["username"] ∧ sp.getProp "username" = .ok (.str "Admin") ∧
        sp.getProp "email" = .ok .undefined) ∧
      r.getProp "chatroom" = .ok chatroom ∧
      r.getProp "text" = .ok text ∧
      r.getProp "createdAt" = .ok (.num now) ∧
      r.getProp "_id" = .ok .undefined) ∧
    (generateAdminNotif now chatroom text s).calls = [] ∧
    (generateAdminNotif now chatroom text s).store = s := by
  refine ⟨rfl, ?_, rfl, rfl⟩
  intro r hr
  simp only [generateAdminNotif, Except.ok.injEq] at hr
  subst hr
  refine ⟨rfl, rfl, ?_, rfl, rfl, rfl, rfl⟩
  intro sp hsp
  simp only [getProp, lookup, if_true, Except.ok.injEq] at hsp
  subst hsp
  exact ⟨rfl, rfl, rfl⟩

end Message

/-! ## Theorems on `src/router/room.js` -/

namespace RoomRouter

open JSVal

/-- C3: for every request whose room name matches no stored room (the
lookup `Room.findOne({ name: room })` resolves to `null`), whatever the
email and the username are, the handler sends one response, with status
200 and body `{ isValid: true }`, lets no exception out, and makes no call
but the lookup: the access check is not invoked. -/
theorem validateUser_unknown_room {ρ : Type} (R : RoomModel ρ)
    (qprops : List (String × JSVal))
    (hroom : R.findOne (.obj [("name", lookup "room" qprops)]) = .ok none) :
    (validateUser R (.obj qprops)).responses =
      [{ status := 200, body := .obj [("isValid", .bool true)] }] ∧
    (validateUser R (.obj qprops)).calls =
      [.findOne (.obj [("name", lookup "room" qprops)])] ∧
    (validateUser R (.obj qprops)).calls.all (fun c => !c.isAccessCheck) = true ∧
    (validateUser R (.obj qprops)).escaped = none := by
  simp [validateUser, getProp, hroom, RoomCall.isAccessCheck]

theorem validateUser_unknown_room_witness :
    (validateUser exampleRooms
      (exampleQuery "kaye.cenizal@gmail.com" "kaye" "node.js")).responses =
      [{ status := 200, body := .obj [("isValid", .bool true)] }] :=
  (validateUser_unknown_room exampleRooms
    [("email", .str "kaye.cenizal@gmail.com"), ("username", .str "kaye"),
     ("room", .str "node.js")] rfl).1

/-- C4: for every request whose room exists (the lookup resolves to a room
document) and whose access check, called on that room with the email and
the username of the request, returns a value, the handler sends one
response, with status 200 and with that value as `isValid`; it makes the
lookup and that one call of the access check and nothing else, and lets
no exception out. -/
theorem validateUser_existing_room {ρ : Type} (R : RoomModel ρ)
    (qprops : List (String × JSVal)) (chatRoom : ρ) (isValid : JSVal)
    (hroom : R.findOne (.obj [("name", lookup "room" qprops)]) = .ok (some chatRoom))
    (hcheck : R.validateUser chatRoom (lookup "email" qprops) (lookup "username" qprops) =
      .ok isValid) :
    (validateUser R (.obj qprops)).responses =
      [{ status := 200, body := .obj [("isValid", isValid)] }] ∧
    (validateUser R (.obj qprops)).calls =
      [.findOne (.obj [("name", lookup "room" qprops)]),
       .validateUser chatRoom (lookup "email" qprops) (lookup "username" qprops)] ∧
    (validateUser R (.obj qprops)).escaped = none := by
  simp [validateUser, getProp, hroom, hcheck]

theorem validateUser_existing_room_witness :
    (validateUser exampleRooms
      (exampleQuery "kaye.cenizal@gmail.com" "catherine" "javascript")).responses =
      [{ status := 200, body := .obj [("isValid", .bool false)] }] :=
  (validateUser_existing_room exampleRooms
    [("email", .str "kaye.cenizal@gmail.com"), ("username", .str "catherine"),
     ("room", .str "javascript")] ["kaye.cenizal@gmail.com"] (.bool false) rfl rfl).1

end RoomRouter

/-! ## Theorems on the room registry and the session manager -/

namespace Registry

open JSVal

theorem inv_initial (E : Env) : Inv E initial := by
  intro r hr
  cases hr

theorem inv_putRoom (E : Env) (st : State) (room : Room)
    (hst : Inv E st) (hroom : UniqueIn E room) : Inv E (putRoom st room) := by
  intro r hr
  simp only [putRoom, List.mem_map] at hr
  obtain ⟨r0, hr0, rfl⟩ := hr
  by_cases hn : (r0.name == room.name) = true
  · simp only [hn, if_true]; exact hroom
  · simp only [hn]; exact hst r0 hr0

theorem uniqueIn_removeUser (E : Env) (room : Room) (c : String)
    (h : UniqueIn E room) : UniqueIn E (removeUser room c) := by
  unfold UniqueIn removeUser
  exact List.Pairwise.sublist (List.filter_sublist _) h

theorem sessionRoom_mem (st : State) (c : String) (room : Room)
    (h : sessionRoom st c = some room) : room ∈ st.rooms :=
  List.mem_of_find?_eq_some h

theorem inv_leave (E : Env) (st : State) (c : String) (hst : Inv E st) :
    Inv E (leave st c) := by
  unfold leave
  cases hs : sessionRoom st c with
  | none => exact hst
  | some room =>
    exact inv_putRoom E st _ hst
      (uniqueIn_removeUser E room c (hst room (sessionRoom_mem st c room hs)))

theorem inv_onDisconnect (E : Env) (st : State) (c : String) (hst : Inv E st) :
    Inv E (onDisconnect st c) := by
  intro r hr
  exact inv_leave E st c hst r hr

/-- What `getOrCreateRoom` hands back: a room that keeps its users unique,
and a registry that still does. -/
theorem inv_getOrCreateRoom (E : Env) (st : State) (name : String) (hst : Inv E st) :
    UniqueIn E (getOrCreateRoom E st name).1 ∧ Inv E (getOrCreateRoom E st name).2 := by
  unfold getOrCreateRoom
  cases hf : findRoom E st name with
  | some room =>
    exact ⟨hst room (List.mem_of_find?_eq_some hf), hst⟩
  | none =>
    refine ⟨List.Pairwise.nil, ?_⟩
    intro r hr
    simp only [List.mem_append, List.mem_singleton] at hr
    rcases hr with hr | rfl
    · exact hst r hr
    · exact List.Pairwise.nil

theorem comparedUsers_sublist (E : Env) (room : Room) (caller : Option String)
    (email username : String) :
    (comparedUsers E room caller email username).Sublist room.users := by
  cases caller with
  | none => exact List.Sublist.refl _
  | some c => exact List.filter_sublist _

theorem comparedUsers_nil (E : Env) (name : String) (caller : Option String)
    (email username : String) :
    comparedUsers E { name := name, users := [] } caller email username = [] := by
  cases caller <;> rfl

/-- The users the check compares against when the connection of the caller
has no entry in the room: all of them. -/
theorem comparedUsers_of_absent (E : Env) (room : Room) (c email username : String)
    (h : ∀ u ∈ room.users, u.connectionId ≠ c) :
    comparedUsers E room (some c) email username = room.users := by
  simp only [comparedUsers]
  rw [List.filter_eq_self]
  intro u hu
  have : (u.connectionId == c) = false := by simpa using h u hu
  simp [isReplaced, this]

/-- When access is allowed, no active user the check compares against has
the email or the username, ignoring case. -/
theorem checkUserAccess_allowed (E : Env) (room : Room) (caller : Option String)
    (email username : String)
    (h : (checkUserAccess E room caller email username).isAllowed = true) :
    ∀ u ∈ comparedUsers E room caller email username,
      eqIgnoreCase E u.email email = false ∧ eqIgnoreCase E u.username username = false := by
  unfold checkUserAccess at h
  simp only at h
  cases h1 : (comparedUsers E room caller email username).any
      (fun u => eqIgnoreCase E u.email email) with
  | true => simp [h1] at h
  | false =>
    cases h2 : (comparedUsers E room caller email username).any
        (fun u => eqIgnoreCase E u.username username) with
    | true => simp [h1, h2] at h
    | false =>
      intro u hu
      rw [List.any_eq_false] at h1 h2
      exact ⟨by simpa using h1 u hu, by simpa using h2 u hu⟩

/-- What a successful `addUser` hands back. -/
theorem addUser_ok (E : Env) (room room1 : Room) (c email username : String) (user : User)
    (h : addUser E room c email username = .ok (user, room1)) :
    (checkUserAccess E room (some c) email username).isAllowed = true ∧
    user = { connectionId := c, email := email, username := username, room := room.name } ∧
    room1 = { room with users := comparedUsers E room (some c) email username ++ [user] } := by
  unfold addUser at h
  simp only at h
  by_cases ha : (checkUserAccess E room (some c) email username).isAllowed = true
  · simp only [ha, if_true, Except.ok.injEq, Prod.mk.injEq] at h
    obtain ⟨rfl, rfl⟩ := h
    exact ⟨ha, rfl, rfl⟩
  · simp [ha] at h

theorem uniqueIn_addUser (E : Env) (room room1 : Room) (c email username : String)
    (user : User) (hroom : UniqueIn E room)
    (h : addUser E room c email username = .ok (user, room1)) : UniqueIn E room1 := by
  obtain ⟨ha, rfl, rfl⟩ := addUser_ok E room room1 c email username user h
  have hfree := checkUserAccess_allowed E room (some c) email username ha
  unfold UniqueIn
  simp only
  rw [List.pairwise_append]
  refine ⟨List.Pairwise.sublist (comparedUsers_sublist E room (some c) email username) hroom,
    List.pairwise_singleton _ _, ?_⟩
  intro a ha' b hb
  rw [List.mem_singleton] at hb
  subst hb
  exact hfree a ha'

theorem inv_join (E : Env) (st : State) (c : String) (email username roomName : Option String)
    (hst : Inv E st) : Inv E (join E st c email username roomName).2 := by
  unfold join
  split
  · exact hst
  · split
    · rename_i e u r _
      simp only
      split
      · exact hst
      · split
        · exact hst
        · have hg := inv_getOrCreateRoom E st r hst
          split
          · exact hst
          · rename_i user room1 hadd
            exact inv_putRoom E _ room1 hg.2 (uniqueIn_addUser E _ room1 _ _ _ user hg.1 hadd)
    · exact hst

theorem inv_step (E : Env) (st : State) (op : Op) (hst : Inv E st) : Inv E (step E st op) := by
  cases op with
  | join c email username roomName => exact inv_join E st c email username roomName hst
  | leave c => exact inv_leave E st c hst
  | disconnect c => exact inv_onDisconnect E st c hst

theorem inv_run (E : Env) (ops : List Op) (st : State) (hst : Inv E st) :
    Inv E (run E st ops) := by
  induction ops generalizing st with
  | nil => exact hst
  | cons op ops ih => exact ih (step E st op) (inv_step E st op hst)

theorem eqIgnoreCase_comm (E : Env) (a b : String) :
    eqIgnoreCase E a b = eqIgnoreCase E b a := by
  unfold eqIgnoreCase
  by_cases h : E.toLowerCase a = E.toLowerCase b
  · simp [h]
  · have h' : ¬ E.toLowerCase b = E.toLowerCase a := fun h2 => h h2.symm
    simp [h, h']

/-- C1: in every state reachable by a sequence of join, leave and
disconnect requests, and for every room, two active users at different
places of the list of the room have emails that differ even when case is
ignored, and usernames that differ even when case is ignored. -/
theorem reachable_unique (E : Env) (st : State) (hreach : Reachable E st)
    (room : Room) (hroom : room ∈ st.rooms)
    (i j : Fin room.users.length) (hij : i ≠ j) :
    eqIgnoreCase E (room.users.get i).email (room.users.get j).email = false ∧
    eqIgnoreCase E (room.users.get i).username (room.users.get j).username = false := by
  obtain ⟨ops, rfl⟩ := hreach
  have hu : UniqueIn E room := inv_run E ops initial (inv_initial E) room hroom
  unfold UniqueIn at hu
  rw [List.pairwise_iff_get] at hu
  rcases Nat.lt_or_gt_of_ne (fun h => hij (Fin.ext h)) with hlt | hgt
  · exact hu i j hlt
  · have := hu j i hgt
    rw [eqIgnoreCase_comm E (room.users.get i).email, eqIgnoreCase_comm E (room.users.get i).username]
    exact this

theorem reachable_unique_witness :
    Reachable exampleEnv (run exampleEnv initial reconnectOps) ∧
    (join exampleEnv exampleState "b" (some "Kaye.Cenizal@Gmail.com") (some "KAYE")
      (some "CSS")).1 = .success ∧
    (run exampleEnv initial reconnectOps).rooms =
      [{ name := "javascript",
         users := [{ connectionId := "a", email := "kaye.cenizal@gmail.com",
                     username := "kaye", room := "javascript" }] },
       { name := "css",
         users := [{ connectionId := "c", email := "user2@gmail.com",
                     username := "user2", room := "css" },
                   { connectionId := "b", email := "kaye.cenizal@gmail.com",
                     username := "KAYE", room := "css" }] }] ∧
    eqIgnoreCase exampleEnv "user2@gmail.com" "kaye.cenizal@gmail.com" = false ∧
    eqIgnoreCase exampleEnv "user2" "KAYE" = false :=
  ⟨⟨reconnectOps, rfl⟩, by decide, by decide,
    reachable_unique exampleEnv (run exampleEnv initial reconnectOps) ⟨reconnectOps, rfl⟩
      { name := "css",
        users := [{ connectionId := "c", email := "user2@gmail.com",
                    username := "user2", room := "css" },
                  { connectionId := "b", email := "kaye.cenizal@gmail.com",
                    username := "KAYE", room := "css" }] }
      (by decide) ⟨0, by decide⟩ ⟨1, by decide⟩ (by decide)⟩

/-- C2, the claim as worded fails on a reconnect: the room `css` holds the
session of connection `b`, and the check made for `b` with the email and
username of that session sets the entry aside, so it reports no duplicate
field and allows access although an active user of the room has that
email and that username. -/
theorem checkUserAccess_duplicateFields_counterexample :
    checkUserAccess exampleEnv
      { name := "css",
        users := [{ connectionId := "b", email := "user2@gmail.com", username := "user2",
                    room := "css" }] }
      (some "b") "user2@gmail.com" "user2" =
      { isAllowed := true, duplicateFields := [] } ∧
    ¬ (Field.email ∈ (checkUserAccess exampleEnv
        { name := "css",
          users := [{ connectionId := "b", email := "user2@gmail.com", username := "user2",
                      room := "css" }] }
        (some "b") "user2@gmail.com" "user2").duplicateFields ↔
      ∃ u ∈ ({ name := "css",
               users := [{ connectionId := "b", email := "user2@gmail.com",
                           username := "user2", room := "css" }] } : Room).users,
        exampleEnv.toLowerCase u.email = exampleEnv.toLowerCase "user2@gmail.com") := by
  refine ⟨by decide, ?_⟩
  intro h
  have hmem := h.mpr
    ⟨{ connectionId := "b", email := "user2@gmail.com", username := "user2", room := "css" },
      by simp, rfl⟩
  revert hmem
  decide

/-- C2, amended: for every room, caller, email and username, the duplicate
fields `checkUserAccess` reports contain `email` exactly when some active
user of the room, other than the prior entry of the caller that is being
replaced, has the same email ignoring case, and `username` exactly when
some such user has the same username ignoring case; access is allowed
exactly when no duplicate field is reported.  The entry set aside is the
one of the connection of the caller with the same email and username; for
a caller without a connection, and for a connection without an entry in
the room, the check is against all active users of the room. -/
theorem checkUserAccess_duplicateFields (E : Env) (room : Room) (caller : Option String)
    (email username : String) :
    (Field.email ∈ (checkUserAccess E room caller email username).duplicateFields ↔
      ∃ u ∈ room.users, (∀ c, caller = some c → isReplaced E c email username u = false) ∧
        E.toLowerCase u.email = E.toLowerCase email) ∧
    (Field.username ∈ (checkUserAccess E room caller email username).duplicateFields ↔
      ∃ u ∈ room.users, (∀ c, caller = some c → isReplaced E c email username u = false) ∧
        E.toLowerCase u.username = E.toLowerCase username) ∧
    ((checkUserAccess E room caller email username).isAllowed = true ↔
      (checkUserAccess E room caller email username).duplicateFields = []) ∧
    (∀ u c, isReplaced E c email username u = true ↔
      u.connectionId = c ∧ E.toLowerCase u.email = E.toLowerCase email ∧
        E.toLowerCase u.username = E.toLowerCase username) ∧
    ((caller = none ∨ ∃ c, caller = some c ∧ ∀ u ∈ room.users, u.connectionId ≠ c) →
      (Field.email ∈ (checkUserAccess E room caller email username).duplicateFields ↔
        ∃ u ∈ room.users, E.toLowerCase u.email = E.toLowerCase email) ∧
      (Field.username ∈ (checkUserAccess E room caller email username).duplicateFields ↔
        ∃ u ∈ room.users, E.toLowerCase u.username = E.toLowerCase username)) := by
  have hmem : ∀ u, u ∈ comparedUsers E room caller email username ↔
      u ∈ room.users ∧ ∀ c, caller = some c → isReplaced E c email username u = false := by
    intro u
    cases caller with
    | none => simp [comparedUsers]
    | some c => simp [comparedUsers, List.mem_filter]
  have he : (comparedUsers E room caller email username).any
        (fun u => eqIgnoreCase E u.email email) = true ↔
      ∃ u ∈ room.users, (∀ c, caller = some c → isReplaced E c email username u = false) ∧
        E.toLowerCase u.email = E.toLowerCase email := by
    rw [List.any_eq_true]
    constructor
    · rintro ⟨u, hu, heq⟩
      exact ⟨u, ((hmem u).mp hu).1, ((hmem u).mp hu).2, by simpa [eqIgnoreCase] using heq⟩
    · rintro ⟨u, hu, hrep, heq⟩
      exact ⟨u, (hmem u).mpr ⟨hu, hrep⟩, by simpa [eqIgnoreCase] using heq⟩
  have hu : (comparedUsers E room caller email username).any
        (fun u => eqIgnoreCase E u.username username) = true ↔
      ∃ u ∈ room.users, (∀ c, caller = some c → isReplaced E c email username u = false) ∧
        E.toLowerCase u.username = E.toLowerCase username := by
    rw [List.any_eq_true]
    constructor
    · rintro ⟨u, hu, heq⟩
      exact ⟨u, ((hmem u).mp hu).1, ((hmem u).mp hu).2, by simpa [eqIgnoreCase] using heq⟩
    · rintro ⟨u, hu, hrep, heq⟩
      exact ⟨u, (hmem u).mpr ⟨hu, hrep⟩, by simpa [eqIgnoreCase] using heq⟩
  have h1 : Field.email ∈ (checkUserAccess E room caller email username).duplicateFields ↔
      ∃ u ∈ room.users, (∀ c, caller = some c → isReplaced E c email username u = false) ∧
        E.toLowerCase u.email = E.toLowerCase email := by
    rw [← he]
    unfold checkUserAccess
    simp only
    cases (comparedUsers E room caller email username).any
        (fun u => eqIgnoreCase E u.email email) <;>
      cases (comparedUsers E room caller email username).any
        (fun u => eqIgnoreCase E u.username username) <;> simp
  have h2 : Field.username ∈ (checkUserAccess E room caller email username).duplicateFields ↔
      ∃ u ∈ room.users, (∀ c, caller = some c → isReplaced E c email username u = false) ∧
        E.toLowerCase u.username = E.toLowerCase username := by
    rw [← hu]
    unfold checkUserAccess
    simp only
    cases (comparedUsers E room caller email username).any
        (fun u => eqIgnoreCase E u.email email) <;>
      cases (comparedUsers E room caller email username).any
        (fun u => eqIgnoreCase E u.username username) <;> simp
  refine ⟨h1, h2, ?_, ?_, ?_⟩
  · unfold checkUserAccess
    simp only
    cases (comparedUsers E room caller email username).any
        (fun u => eqIgnoreCase E u.email email) <;>
      cases (comparedUsers E room caller email username).any
        (fun u => eqIgnoreCase E u.username username) <;> simp
  · intro u c
    simp [isReplaced, eqIgnoreCase, and_assoc]
  · intro hcaller
    have hall : ∀ u ∈ room.users, ∀ c, caller = some c →
        isReplaced E c email username u = false := by
      intro u hu c hc
      rcases hcaller with hnone | ⟨c0, hc0, habs⟩
      · rw [hnone] at hc; cases hc
      · rw [hc0] at hc
        cases hc
        have : (u.connectionId == c) = false := by simpa using habs u hu
        simp [isReplaced, this]
    rw [h1, h2]
    constructor
    · constructor
      · rintro ⟨u, hu, _, heq⟩; exact ⟨u, hu, heq⟩
      · rintro ⟨u, hu, heq⟩; exact ⟨u, hu, hall u hu, heq⟩
    · constructor
      · rintro ⟨u, hu, _, heq⟩; exact ⟨u, hu, heq⟩
      · rintro ⟨u, hu, heq⟩; exact ⟨u, hu, hall u hu, heq⟩

theorem checkUserAccess_duplicateFields_witness :
    (Field.email ∈ (checkUserAccess exampleEnv
        { name := "javascript",
          users := [{ connectionId := "a", email := "kaye.cenizal@gmail.com",
                      username := "kaye", room := "javascript" }] }
        none "Kaye.Cenizal@gmail.com" "catherine").duplicateFields ↔
      ∃ u ∈ ({ name := "javascript",
               users := [{ connectionId := "a", email := "kaye.cenizal@gmail.com",
                           username := "kaye", room := "javascript" }] } : Room).users,
        exampleEnv.toLowerCase u.email = exampleEnv.toLowerCase "Kaye.Cenizal@gmail.com") ∧
    checkUserAccess exampleEnv
      { name := "javascript",
        users := [{ connectionId := "a", email := "kaye.cenizal@gmail.com",
                    username := "kaye", room := "javascript" }] }
      none "Kaye.Cenizal@gmail.com" "catherine" =
      { isAllowed := false, duplicateFields := [.email] } ∧
    checkUserAccess exampleEnv
      { name := "javascript",
        users := [{ connectionId := "a", email := "kaye.cenizal@gmail.com",
                    username := "kaye", room := "javascript" }] }
      (some "d") "kaye.cenizal@gmail.com" "kaye" =
      { isAllowed := false, duplicateFields := [.email, .username] } :=
  ⟨((checkUserAccess_duplicateFields exampleEnv
      { name := "javascript",
        users := [{ connectionId := "a", email := "kaye.cenizal@gmail.com",
                    username := "kaye", room := "javascript" }] }
      none "Kaye.Cenizal@gmail.com" "catherine").2.2.2.2 (Or.inl rfl)).1,
    by decide, by decide⟩

/-- C10: every join that fails validation (a missing field, an invalid
email, a duplicate email or a duplicate username) hands back the state it
received: every room has the active users it had, in the same order, no
user is added for the rejected connection and no room is created. -/
theorem join_validationError_unchanged (E : Env) (st : State) (c : String)
    (email username roomName : Option String) (kinds : List ValidationKind)
    (hfail : (join E st c email username roomName).1 = .validationError kinds) :
    (join E st c email username roomName).2 = st ∧
    (∀ name, (findRoom E (join E st c email username roomName).2 name).map Room.users =
      (findRoom E st name).map Room.users) ∧
    sessionState (join E st c email username roomName).2 c = sessionState st c := by
  have hst : (join E st c email username roomName).2 = st := by
    revert hfail
    unfold join
    split
    · intro _; rfl
    · split
      · simp only
        split
        · intro _; rfl
        · split
          · intro _; rfl
          · split
            · intro _; rfl
            · intro h; cases h
      · intro _; rfl
  rw [hst]
  exact ⟨rfl, fun _ => rfl, rfl⟩

theorem join_validationError_unchanged_witness :
    (join exampleEnv exampleState "d" (some "Kaye.Cenizal@gmail.com") (some "catherine")
      (some "javascript")).1 = .validationError [.duplicateEmail] ∧
    (join exampleEnv exampleState "d" (some "Kaye.Cenizal@gmail.com") (some "catherine")
      (some "javascript")).2 = exampleState ∧
    ((findRoom exampleEnv exampleState "javascript").map Room.users).map List.length =
      some 1 :=
  ⟨by decide,
    (join_validationError_unchanged exampleEnv exampleState "d"
      (some "Kaye.Cenizal@gmail.com") (some "catherine") (some "javascript")
      [.duplicateEmail] (by decide)).1,
    by decide⟩

end Registry

namespace Registry

open JSVal

/-! ### Lookups and write-back -/

theorem lookupRoom_some (st : State) (key : String) (room : Room)
    (h : lookupRoom st key = some room) : room ∈ st.rooms ∧ room.name = key := by
  unfold lookupRoom at h
  refine ⟨List.mem_of_find?_eq_some h, ?_⟩
  have := List.find?_some h
  simpa using this

theorem lookupRoom_none (st : State) (key : String)
    (h : lookupRoom st key = none) : ∀ r ∈ st.rooms, r.name ≠ key := by
  unfold lookupRoom at h
  rw [List.find?_eq_none] at h
  intro r hr
  simpa using h r hr

theorem lookupRoom_none_iff (st : State) (key : String) :
    lookupRoom st key = none ↔ key ∉ roomNames st := by
  constructor
  · intro h hmem
    simp only [roomNames, List.mem_map] at hmem
    obtain ⟨r, hr, hname⟩ := hmem
    exact lookupRoom_none st key h r hr hname
  · intro h
    unfold lookupRoom
    rw [List.find?_eq_none]
    intro r hr
    simp only [beq_iff_eq]
    intro hname
    exact h (by simp only [roomNames, List.mem_map]; exact ⟨r, hr, hname⟩)

theorem roomNames_putRoom (st : State) (room : Room) :
    roomNames (putRoom st room) = roomNames st := by
  simp only [roomNames, putRoom, List.map_map]
  apply List.map_congr_left
  intro r _
  by_cases h : (r.name == room.name) = true
  · simp only [Function.comp, h, if_true]
    exact (beq_iff_eq.mp h).symm
  · simp only [Function.comp, h]
    simp

theorem closed_putRoom (st : State) (room : Room) :
    (putRoom st room).closed = st.closed := rfl

/-- Lookup after a write-back: the room written is found under its name
when a room of that name was stored, and every other name finds what it
found before. -/
theorem lookupRoom_putRoom (st : State) (room : Room) (key : String) :
    lookupRoom (putRoom st room) key =
      if room.name = key then (lookupRoom st key).map (fun _ => room)
      else lookupRoom st key := by
  obtain ⟨rooms, closed⟩ := st
  simp only [lookupRoom, putRoom]
  induction rooms with
  | nil => simp
  | cons r rest ih =>
    simp only [List.map_cons, List.find?_cons]
    by_cases hr : r.name = room.name
    · have hb : (r.name == room.name) = true := by simp [hr]
      simp only [hb, if_true]
      by_cases hk : room.name = key
      · have h1 : (room.name == key) = true := by simp [hk]
        have h2 : (r.name == key) = true := by simp [hr, hk]
        simp [h1, h2, hk]
      · have h1 : (room.name == key) = false := by simp [hk]
        have h2 : (r.name == key) = false := by simp [hr, hk]
        simp only [h1, h2, hk, if_false] at ih ⊢
        exact ih
    · have hb : (r.name == room.name) = false := by simp [hr]
      simp only [hb, Bool.false_eq_true, if_false]
      by_cases hk : room.name = key
      · have h2 : (r.name == key) = false := by
          simp only [beq_eq_false_iff_ne, ne_eq]
          intro h; exact hr (h.trans hk.symm)
        simp only [h2, hk, if_true] at ih ⊢
        exact ih
      · simp only [hk, if_false] at ih ⊢
        cases h2 : (r.name == key) with
        | true => rfl
        | false => exact ih

theorem putRoom_putRoom (st : State) (a b : Room) (h : a.name = b.name) :
    putRoom (putRoom st a) b = putRoom st b := by
  simp only [putRoom, List.map_map, State.mk.injEq, and_true]
  apply List.map_congr_left
  intro r _
  by_cases hr : (r.name == a.name) = true
  · have hr' : (r.name == b.name) = true := by rw [← h]; exact hr
    have ha : (a.name == b.name) = true := by simp [h]
    simp [Function.comp, hr, hr', ha]
  · have hr' : ¬ (r.name == b.name) = true := by rw [← h]; exact hr
    simp [Function.comp, hr, hr']

/-- The two ways `getOrCreateRoom` goes. -/
theorem getOrCreateRoom_cases (E : Env) (st : State) (name : String) :
    (∃ room, lookupRoom st (normalizeRoomName E name) = some room ∧
      getOrCreateRoom E st name = (room, st)) ∨
    (lookupRoom st (normalizeRoomName E name) = none ∧
      getOrCreateRoom E st name =
        ({ name := normalizeRoomName E name, users := [] },
         { st with rooms := st.rooms ++ [{ name := normalizeRoomName E name, users := [] }] })) := by
  unfold getOrCreateRoom findRoom
  cases h : lookupRoom st (normalizeRoomName E name) with
  | some room => left; exact ⟨room, rfl, rfl⟩
  | none => right; exact ⟨rfl, rfl⟩

/-- What a successful join has checked and what it leaves behind. -/
theorem join_success (E : Env) (st : State) (c : String)
    (email username roomName : Option String)
    (h : (join E st c email username roomName).1 = .success) :
    ∃ e u r, email = some e ∧ username = some u ∧ roomName = some r ∧
      (sessionState st c = .unjoined ∨ isReconnect E st c email username roomName = true) ∧
      (E.toLowerCase (trim e) == "" || trim u == "" || normalizeRoomName E r == "") = false ∧
      E.isEmail (E.toLowerCase (trim e)) = true ∧
      (checkUserAccess E (getOrCreateRoom E st r).1 (some c)
        (E.toLowerCase (trim e)) (trim u)).isAllowed = true ∧
      (join E st c email username roomName).2 =
        putRoom (getOrCreateRoom E st r).2
          { (getOrCreateRoom E st r).1 with
            users := comparedUsers E (getOrCreateRoom E st r).1 (some c)
                (E.toLowerCase (trim e)) (trim u) ++
              [{ connectionId := c, email := E.toLowerCase (trim e), username := trim u,
                 room := (getOrCreateRoom E st r).1.name }] } := by
  unfold join at h ⊢
  cases hgate : (sessionState st c != SessionState.unjoined &&
      !isReconnect E st c email username roomName) with
  | true => simp [hgate] at h
  | false =>
    have hsess : sessionState st c = .unjoined ∨
        isReconnect E st c email username roomName = true := by
      cases hb : isReconnect E st c email username roomName with
      | true => exact Or.inr rfl
      | false =>
        left
        simpa [hb] using hgate
    simp only [hgate, Bool.false_eq_true, if_false] at h ⊢
    cases email with
    | none => simp at h
    | some e =>
      cases username with
      | none => simp at h
      | some u =>
        cases roomName with
        | none => simp at h
        | some r =>
          refine ⟨e, u, r, rfl, rfl, rfl, hsess, ?_⟩
          simp only at h ⊢
          cases hm : (E.toLowerCase (trim e) == "" || trim u == "" ||
              normalizeRoomName E r == "") with
          | true => simp [hm] at h
          | false =>
            simp only [hm, Bool.false_eq_true, if_false] at h ⊢
            cases he : E.isEmail (E.toLowerCase (trim e)) with
            | false => simp [he] at h
            | true =>
              simp only [he, Bool.not_true, Bool.false_eq_true, if_false] at h ⊢
              unfold addUser at h ⊢
              simp only at h ⊢
              cases ha : (checkUserAccess E (getOrCreateRoom E st r).1 (some c)
                  (E.toLowerCase (trim e)) (trim u)).isAllowed with
              | false => simp [ha] at h
              | true => simp [ha]

/-- The room fetched or created for a connection that has no entry in any
room holds no entry of that connection, so the duplicate check made for it
compares against all users of the room. -/
theorem comparedUsers_getOrCreateRoom (E : Env) (st : State) (c name email username : String)
    (habs : ∀ r ∈ st.rooms, ∀ u ∈ r.users, u.connectionId ≠ c) :
    comparedUsers E (getOrCreateRoom E st name).1 (some c) email username =
      (getOrCreateRoom E st name).1.users := by
  apply comparedUsers_of_absent
  rcases getOrCreateRoom_cases E st name with ⟨room, hlook, hg⟩ | ⟨_, hg⟩
  · rw [hg]
    exact habs room (lookupRoom_some st _ room hlook).1
  · rw [hg]
    intro u hu
    cases hu

/-- A join whose checks pass succeeds. -/
theorem join_of_checks (E : Env) (st : State) (c e u r : String)
    (hs : sessionState st c = .unjoined ∨
      isReconnect E st c (some e) (some u) (some r) = true)
    (hm : (E.toLowerCase (trim e) == "" || trim u == "" || normalizeRoomName E r == "") = false)
    (he : E.isEmail (E.toLowerCase (trim e)) = true)
    (ha : (checkUserAccess E (getOrCreateRoom E st r).1 (some c)
        (E.toLowerCase (trim e)) (trim u)).isAllowed = true) :
    join E st c (some e) (some u) (some r) =
      (.success,
        putRoom (getOrCreateRoom E st r).2
          { (getOrCreateRoom E st r).1 with
            users := comparedUsers E (getOrCreateRoom E st r).1 (some c)
                (E.toLowerCase (trim e)) (trim u) ++
              [{ connectionId := c, email := E.toLowerCase (trim e), username := trim u,
                 room := (getOrCreateRoom E st r).1.name }] }) := by
  unfold join
  have hgate : (sessionState st c != SessionState.unjoined &&
      !isReconnect E st c (some e) (some u) (some r)) = false := by
    rcases hs with hs | hs
    · simp [hs]
    · simp [hs]
  simp only [hgate, Bool.false_eq_true, if_false, hm, he, Bool.not_true]
  unfold addUser
  simp [ha]

/-- A join that does not succeed leaves the state as it was. -/
theorem join_not_success (E : Env) (st : State) (c : String)
    (email username roomName : Option String)
    (h : (join E st c email username roomName).1 ≠ .success) :
    (join E st c email username roomName).2 = st := by
  revert h
  unfold join
  split
  · intro _; rfl
  · split
    · simp only
      split
      · intro _; rfl
      · split
        · intro _; rfl
        · split
          · intro _; rfl
          · intro h; exact absurd rfl h
    · intro _; rfl

/-! ### Room names along a run -/

theorem map_put_of_absent (rooms : List Room) (room : Room)
    (h : ∀ r ∈ rooms, r.name ≠ room.name) :
    rooms.map (fun r => if r.name == room.name then room else r) = rooms := by
  induction rooms with
  | nil => rfl
  | cons r rest ih =>
    have hr : (r.name == room.name) = false := by
      simpa using h r (List.mem_cons_self r rest)
    simp only [List.map_cons, hr, Bool.false_eq_true, if_false]
    rw [ih (fun x hx => h x (List.mem_cons_of_mem r hx))]

/-- The rooms after a successful join: either the names of the rooms are
the ones before, or one room was created at the end of the registry, under
a name not stored before, holding the user that joined. -/
theorem join_rooms (E : Env) (st : State) (c : String)
    (email username roomName : Option String) :
    (roomNames (join E st c email username roomName).2 = roomNames st ∧
      (join E st c email username roomName).2.rooms.length = st.rooms.length) ∨
    (∃ key user, key ∉ roomNames st ∧
      (join E st c email username roomName).2.rooms =
        st.rooms ++ [{ name := key, users := [user] }]) := by
  by_cases hres : (join E st c email username roomName).1 = .success
  · obtain ⟨e, u, r, _, _, _, _, _, _, _, hst⟩ := join_success E st c email username roomName hres
    rw [hst]
    rcases getOrCreateRoom_cases E st r with ⟨room, hlook, hg⟩ | ⟨hlook, hg⟩
    · left
      rw [hg]
      exact ⟨roomNames_putRoom _ _, by simp [putRoom]⟩
    · right
      rw [hg]
      refine ⟨normalizeRoomName E r,
        { connectionId := c, email := E.toLowerCase (trim e), username := trim u,
          room := normalizeRoomName E r },
        (lookupRoom_none_iff st _).mp hlook, ?_⟩
      simp only [putRoom, List.map_append, List.map_cons, List.map_nil, beq_self_eq_true,
        if_true, List.nil_append, comparedUsers_nil]
      have := map_put_of_absent st.rooms
        { name := normalizeRoomName E r,
          users := [{ connectionId := c, email := E.toLowerCase (trim e), username := trim u,
                      room := normalizeRoomName E r }] }
        (lookupRoom_none st _ hlook)
      simp only at this
      rw [this]
  · left
    rw [join_not_success E st c email username roomName hres]
    exact ⟨rfl, rfl⟩

theorem roomNames_leave (st : State) (c : String) : roomNames (leave st c) = roomNames st := by
  unfold leave
  cases sessionRoom st c with
  | none => rfl
  | some room => exact roomNames_putRoom _ _

theorem roomNames_onDisconnect (st : State) (c : String) :
    roomNames (onDisconnect st c) = roomNames st :=
  roomNames_leave st c

theorem step_rooms (E : Env) (st : State) (op : Op) :
    roomNames (step E st op) = roomNames st ∨
    (∃ key user, key ∉ roomNames st ∧
      (step E st op).rooms = st.rooms ++ [{ name := key, users := [user] }]) := by
  cases op with
  | join c email username roomName =>
    rcases join_rooms E st c email username roomName with h | h
    · exact Or.inl h.1
    · exact Or.inr h
  | leave c => exact Or.inl (roomNames_leave st c)
  | disconnect c => exact Or.inl (roomNames_onDisconnect st c)

theorem nodup_step (E : Env) (st : State) (op : Op) (h : (roomNames st).Nodup) :
    (roomNames (step E st op)).Nodup := by
  rcases step_rooms E st op with hn | ⟨key, user, hkey, hrooms⟩
  · rw [hn]; exact h
  · simp only [roomNames, hrooms, List.map_append, List.map_cons, List.map_nil]
    rw [List.nodup_append]
    refine ⟨h, List.nodup_singleton _, ?_⟩
    intro a ha hb
    rw [List.mem_singleton] at hb
    subst hb
    exact hkey ha

theorem nodup_run (E : Env) (ops : List Op) (st : State) (h : (roomNames st).Nodup) :
    (roomNames (run E st ops)).Nodup := by
  induction ops generalizing st with
  | nil => exact h
  | cons op ops ih => exact ih (step E st op) (nodup_step E st op h)

/-- In a reachable state no two rooms have the same name. -/
theorem reachable_nodup (E : Env) (st : State) (h : Reachable E st) :
    (roomNames st).Nodup := by
  obtain ⟨ops, rfl⟩ := h
  exact nodup_run E ops initial List.nodup_nil

theorem room_eq_of_name (st : State) (h : (roomNames st).Nodup) (a b : Room)
    (ha : a ∈ st.rooms) (hb : b ∈ st.rooms) (hname : a.name = b.name) : a = b :=
  List.inj_on_of_nodup_map h ha hb hname

theorem lookupRoom_of_mem (st : State) (h : (roomNames st).Nodup) (room : Room)
    (hroom : room ∈ st.rooms) : lookupRoom st room.name = some room := by
  cases hl : lookupRoom st room.name with
  | none => exact absurd rfl (lookupRoom_none st _ hl room hroom)
  | some r =>
    obtain ⟨hr, hname⟩ := lookupRoom_some st _ r hl
    rw [room_eq_of_name st h r room hr hroom hname]

theorem mem_getActiveRoomNames (st : State) (name : String) :
    name ∈ getActiveRoomNames st ↔ ∃ r ∈ st.rooms, r.users ≠ [] ∧ r.name = name := by
  simp only [getActiveRoomNames, List.mem_map, List.mem_filter]
  constructor
  · rintro ⟨r, ⟨hr, hne⟩, hname⟩
    refine ⟨r, hr, ?_, hname⟩
    intro hnil
    simp [hnil] at hne
  · rintro ⟨r, hr, hne, hname⟩
    refine ⟨r, ⟨hr, ?_⟩, hname⟩
    cases hu : r.users with
    | nil => exact absurd hu hne
    | cons a l => simp

/-- C12: in every state reachable by a sequence of join, leave and
disconnect requests, the active-rooms list contains a name exactly when
the room of that name has at least one active user; so the name of a
stored room is listed exactly when the room has an active user, and a
room with no active user is never listed. -/
theorem getActiveRoomNames_iff (E : Env) (st : State) (hreach : Reachable E st) :
    (∀ name, name ∈ getActiveRoomNames st ↔
      ∃ room, lookupRoom st name = some room ∧ room.users ≠ []) ∧
    (∀ room ∈ st.rooms, (room.name ∈ getActiveRoomNames st ↔ room.users ≠ [])) ∧
    (∀ room ∈ st.rooms, room.users = [] → room.name ∉ getActiveRoomNames st) := by
  have hnd := reachable_nodup E st hreach
  have hroom : ∀ room ∈ st.rooms, (room.name ∈ getActiveRoomNames st ↔ room.users ≠ []) := by
    intro room hr
    rw [mem_getActiveRoomNames]
    constructor
    · rintro ⟨r, hr', hne, hname⟩
      rw [← room_eq_of_name st hnd r room hr' hr hname]
      exact hne
    · intro hne
      exact ⟨room, hr, hne, rfl⟩
  refine ⟨?_, hroom, ?_⟩
  · intro name
    constructor
    · intro hmem
      obtain ⟨r, hr, hne, hname⟩ := (mem_getActiveRoomNames st name).mp hmem
      refine ⟨r, ?_, hne⟩
      rw [← hname]
      exact lookupRoom_of_mem st hnd r hr
    · rintro ⟨room, hl, hne⟩
      obtain ⟨hr, hname⟩ := lookupRoom_some st name room hl
      rw [← hname]
      exact (hroom room hr).mpr hne
  · intro room hr hnil hmem
    exact (hroom room hr).mp hmem hnil

theorem getActiveRoomNames_iff_witness :
    Reachable exampleEnv (run exampleEnv initial (threeRoomsOps ++ [.disconnect "b"])) ∧
    getActiveRoomNames (run exampleEnv initial (threeRoomsOps ++ [.disconnect "b"])) =
      ["javascript", "html"] ∧
    "css" ∉ getActiveRoomNames (run exampleEnv initial (threeRoomsOps ++ [.disconnect "b"])) :=
  ⟨⟨_, rfl⟩, by decide,
    (getActiveRoomNames_iff exampleEnv
      (run exampleEnv initial (threeRoomsOps ++ [.disconnect "b"])) ⟨_, rfl⟩).2.2
      { name := "css", users := [] } (by decide) rfl⟩

/-- C14: in every reachable state, a successful join to a room name that
is not stored creates exactly one room, of that normalised name, as the
last room of the registry; a successful join to a name that is stored
creates no room: the rooms keep their names and places, and the stored
room of that name is the one joined: afterwards it holds the users the
duplicate check compared against, followed by the user that joined, which
are all its former users followed by that user when the connection had no
entry in it.  Either way the registry afterwards holds exactly one room of
that name, and no two rooms of the same name. -/
theorem join_creates_once (E : Env) (st : State) (hreach : Reachable E st) (c : String)
    (email username : Option String) (r : String)
    (hjoin : (join E st c email username (some r)).1 = .success) :
    (findRoom E st r = none →
      roomNames (join E st c email username (some r)).2 =
        roomNames st ++ [normalizeRoomName E r]) ∧
    (∀ room, findRoom E st r = some room →
      roomNames (join E st c email username (some r)).2 = roomNames st ∧
      (join E st c email username (some r)).2.rooms.length = st.rooms.length ∧
      ∃ room1, findRoom E (join E st c email username (some r)).2 r = some room1 ∧
        room1.name = room.name ∧
        ∃ user, user.connectionId = c ∧
          room1.users = comparedUsers E room (some c) user.email user.username ++ [user] ∧
          ((∀ x ∈ room.users, x.connectionId ≠ c) → room1.users = room.users ++ [user])) ∧
    (roomNames (join E st c email username (some r)).2).Nodup ∧
    (roomNames (join E st c email username (some r)).2).count (normalizeRoomName E r) = 1 := by
  have hnd := reachable_nodup E st hreach
  have hnd' : (roomNames (join E st c email username (some r)).2).Nodup :=
    nodup_step E st (.join c email username (some r)) hnd
  obtain ⟨e, u, r', _, _, hr', _, _, _, _, hst⟩ :=
    join_success E st c email username (some r) hjoin
  cases hr'
  have hfirst : findRoom E st r = none →
      roomNames (join E st c email username (some r)).2 =
        roomNames st ++ [normalizeRoomName E r] := by
    intro hnone
    rcases getOrCreateRoom_cases E st r with ⟨room, hlook, _⟩ | ⟨_, hg⟩
    · unfold findRoom at hnone; rw [hnone] at hlook; cases hlook
    · rw [hst, hg, roomNames_putRoom]
      simp [roomNames]
  have hsecond : ∀ room, findRoom E st r = some room →
      roomNames (join E st c email username (some r)).2 = roomNames st ∧
      (join E st c email username (some r)).2.rooms.length = st.rooms.length ∧
      ∃ room1, findRoom E (join E st c email username (some r)).2 r = some room1 ∧
        room1.name = room.name ∧
        ∃ user, user.connectionId = c ∧
          room1.users = comparedUsers E room (some c) user.email user.username ++ [user] ∧
          ((∀ x ∈ room.users, x.connectionId ≠ c) → room1.users = room.users ++ [user]) := by
    intro room hsome
    rcases getOrCreateRoom_cases E st r with ⟨room0, hlook, hg⟩ | ⟨hlook, _⟩
    · have hroom : room0 = room := by
        unfold findRoom at hsome; rw [hsome] at hlook; cases hlook; rfl
      subst hroom
      have hname := (lookupRoom_some st _ room0 hlook).2
      rw [hst, hg]
      refine ⟨roomNames_putRoom _ _, by simp [putRoom],
        { room0 with users := comparedUsers E room0 (some c) (E.toLowerCase (trim e)) (trim u) ++
            [{ connectionId := c, email := E.toLowerCase (trim e), username := trim u,
               room := room0.name }] }, ?_, rfl,
        { connectionId := c, email := E.toLowerCase (trim e), username := trim u,
          room := room0.name }, rfl, rfl, ?_⟩
      · unfold findRoom
        rw [lookupRoom_putRoom]
        simp [hname, hlook]
      · intro habs
        simp only
        rw [comparedUsers_of_absent E room0 c _ _ habs]
    · unfold findRoom at hsome; rw [hsome] at hlook; cases hlook
  refine ⟨hfirst, hsecond, hnd', ?_⟩
  apply List.count_eq_one_of_mem hnd'
  cases hf : findRoom E st r with
  | none => rw [hfirst hf]; simp
  | some room =>
    rw [(hsecond room hf).1]
    have := lookupRoom_some st _ room hf
    simp only [roomNames, List.mem_map]
    exact ⟨room, this.1, this.2⟩

theorem join_creates_once_witness :
    Reachable exampleEnv exampleState ∧
    roomNames exampleState = ["javascript", "css"] ∧
    roomNames (join exampleEnv exampleState "d" (some "callie.par@gmail.com") (some "callie")
      (some "Node.js")).2 = ["javascript", "css", "node.js"] ∧
    roomNames (join exampleEnv exampleState "e" (some "callie.par@gmail.com") (some "callie")
      (some " JavaScript")).2 = ["javascript", "css"] := by
  have hreach : Reachable exampleEnv exampleState := ⟨exampleOps, rfl⟩
  have h1 := join_creates_once exampleEnv exampleState hreach "d"
    (some "callie.par@gmail.com") (some "callie") "Node.js" (by decide)
  have h2 := join_creates_once exampleEnv exampleState hreach "e"
    (some "callie.par@gmail.com") (some "callie") " JavaScript" (by decide)
  refine ⟨hreach, by decide, ?_, ?_⟩
  · rw [h1.1 (by decide)]; decide
  · exact (h2.2.1 _ (by decide : findRoom exampleEnv exampleState " JavaScript" =
      some { name := "javascript",
             users := [{ connectionId := "a", email := "kaye.cenizal@gmail.com",
                         username := "kaye", room := "javascript" }] })).1.trans (by decide)

/-! ### Sessions -/

theorem sessionRoom_eq_none_iff (st : State) (c : String) :
    sessionRoom st c = none ↔ ∀ r ∈ st.rooms, ∀ u ∈ r.users, u.connectionId ≠ c := by
  unfold sessionRoom
  rw [List.find?_eq_none]
  constructor
  · intro h r hr u hu hc
    apply h r hr
    rw [List.any_eq_true]
    exact ⟨u, hu, by simp [hc]⟩
  · intro h r hr hany
    rw [List.any_eq_true] at hany
    obtain ⟨u, hu, hc⟩ := hany
    exact h r hr u hu (by simpa using hc)

theorem sessionState_unjoined_iff (st : State) (c : String) :
    sessionState st c = .unjoined ↔
      c ∉ st.closed ∧ ∀ r ∈ st.rooms, ∀ u ∈ r.users, u.connectionId ≠ c := by
  rw [← sessionRoom_eq_none_iff]
  unfold sessionState
  by_cases hc : c ∈ st.closed
  · have : st.closed.contains c = true := by simpa using hc
    simp [this, hc]
  · have : st.closed.contains c = false := by simpa using hc
    simp only [this, Bool.false_eq_true, if_false]
    cases hs : sessionRoom st c with
    | none => simp [hc]
    | some room => simp

/-- After a room that holds the connection is written back into a state in
which the connection had no user, the session of the connection is in
that room. -/
theorem sessionRoom_putRoom (rooms : List Room) (closed : List String) (room : Room)
    (c : String)
    (habs : ∀ r ∈ rooms, ∀ u ∈ r.users, u.connectionId ≠ c)
    (hex : ∃ r ∈ rooms, r.name = room.name)
    (hin : ∃ u ∈ room.users, u.connectionId = c) :
    sessionRoom (putRoom { rooms := rooms, closed := closed } room) c = some room := by
  have hroom : room.users.any (fun u => u.connectionId == c) = true := by
    rw [List.any_eq_true]
    obtain ⟨u, hu, hc⟩ := hin
    exact ⟨u, hu, by simp [hc]⟩
  simp only [sessionRoom, putRoom]
  induction rooms with
  | nil => obtain ⟨r, hr, _⟩ := hex; cases hr
  | cons r rest ih =>
    simp only [List.map_cons, List.find?_cons]
    by_cases hname : r.name = room.name
    · have hb : (r.name == room.name) = true := by simp [hname]
      simp only [hb, if_true, hroom]
    · have hb : (r.name == room.name) = false := by simp [hname]
      have hr : r.users.any (fun u => u.connectionId == c) = false := by
        rw [List.any_eq_false]
        intro u hu
        simpa using habs r (List.mem_cons_self r rest) u hu
      simp only [hb, Bool.false_eq_true, if_false, hr]
      apply ih (fun x hx => habs x (List.mem_cons_of_mem r hx))
      obtain ⟨x, hx, hxn⟩ := hex
      rcases List.mem_cons.mp hx with rfl | hx'
      · exact absurd hxn hname
      · exact ⟨x, hx', hxn⟩

theorem mem_putRoom (st : State) (room x : Room) (hx : x ∈ (putRoom st room).rooms) :
    x = room ∨ x ∈ st.rooms := by
  simp only [putRoom, List.mem_map] at hx
  obtain ⟨r, hr, rfl⟩ := hx
  by_cases h : (r.name == room.name) = true
  · left; simp [h]
  · right; simp only [h]; exact hr

/-- The users of the rooms fetched or created: no connection gains a user
by `getOrCreateRoom`. -/
theorem getOrCreateRoom_absent (E : Env) (st : State) (name c : String)
    (habs : ∀ r ∈ st.rooms, ∀ u ∈ r.users, u.connectionId ≠ c) :
    ∀ r ∈ (getOrCreateRoom E st name).2.rooms, ∀ u ∈ r.users, u.connectionId ≠ c := by
  rcases getOrCreateRoom_cases E st name with ⟨room, _, hg⟩ | ⟨_, hg⟩
  · rw [hg]; exact habs
  · rw [hg]
    intro r hr u hu
    simp only [List.mem_append, List.mem_singleton] at hr
    rcases hr with hr | rfl
    · exact habs r hr u hu
    · cases hu

theorem getOrCreateRoom_of_lookup (E : Env) (st : State) (name : String) (room : Room)
    (h : lookupRoom st (normalizeRoomName E name) = some room) :
    getOrCreateRoom E st name = (room, st) := by
  unfold getOrCreateRoom findRoom
  simp only [h]

theorem mem_putRoom_self (st : State) (room : Room)
    (h : (lookupRoom st room.name).isSome = true) : room ∈ (putRoom st room).rooms := by
  have hl := lookupRoom_putRoom st room room.name
  simp only [if_true] at hl
  cases hs : lookupRoom st room.name with
  | none => rw [hs] at h; cases h
  | some r =>
    rw [hs] at hl
    exact (lookupRoom_some _ _ _ hl).1

/-! ### Users of a room -/

/-- C16: `removeUser` keeps the name of the room; the users it leaves are
exactly the users of the room whose connection is another one, in their
order, so the user of that connection is removed and no other user; when
no active user has that connection the room is left as it was; and
removing twice is removing once. -/
theorem removeUser_removes (room : Room) (c : String) :
    (removeUser room c).name = room.name ∧
    (∀ u, u ∈ (removeUser room c).users ↔ u ∈ room.users ∧ u.connectionId ≠ c) ∧
    (removeUser room c).users.Sublist room.users ∧
    ((∀ u ∈ room.users, u.connectionId ≠ c) → removeUser room c = room) ∧
    removeUser (removeUser room c) c = removeUser room c := by
  refine ⟨rfl, ?_, List.filter_sublist _, ?_, ?_⟩
  · intro u
    simp [removeUser, List.mem_filter]
  · intro h
    have : room.users.filter (fun u => u.connectionId != c) = room.users := by
      rw [List.filter_eq_self]
      intro u hu
      simpa using h u hu
    simp only [removeUser, this]
  · simp [removeUser, List.filter_filter]

theorem removeUser_removes_witness :
    removeUser
      { name := "css",
        users := [{ connectionId := "b", email := "kaye.cenizal@gmail.com",
                    username := "kaye", room := "css" },
                  { connectionId := "c", email := "user2@gmail.com",
                    username := "user2", room := "css" }] } "x" =
      { name := "css",
        users := [{ connectionId := "b", email := "kaye.cenizal@gmail.com",
                    username := "kaye", room := "css" },
                  { connectionId := "c", email := "user2@gmail.com",
                    username := "user2", room := "css" }] } ∧
    (removeUser
      { name := "css",
        users := [{ connectionId := "b", email := "kaye.cenizal@gmail.com",
                    username := "kaye", room := "css" },
                  { connectionId := "c", email := "user2@gmail.com",
                    username := "user2", room := "css" }] } "b").users =
      [{ connectionId := "c", email := "user2@gmail.com", username := "user2", room := "css" }] :=
  ⟨(removeUser_removes
      { name := "css",
        users := [{ connectionId := "b", email := "kaye.cenizal@gmail.com",
                    username := "kaye", room := "css" },
                  { connectionId := "c", email := "user2@gmail.com",
                    username := "user2", room := "css" }] } "x").2.2.2.1 (by decide),
    by decide⟩

theorem lookupRoom_append (rooms : List Room) (closed : List String) (r : Room) (key : String) :
    lookupRoom { rooms := rooms ++ [r], closed := closed } key =
      (lookupRoom { rooms := rooms, closed := closed } key).or
        (if r.name = key then some r else none) := by
  simp only [lookupRoom, List.find?_append]
  congr 1
  by_cases h : r.name = key
  · simp [List.find?, h]
  · have hb : (r.name == key) = false := by simp [h]
    simp [List.find?, h, hb]

/-- The room fetched or created is stored under the normalised name in
the state handed back, and the rooms of the other names are as before. -/
theorem getOrCreateRoom_lookup (E : Env) (st : State) (name : String) :
    lookupRoom (getOrCreateRoom E st name).2 (normalizeRoomName E name) =
      some (getOrCreateRoom E st name).1 ∧
    (getOrCreateRoom E st name).1.name = normalizeRoomName E name ∧
    (getOrCreateRoom E st name).1.users = roomUsers st (normalizeRoomName E name) ∧
    (getOrCreateRoom E st name).2.closed = st.closed ∧
    ∀ k, k ≠ normalizeRoomName E name →
      lookupRoom (getOrCreateRoom E st name).2 k = lookupRoom st k := by
  rcases getOrCreateRoom_cases E st name with ⟨room, hlook, hg⟩ | ⟨hlook, hg⟩
  · rw [hg]
    refine ⟨hlook, (lookupRoom_some st _ room hlook).2, ?_, rfl, fun _ _ => rfl⟩
    simp [roomUsers, hlook]
  · rw [hg]
    refine ⟨?_, rfl, ?_, rfl, ?_⟩
    · have := lookupRoom_append st.rooms st.closed
        { name := normalizeRoomName E name, users := [] } (normalizeRoomName E name)
      simp only [if_true] at this
      rw [this]
      have hst : ({ rooms := st.rooms, closed := st.closed } : State) = st := rfl
      rw [hst, hlook]; rfl
    · simp [roomUsers, hlook]
    · intro k hk
      have := lookupRoom_append st.rooms st.closed
        { name := normalizeRoomName E name, users := [] } k
      have hne : ¬ normalizeRoomName E name = k := fun h => hk h.symm
      simp only [hne, if_false, Option.or_none] at this
      exact this

/-- The users of a room found by name are users of a stored room. -/
theorem roomUsers_absent (st : State) (key c : String)
    (habs : ∀ r ∈ st.rooms, ∀ u ∈ r.users, u.connectionId ≠ c) :
    ∀ x ∈ roomUsers st key, x.connectionId ≠ c := by
  intro x hx
  unfold roomUsers at hx
  cases hl : lookupRoom st key with
  | none => rw [hl] at hx; cases hx
  | some room =>
    rw [hl] at hx
    exact habs room (lookupRoom_some st key room hl).1 x hx

theorem filter_isReplaced_of_absent (E : Env) (users : List User) (c email username : String)
    (h : ∀ x ∈ users, isReplaced E c email username x = false) :
    users.filter (fun x => !isReplaced E c email username x) = users := by
  rw [List.filter_eq_self]
  intro x hx
  simp [h x hx]

/-- The users of the rooms after a successful join: the room joined has
its former users, less the entry of the joining connection that the
duplicate check set aside, followed by the user of the joining connection,
and the other rooms have the users they had. -/
theorem roomUsers_join (E : Env) (st : State) (c : String)
    (email username roomName : Option String)
    (h : (join E st c email username roomName).1 = .success) :
    ∃ e u r, email = some e ∧ username = some u ∧ roomName = some r ∧
      roomUsers (join E st c email username roomName).2 (normalizeRoomName E r) =
        (roomUsers st (normalizeRoomName E r)).filter
            (fun x => !isReplaced E c (E.toLowerCase (trim e)) (trim u) x) ++
          [{ connectionId := c, email := E.toLowerCase (trim e), username := trim u,
             room := normalizeRoomName E r }] ∧
      ∀ k, k ≠ normalizeRoomName E r →
        roomUsers (join E st c email username roomName).2 k = roomUsers st k := by
  obtain ⟨e, u, r, he, hu, hr, _, _, _, _, hst⟩ := join_success E st c email username roomName h
  obtain ⟨hl, hname, husers, _, hother⟩ := getOrCreateRoom_lookup E st r
  refine ⟨e, u, r, he, hu, hr, ?_, ?_⟩
  · rw [hst]
    simp only [roomUsers]
    rw [lookupRoom_putRoom]
    simp only [hname, if_true, hl, Option.map_some', comparedUsers]
    rw [husers]
    simp [roomUsers]
  · intro k hk
    rw [hst]
    simp only [roomUsers]
    rw [lookupRoom_putRoom]
    have hne : ¬ (getOrCreateRoom E st r).1.name = k := by
      rw [hname]; exact fun h => hk h.symm
    simp only [hne, if_false]
    rw [hother k hk]

theorem roomUsers_joinAll (E : Env) (roomName : String)
    (joins : List (String × String × String)) (st : State)
    (hprev : ∀ j ∈ joins, ∀ x ∈ roomUsers st (normalizeRoomName E roomName),
      isReplaced E j.1 (E.toLowerCase (trim j.2.1)) (trim j.2.2) x = false)
    (hdistinct : joins.Pairwise (fun a b =>
      a.1 ≠ b.1 ∨ eqIgnoreCase E (E.toLowerCase (trim a.2.1)) (E.toLowerCase (trim b.2.1)) = false ∨
        eqIgnoreCase E (trim a.2.2) (trim b.2.2) = false))
    (hall : ∀ res ∈ (joinAll E st roomName joins).1, res = JoinResult.success) :
    (roomUsers (joinAll E st roomName joins).2 (normalizeRoomName E roomName)).map
        (fun u => u.connectionId) =
      (roomUsers st (normalizeRoomName E roomName)).map (fun u => u.connectionId) ++
        joins.map (fun j => j.1) := by
  induction joins generalizing st with
  | nil => simp [joinAll]
  | cons j rest ih =>
    obtain ⟨c, email, username⟩ := j
    simp only [joinAll] at hall ⊢
    have h1 : (join E st c (some email) (some username) (some roomName)).1 = .success :=
      hall _ (List.mem_cons_self _ _)
    obtain ⟨e, u, r, he, hu, hr, husers, _⟩ :=
      roomUsers_join E st c (some email) (some username) (some roomName) h1
    cases he; cases hu; cases hr
    rw [filter_isReplaced_of_absent E _ c _ _
      (fun x hx => hprev (c, email, username) (List.mem_cons_self _ _) x hx)] at husers
    rw [List.pairwise_cons] at hdistinct
    have h2 := ih (join E st c (some email) (some username) (some roomName)).2
      (by
        intro j hj x hx
        rw [husers] at hx
        rcases List.mem_append.mp hx with hx | hx
        · exact hprev j (List.mem_cons_of_mem _ hj) x hx
        · rw [List.mem_singleton] at hx
          subst hx
          rcases hdistinct.1 j hj with hne | hne | hne
          · have : (c == j.1) = false := by simpa using hne
            simp [isReplaced, this]
          · simp [isReplaced, hne]
          · simp [isReplaced, hne])
      hdistinct.2
      (fun res hres => hall res (List.mem_cons_of_mem _ hres))
    rw [h2, husers]
    simp

/-- C15, the claim as worded fails on a reconnect: in the example state
the room `css` holds the users of the connections `b` and `c`; the join
that `b` makes again with the email and username of its session succeeds,
and afterwards the room holds the user of `c` followed by the new user of
`b`: the former entry of `b` is gone, the list is no longer than it was,
and it is not the former list followed by one user. -/
theorem addUser_appends_counterexample :
    roomUsers exampleState "css" =
      [{ connectionId := "b", email := "kaye.cenizal@gmail.com", username := "kaye",
         room := "css" },
       { connectionId := "c", email := "user2@gmail.com", username := "user2",
         room := "css" }] ∧
    (join exampleEnv exampleState "b" (some "kaye.cenizal@gmail.com") (some "kaye")
      (some "css")).1 = .success ∧
    roomUsers (join exampleEnv exampleState "b" (some "kaye.cenizal@gmail.com") (some "kaye")
      (some "css")).2 "css" =
      [{ connectionId := "c", email := "user2@gmail.com", username := "user2",
         room := "css" },
       { connectionId := "b", email := "kaye.cenizal@gmail.com", username := "kaye",
         room := "css" }] ∧
    ¬ ∃ user, roomUsers (join exampleEnv exampleState "b" (some "kaye.cenizal@gmail.com")
        (some "kaye") (some "css")).2 "css" = roomUsers exampleState "css" ++ [user] := by
  refine ⟨by decide, by decide, by decide, ?_⟩
  rintro ⟨user, h⟩
  have hlen := congrArg List.length h
  have h1 : (roomUsers (join exampleEnv exampleState "b" (some "kaye.cenizal@gmail.com")
      (some "kaye") (some "css")).2 "css").length = 2 := by decide
  have h2 : (roomUsers exampleState "css").length = 2 := by decide
  rw [List.length_append, h1, h2] at hlen
  simp at hlen

/-- C15, amended: a successful `addUser` returns the room with the user of
the connection, holding the connection, email and username given, at the
end of the active list, after the former entries in their order less the
prior entry of that connection which the duplicate check set aside; when
the connection had no entry in the room, that is all former entries
followed by the new user.  A successful join likewise leaves the room
joined with its former users, less the replaced entry of the joining
connection, followed by the user of the joining connection, and every
other room with the users it had; a join of a connection that had not
joined leaves all former users in place.  So when `n` joins in a row to a
room with no active users all succeed, and any two of them differ in the
connection, the email or the username, the room has exactly `n` active
users, those of the joining connections in order. -/
theorem addUser_appends (E : Env) :
    (∀ (room room1 : Room) (user : User) (c email username : String),
      addUser E room c email username = .ok (user, room1) →
      room1.users =
        room.users.filter (fun x => !isReplaced E c email username x) ++ [user] ∧
      room1.name = room.name ∧
      user = { connectionId := c, email := email, username := username, room := room.name } ∧
      ((∀ x ∈ room.users, x.connectionId ≠ c) → room1.users = room.users ++ [user])) ∧
    (∀ (st : State) (c : String) (email username roomName : Option String),
      (join E st c email username roomName).1 = .success →
      ∃ e u r, email = some e ∧ username = some u ∧ roomName = some r ∧
        roomUsers (join E st c email username roomName).2 (normalizeRoomName E r) =
          (roomUsers st (normalizeRoomName E r)).filter
              (fun x => !isReplaced E c (E.toLowerCase (trim e)) (trim u) x) ++
            [{ connectionId := c, email := E.toLowerCase (trim e), username := trim u,
               room := normalizeRoomName E r }] ∧
        (∀ k, k ≠ normalizeRoomName E r →
          roomUsers (join E st c email username roomName).2 k = roomUsers st k) ∧
        (sessionState st c = .unjoined →
          roomUsers (join E st c email username roomName).2 (normalizeRoomName E r) =
            roomUsers st (normalizeRoomName E r) ++
              [{ connectionId := c, email := E.toLowerCase (trim e), username := trim u,
                 room := normalizeRoomName E r }])) ∧
    (∀ (st : State) (roomName : String) (joins : List (String × String × String)),
      roomUsers st (normalizeRoomName E roomName) = [] →
      joins.Pairwise (fun a b =>
        a.1 ≠ b.1 ∨
          eqIgnoreCase E (E.toLowerCase (trim a.2.1)) (E.toLowerCase (trim b.2.1)) = false ∨
          eqIgnoreCase E (trim a.2.2) (trim b.2.2) = false) →
      (∀ res ∈ (joinAll E st roomName joins).1, res = JoinResult.success) →
      (roomUsers (joinAll E st roomName joins).2 (normalizeRoomName E roomName)).length =
        joins.length ∧
      (roomUsers (joinAll E st roomName joins).2 (normalizeRoomName E roomName)).map
        (fun u => u.connectionId) = joins.map (fun j => j.1)) := by
  refine ⟨?_, ?_, ?_⟩
  · intro room room1 user c email username hadd
    obtain ⟨_, huser, hroom⟩ := addUser_ok E room room1 c email username user hadd
    subst hroom
    refine ⟨rfl, rfl, huser, ?_⟩
    intro habs
    simp only
    rw [comparedUsers_of_absent E room c _ _ habs]
  · intro st c email username roomName hjoin
    obtain ⟨e, u, r, he, hu, hr, husers, hother⟩ :=
      roomUsers_join E st c email username roomName hjoin
    refine ⟨e, u, r, he, hu, hr, husers, hother, ?_⟩
    intro hun
    rw [husers]
    have habs := ((sessionState_unjoined_iff st c).mp hun).2
    rw [filter_isReplaced_of_absent]
    intro x hx
    have : (x.connectionId == c) = false := by
      simpa using roomUsers_absent st _ c habs x hx
    simp [isReplaced, this]
  · intro st roomName joins hempty hdistinct hall
    have hmap := roomUsers_joinAll E roomName joins st
      (by rw [hempty]; intro _ _ x hx; cases hx) hdistinct hall
    rw [hempty] at hmap
    simp only [List.map_nil, List.nil_append] at hmap
    refine ⟨?_, hmap⟩
    have := congrArg List.length hmap
    simpa using this

theorem addUser_appends_witness :
    (joinAll exampleEnv initial "test"
      [("a", "user1@gmail.com", "user1"), ("b", "user2@gmail.com", "user2")]).1 =
      [.success, .success] ∧
    (roomUsers (joinAll exampleEnv initial "test"
      [("a", "user1@gmail.com", "user1"), ("b", "user2@gmail.com", "user2")]).2
      "test").length = 2 ∧
    ({ name := "test",
       users := [{ connectionId := "a", email := "user1@gmail.com", username := "user1",
                   room := "test" }] } : Room).users =
      [] ++ [{ connectionId := "a", email := "user1@gmail.com", username := "user1",
               room := "test" }] ∧
    roomUsers (join exampleEnv exampleState "b" (some "kaye.cenizal@gmail.com") (some "kaye")
      (some "css")).2 "css" =
      [{ connectionId := "c", email := "user2@gmail.com", username := "user2",
         room := "css" },
       { connectionId := "b", email := "kaye.cenizal@gmail.com", username := "kaye",
         room := "css" }] := by
  have h := addUser_appends exampleEnv
  have h3 := h.2.2 initial "test"
    [("a", "user1@gmail.com", "user1"), ("b", "user2@gmail.com", "user2")]
    (by decide)
    (List.Pairwise.cons
      (by
        intro b hb
        rw [List.mem_singleton] at hb
        subst hb
        exact Or.inl (by decide))
      (List.Pairwise.cons (fun _ hb => by cases hb) List.Pairwise.nil))
    (by decide)
  have h1 := h.1 { name := "test", users := [] }
    { name := "test",
      users := [{ connectionId := "a", email := "user1@gmail.com", username := "user1",
                  room := "test" }] }
    { connectionId := "a", email := "user1@gmail.com", username := "user1", room := "test" }
    "a" "user1@gmail.com" "user1" rfl
  obtain ⟨e, u, r, he, hu, hr, h2, _⟩ := h.2.1 exampleState "b"
    (some "kaye.cenizal@gmail.com") (some "kaye") (some "css") (by decide)
  cases he; cases hu; cases hr
  refine ⟨by decide, h3.1, h1.2.2.2 (fun x hx => by cases hx), ?_⟩
  have hkey : normalizeRoomName exampleEnv "css" = "css" := by decide
  rw [hkey] at h2
  rw [h2]
  decide

end Registry

namespace Registry

open JSVal

/-! ### Reconnection -/

theorem checkUserAccess_of_absent (E : Env) (room : Room) (c email username : String)
    (h : ∀ x ∈ room.users, x.connectionId ≠ c) :
    checkUserAccess E room (some c) email username =
      checkUserAccess E room none email username := by
  unfold checkUserAccess
  rw [comparedUsers_of_absent E room c email username h]
  rfl

theorem checkUserAccess_isAllowed_eq (E : Env) (room : Room) (caller : Option String)
    (email username : String) :
    (checkUserAccess E room caller email username).isAllowed =
      (checkUserAccess E room caller email username).duplicateFields.isEmpty := rfl

theorem checkUserAccess_isAllowed_iff (E : Env) (room : Room) (caller : Option String)
    (email username : String) :
    (checkUserAccess E room caller email username).isAllowed = true ↔
      ∀ x ∈ comparedUsers E room caller email username,
        eqIgnoreCase E x.email email = false ∧ eqIgnoreCase E x.username username = false := by
  constructor
  · exact checkUserAccess_allowed E room caller email username
  · intro h
    have h1 : (comparedUsers E room caller email username).any
        (fun u => eqIgnoreCase E u.email email) = false := by
      rw [List.any_eq_false]
      intro x hx
      simp [(h x hx).1]
    have h2 : (comparedUsers E room caller email username).any
        (fun u => eqIgnoreCase E u.username username) = false := by
      rw [List.any_eq_false]
      intro x hx
      simp [(h x hx).2]
    simp [checkUserAccess, h1, h2]

/-- The join of a connection that has not joined, with fields that pass
the validation: it succeeds exactly when no active user of the room holds
the email or the username, then leaving the connection as the last user
of the room; otherwise it is refused with the duplicate kinds. -/
theorem join_unjoined (E : Env) (st : State) (c e u r : String)
    (hs : sessionState st c = .unjoined)
    (hm : (E.toLowerCase (trim e) == "" || trim u == "" || normalizeRoomName E r == "") = false)
    (he : E.isEmail (E.toLowerCase (trim e)) = true) :
    ((join E st c (some e) (some u) (some r)).1 = .success ↔
      ∀ x ∈ roomUsers st (normalizeRoomName E r),
        eqIgnoreCase E x.email (E.toLowerCase (trim e)) = false ∧
        eqIgnoreCase E x.username (trim u) = false) ∧
    ((join E st c (some e) (some u) (some r)).1 = .success →
      (join E st c (some e) (some u) (some r)).2 =
        putRoom (getOrCreateRoom E st r).2
          { (getOrCreateRoom E st r).1 with
            users := (getOrCreateRoom E st r).1.users ++
              [{ connectionId := c, email := E.toLowerCase (trim e), username := trim u,
                 room := (getOrCreateRoom E st r).1.name }] }) ∧
    ((join E st c (some e) (some u) (some r)).1 ≠ .success →
      (join E st c (some e) (some u) (some r)).1 =
        .validationError
          ((checkUserAccess E (getOrCreateRoom E st r).1 (some c)
            (E.toLowerCase (trim e)) (trim u)).duplicateFields.map duplicateKind)) := by
  have habs := ((sessionState_unjoined_iff st c).mp hs).2
  have hcmp := comparedUsers_getOrCreateRoom E st c r (E.toLowerCase (trim e)) (trim u) habs
  have husers := (getOrCreateRoom_lookup E st r).2.2.1
  have hiff := checkUserAccess_isAllowed_iff E (getOrCreateRoom E st r).1 (some c)
    (E.toLowerCase (trim e)) (trim u)
  rw [hcmp, husers] at hiff
  cases ha : (checkUserAccess E (getOrCreateRoom E st r).1 (some c)
      (E.toLowerCase (trim e)) (trim u)).isAllowed with
  | true =>
    have hj := join_of_checks E st c e u r (Or.inl hs) hm he ha
    rw [hcmp] at hj
    rw [hj]
    refine ⟨⟨fun _ => hiff.mp ha, fun _ => rfl⟩, fun _ => rfl, fun h => absurd rfl h⟩
  | false =>
    have hgate : (sessionState st c != SessionState.unjoined &&
        !isReconnect E st c (some e) (some u) (some r)) = false := by simp [hs]
    have hj : join E st c (some e) (some u) (some r) =
        (.validationError
          ((checkUserAccess E (getOrCreateRoom E st r).1 (some c)
            (E.toLowerCase (trim e)) (trim u)).duplicateFields.map duplicateKind), st) := by
      unfold join
      simp only [hgate, Bool.false_eq_true, if_false, hm, he, Bool.not_true]
      unfold addUser
      simp [ha]
    rw [hj]
    refine ⟨⟨fun h => (by cases h), fun h => ?_⟩, fun h => (by cases h), fun _ => rfl⟩
    rw [hiff.mpr h] at ha
    cases ha

/-- Removing the entries of a connection from the users the duplicate
check made for it compared against removes them from the users of the
room. -/
theorem filter_comparedUsers (E : Env) (room : Room) (c email username : String) :
    (comparedUsers E room (some c) email username).filter (fun x => x.connectionId != c) =
      room.users.filter (fun x => x.connectionId != c) := by
  simp only [comparedUsers, List.filter_filter]
  apply List.filter_congr
  intro x _
  cases hx : (x.connectionId != c) with
  | false => rfl
  | true =>
    have : (x.connectionId == c) = false := by simpa using hx
    simp [isReplaced, this]

/-- Writing back a room that holds a connection at the place of the room
of its session leaves the session of the connection in the room written,
when no two rooms have the same name. -/
theorem sessionRoom_putRoom_session (rooms : List Room) (closed : List String)
    (room0 room1 : Room) (c : String)
    (hnd : (rooms.map (fun r => r.name)).Nodup)
    (hs : sessionRoom { rooms := rooms, closed := closed } c = some room0)
    (hname : room1.name = room0.name)
    (hin : ∃ u ∈ room1.users, u.connectionId = c) :
    sessionRoom (putRoom { rooms := rooms, closed := closed } room1) c = some room1 := by
  have hroom : room1.users.any (fun u => u.connectionId == c) = true := by
    rw [List.any_eq_true]
    obtain ⟨u, hu, hc⟩ := hin
    exact ⟨u, hu, by simp [hc]⟩
  simp only [sessionRoom, putRoom] at hs ⊢
  induction rooms with
  | nil => cases hs
  | cons r rest ih =>
    simp only [List.map_cons, List.nodup_cons] at hnd
    simp only [List.map_cons, List.find?_cons] at hs ⊢
    cases hr : r.users.any (fun u => u.connectionId == c) with
    | true =>
      rw [hr] at hs
      have hr0 : r = room0 := by simpa using hs
      have hb : (r.name == room1.name) = true := by simp [hname, hr0]
      simp only [hb, if_true, hroom]
    | false =>
      rw [hr] at hs
      have hmem : room0 ∈ rest := List.mem_of_find?_eq_some hs
      have hne : r.name ≠ room1.name := by
        intro h
        apply hnd.1
        rw [List.mem_map]
        exact ⟨room0, hmem, by rw [h, hname]⟩
      have hb : (r.name == room1.name) = false := by simp [hne]
      simp only [hb, Bool.false_eq_true, if_false, hr]
      exact ih hnd.2 hs

/-- After a successful join the session of the connection is joined. -/
theorem sessionState_join (E : Env) (st : State) (c : String)
    (email username roomName : Option String)
    (h : (join E st c email username roomName).1 = .success) :
    sessionState (join E st c email username roomName).2 c = .joined := by
  obtain ⟨e, u, r, he, hu, hr, hs, _, _, _, hst⟩ := join_success E st c email username roomName h
  have hclosed : st.closed.contains c = false := by
    rcases hs with hs | hs
    · have := ((sessionState_unjoined_iff st c).mp hs).1
      simpa using this
    · subst he; subst hu; subst hr
      simp only [isReconnect] at hs
      cases hsr : sessionRoom st c with
      | none => simp [hsr] at hs
      | some room =>
        simp only [hsr, Bool.and_eq_true, Bool.not_eq_true'] at hs
        exact hs.1.1
  obtain ⟨hl, hname, _, hcl, _⟩ := getOrCreateRoom_lookup E st r
  have hmem := mem_putRoom_self (getOrCreateRoom E st r).2
    { (getOrCreateRoom E st r).1 with
      users := comparedUsers E (getOrCreateRoom E st r).1 (some c)
          (E.toLowerCase (trim e)) (trim u) ++
        [{ connectionId := c, email := E.toLowerCase (trim e), username := trim u,
           room := (getOrCreateRoom E st r).1.name }] }
    (by
      show (lookupRoom _ (getOrCreateRoom E st r).1.name).isSome = true
      rw [hname, hl]; rfl)
  rw [← hst] at hmem
  have hcl2 : (join E st c email username roomName).2.closed.contains c = false := by
    rw [hst, closed_putRoom, hcl]
    exact hclosed
  have hsome : sessionRoom (join E st c email username roomName).2 c ≠ none := by
    intro hnone
    rw [sessionRoom_eq_none_iff] at hnone
    exact hnone _ hmem
      { connectionId := c, email := E.toLowerCase (trim e), username := trim u,
        room := (getOrCreateRoom E st r).1.name } (by simp) rfl
  unfold sessionState
  simp only [hcl2, Bool.false_eq_true, if_false]
  cases hsr : sessionRoom (join E st c email username roomName).2 c with
  | none => exact absurd hsr hsome
  | some room => rfl

/-- C11, the claim as worded fails when the credentials are taken in
between: connection `a` joins `css` and disconnects, connection `c` joins
`css` with the same email and username, and the join that connection `b`,
which has not joined and is not closed, then makes with that email,
username and room is refused with both duplicate kinds. -/
theorem rejoin_after_disconnect_counterexample :
    (join exampleEnv initial "a" (some "user2@gmail.com") (some "user2") (some "css")).1 =
      .success ∧
    sessionState
      (run exampleEnv initial
        [.join "a" (some "user2@gmail.com") (some "user2") (some "css"),
         .disconnect "a",
         .join "c" (some "user2@gmail.com") (some "user2") (some "css")]) "b" = .unjoined ∧
    (join exampleEnv
      (run exampleEnv initial
        [.join "a" (some "user2@gmail.com") (some "user2") (some "css"),
         .disconnect "a",
         .join "c" (some "user2@gmail.com") (some "user2") (some "css")])
      "b" (some "user2@gmail.com") (some "user2") (some "css")).1 =
      .validationError [.duplicateEmail, .duplicateUsername] := by
  decide

/-- C11, amended: let a connection join a room with an email and a
username, from a reachable state or as a connection that had not joined,
and then disconnect, and let another connection, one that has not joined
and is not closed, join with the same email, username and room.  Made
right after the disconnect, that join succeeds, so reports no duplicate
field, and leaves the connection as the last active user of the room,
after the users the room had before less those of the connection that
left, with the normalised email and username, its session being joined.
Made after any further requests, it never fails on a missing field or an
invalid email; it succeeds exactly when no active user of the room then
holds the email or the username ignoring case, the connection becoming
the last active user of the room; and otherwise it is refused with the
duplicate kinds and changes nothing. -/
theorem rejoin_after_disconnect (E : Env) (st : State) (c1 c2 email username roomName : String)
    (hjoin : (join E st c1 (some email) (some username) (some roomName)).1 = .success)
    (hother : c2 ≠ c1) :
    ((sessionState st c1 = .unjoined ∨ Reachable E st) → sessionState st c2 = .unjoined →
      (join E
        (onDisconnect (join E st c1 (some email) (some username) (some roomName)).2 c1)
        c2 (some email) (some username) (some roomName)).1 = .success ∧
      roomUsers (join E
        (onDisconnect (join E st c1 (some email) (some username) (some roomName)).2 c1)
        c2 (some email) (some username) (some roomName)).2 (normalizeRoomName E roomName) =
        (roomUsers st (normalizeRoomName E roomName)).filter
            (fun x => x.connectionId != c1) ++
          [{ connectionId := c2, email := E.toLowerCase (trim email),
             username := trim username, room := normalizeRoomName E roomName }] ∧
      sessionState (join E
        (onDisconnect (join E st c1 (some email) (some username) (some roomName)).2 c1)
        c2 (some email) (some username) (some roomName)).2 c2 = .joined) ∧
    (∀ later : List Op,
      sessionState
        (run E (onDisconnect (join E st c1 (some email) (some username) (some roomName)).2 c1)
          later) c2 = .unjoined →
      ((join E
          (run E (onDisconnect (join E st c1 (some email) (some username) (some roomName)).2 c1)
            later)
          c2 (some email) (some username) (some roomName)).1 = .success ↔
        ∀ x ∈ roomUsers
            (run E (onDisconnect (join E st c1 (some email) (some username)
              (some roomName)).2 c1) later) (normalizeRoomName E roomName),
          eqIgnoreCase E x.email (E.toLowerCase (trim email)) = false ∧
          eqIgnoreCase E x.username (trim username) = false) ∧
      ((join E
          (run E (onDisconnect (join E st c1 (some email) (some username) (some roomName)).2 c1)
            later)
          c2 (some email) (some username) (some roomName)).1 = .success →
        roomUsers (join E
          (run E (onDisconnect (join E st c1 (some email) (some username) (some roomName)).2 c1)
            later)
          c2 (some email) (some username) (some roomName)).2 (normalizeRoomName E roomName) =
          roomUsers
            (run E (onDisconnect (join E st c1 (some email) (some username)
              (some roomName)).2 c1) later) (normalizeRoomName E roomName) ++
            [{ connectionId := c2, email := E.toLowerCase (trim email),
               username := trim username, room := normalizeRoomName E roomName }]) ∧
      ((join E
          (run E (onDisconnect (join E st c1 (some email) (some username) (some roomName)).2 c1)
            later)
          c2 (some email) (some username) (some roomName)).1 ≠ .success →
        (∃ fields, fields ≠ [] ∧
          (join E
            (run E (onDisconnect (join E st c1 (some email) (some username)
              (some roomName)).2 c1) later)
            c2 (some email) (some username) (some roomName)).1 =
            .validationError (fields.map duplicateKind)) ∧
        (join E
          (run E (onDisconnect (join E st c1 (some email) (some username) (some roomName)).2 c1)
            later)
          c2 (some email) (some username) (some roomName)).2 =
          run E (onDisconnect (join E st c1 (some email) (some username) (some roomName)).2 c1)
            later)) := by
  obtain ⟨e, u, r, he, hu, hr, hgate, hm, hmail, hallow, hst2⟩ :=
    join_success E st c1 (some email) (some username) (some roomName) hjoin
  cases he; cases hu; cases hr
  -- the join of the other connection in a state where it has not joined
  have hlater : ∀ st3 : State, sessionState st3 c2 = .unjoined →
      ((join E st3 c2 (some email) (some username) (some roomName)).1 = .success ↔
        ∀ x ∈ roomUsers st3 (normalizeRoomName E roomName),
          eqIgnoreCase E x.email (E.toLowerCase (trim email)) = false ∧
          eqIgnoreCase E x.username (trim username) = false) ∧
      ((join E st3 c2 (some email) (some username) (some roomName)).1 = .success →
        roomUsers (join E st3 c2 (some email) (some username) (some roomName)).2
            (normalizeRoomName E roomName) =
          roomUsers st3 (normalizeRoomName E roomName) ++
            [{ connectionId := c2, email := E.toLowerCase (trim email),
               username := trim username, room := normalizeRoomName E roomName }]) ∧
      ((join E st3 c2 (some email) (some username) (some roomName)).1 ≠ .success →
        (∃ fields, fields ≠ [] ∧
          (join E st3 c2 (some email) (some username) (some roomName)).1 =
            .validationError (fields.map duplicateKind)) ∧
        (join E st3 c2 (some email) (some username) (some roomName)).2 = st3) := by
    intro st3 hun
    obtain ⟨hiff, _, hfail⟩ := join_unjoined E st3 c2 email username roomName hun hm hmail
    refine ⟨hiff, ?_, ?_⟩
    · intro hs
      obtain ⟨e, u, r, he, hu, hr, husers, _⟩ :=
        (roomUsers_join E st3 c2 (some email) (some username) (some roomName) hs)
      cases he; cases hu; cases hr
      rw [husers, filter_isReplaced_of_absent]
      intro x hx
      have : (x.connectionId == c2) = false := by
        simpa using roomUsers_absent st3 _ c2 ((sessionState_unjoined_iff st3 c2).mp hun).2 x hx
      simp [isReplaced, this]
    · intro hns
      refine ⟨⟨_, ?_, hfail hns⟩, join_not_success E st3 c2 _ _ _ hns⟩
      intro hnil
      have hdup : (checkUserAccess E (getOrCreateRoom E st3 roomName).1
          (some c2) (E.toLowerCase (trim email)) (trim username)).isAllowed = true := by
        rw [checkUserAccess_isAllowed_eq, hnil]
        rfl
      have hj := join_of_checks E st3 c2 email username roomName (Or.inl hun) hm hmail hdup
      rw [hj] at hns
      exact hns rfl
  refine ⟨?_, fun later hun => hlater _ hun⟩
  intro hfirst hfresh
  obtain ⟨hl, hname, husers, hclosed, _⟩ := getOrCreateRoom_lookup E st roomName
  obtain ⟨hc2closed, habs2⟩ := (sessionState_unjoined_iff st c2).mp hfresh
  have habs2' := getOrCreateRoom_absent E st roomName c2 habs2
  have hroomMem := (lookupRoom_some _ _ _ hl).1
  -- the session of the first connection after its join
  have hsess : sessionRoom (join E st c1 (some email) (some username) (some roomName)).2 c1 =
      some { (getOrCreateRoom E st roomName).1 with
        users := comparedUsers E (getOrCreateRoom E st roomName).1 (some c1)
            (E.toLowerCase (trim email)) (trim username) ++
          [{ connectionId := c1, email := E.toLowerCase (trim email),
             username := trim username,
             room := (getOrCreateRoom E st roomName).1.name }] } := by
    rw [hst2]
    by_cases hun1 : sessionState st c1 = .unjoined
    · have habs1' := getOrCreateRoom_absent E st roomName c1
        ((sessionState_unjoined_iff st c1).mp hun1).2
      exact sessionRoom_putRoom _ _ _ c1 habs1' ⟨_, hroomMem, rfl⟩
        ⟨_, List.mem_append_right _ (List.mem_singleton_self _), rfl⟩
    · have hrec : isReconnect E st c1 (some email) (some username) (some roomName) = true := by
        rcases hgate with h | h
        · exact absurd h hun1
        · exact h
      have hreach : Reachable E st := by
        rcases hfirst with h | h
        · exact absurd h hun1
        · exact h
      have hnd := reachable_nodup E st hreach
      simp only [isReconnect] at hrec
      cases hsr : sessionRoom st c1 with
      | none => simp [hsr] at hrec
      | some room0 =>
        simp only [hsr, Bool.and_eq_true, beq_iff_eq] at hrec
        have hmem0 := sessionRoom_mem st c1 room0 hsr
        have hlook0 : lookupRoom st (normalizeRoomName E roomName) = some room0 := by
          rw [← hrec.1.2]
          exact lookupRoom_of_mem st hnd room0 hmem0
        rw [getOrCreateRoom_of_lookup E st roomName room0 hlook0]
        exact sessionRoom_putRoom_session st.rooms st.closed room0 _ c1 hnd hsr rfl
          ⟨_, List.mem_append_right _ (List.mem_singleton_self _), rfl⟩
  have hremove : (removeUser { (getOrCreateRoom E st roomName).1 with
        users := comparedUsers E (getOrCreateRoom E st roomName).1 (some c1)
            (E.toLowerCase (trim email)) (trim username) ++
          [{ connectionId := c1, email := E.toLowerCase (trim email),
             username := trim username,
             room := (getOrCreateRoom E st roomName).1.name }] } c1) =
      { (getOrCreateRoom E st roomName).1 with
        users := (getOrCreateRoom E st roomName).1.users.filter
          (fun x => x.connectionId != c1) } := by
    simp only [removeUser, List.filter_append, filter_comparedUsers]
    simp
  have hleave : leave (join E st c1 (some email) (some username) (some roomName)).2 c1 =
      putRoom (getOrCreateRoom E st roomName).2
        { (getOrCreateRoom E st roomName).1 with
          users := (getOrCreateRoom E st roomName).1.users.filter
            (fun x => x.connectionId != c1) } := by
    unfold leave
    rw [hsess]
    simp only
    rw [hremove, hst2]
    exact putRoom_putRoom _ _ _ rfl
  -- facts on the state the second join is made in
  have hrooms3 : (onDisconnect (join E st c1 (some email) (some username)
      (some roomName)).2 c1).rooms =
      (putRoom (getOrCreateRoom E st roomName).2
        { (getOrCreateRoom E st roomName).1 with
          users := (getOrCreateRoom E st roomName).1.users.filter
            (fun x => x.connectionId != c1) }).rooms := by
    simp only [onDisconnect, hleave]
  have hclosed3 : ∀ x, x ∈ (onDisconnect (join E st c1 (some email) (some username)
      (some roomName)).2 c1).closed → x = c1 ∨ x ∈ st.closed := by
    intro x hx
    simp only [onDisconnect, hleave, closed_putRoom, hclosed] at hx
    split at hx
    · exact Or.inr hx
    · rcases List.mem_cons.mp hx with h | h
      · exact Or.inl h
      · exact Or.inr h
  have husers3 : roomUsers (onDisconnect (join E st c1 (some email) (some username)
      (some roomName)).2 c1) (normalizeRoomName E roomName) =
      (roomUsers st (normalizeRoomName E roomName)).filter (fun x => x.connectionId != c1) := by
    have : lookupRoom (onDisconnect (join E st c1 (some email) (some username)
        (some roomName)).2 c1) (normalizeRoomName E roomName) =
        lookupRoom (putRoom (getOrCreateRoom E st roomName).2
          { (getOrCreateRoom E st roomName).1 with
            users := (getOrCreateRoom E st roomName).1.users.filter
              (fun x => x.connectionId != c1) })
          (normalizeRoomName E roomName) := by
      simp only [lookupRoom, hrooms3]
    simp only [roomUsers]
    rw [this, lookupRoom_putRoom]
    simp only [hname, if_true, hl, Option.map_some']
    rw [husers]
    simp [roomUsers]
  have hfresh3 : sessionState (onDisconnect (join E st c1 (some email) (some username)
      (some roomName)).2 c1) c2 = .unjoined := by
    rw [sessionState_unjoined_iff]
    refine ⟨?_, ?_⟩
    · intro hx
      rcases hclosed3 c2 hx with h | h
      · exact hother h
      · exact hc2closed h
    · rw [hrooms3]
      intro x hx
      rcases mem_putRoom _ _ x hx with rfl | hx'
      · intro y hy
        exact habs2' _ hroomMem y (List.mem_of_mem_filter hy)
      · exact habs2' x hx'
  obtain ⟨hiff, husersAfter, _⟩ := hlater _ hfresh3
  have hfree := checkUserAccess_allowed E _ (some c1) _ _ hallow
  have hsucc : (join E
      (onDisconnect (join E st c1 (some email) (some username) (some roomName)).2 c1)
      c2 (some email) (some username) (some roomName)).1 = .success := by
    rw [hiff, husers3]
    intro x hx
    rw [← husers, ← filter_comparedUsers E _ c1 (E.toLowerCase (trim email)) (trim username)]
      at hx
    exact hfree x (List.mem_of_mem_filter hx)
  refine ⟨hsucc, ?_, sessionState_join E _ c2 _ _ _ hsucc⟩
  rw [husersAfter hsucc, husers3]

theorem rejoin_after_disconnect_witness :
    (join exampleEnv initial "a" (some "user2@gmail.com") (some "user2") (some "css")).1 =
      .success ∧
    (join exampleEnv
      (onDisconnect
        (join exampleEnv initial "a" (some "user2@gmail.com") (some "user2") (some "css")).2 "a")
      "b" (some "user2@gmail.com") (some "user2") (some "css")).1 = .success ∧
    roomUsers (join exampleEnv
      (onDisconnect
        (join exampleEnv initial "a" (some "user2@gmail.com") (some "user2") (some "css")).2 "a")
      "b" (some "user2@gmail.com") (some "user2") (some "css")).2 "css" =
      [{ connectionId := "b", email := "user2@gmail.com", username := "user2", room := "css" }] ∧
    (∃ fields, fields ≠ [] ∧
      (join exampleEnv
        (run exampleEnv
          (onDisconnect
            (join exampleEnv initial "a" (some "user2@gmail.com") (some "user2")
              (some "css")).2 "a")
          [.join "c" (some "user2@gmail.com") (some "user2") (some "css")])
        "b" (some "user2@gmail.com") (some "user2") (some "css")).1 =
        .validationError (fields.map duplicateKind)) ∧
    (join exampleEnv
      (onDisconnect
        (join exampleEnv exampleState "b" (some "kaye.cenizal@gmail.com") (some "kaye")
          (some "css")).2 "b")
      "d" (some "kaye.cenizal@gmail.com") (some "kaye") (some "css")).1 = .success := by
  have h := rejoin_after_disconnect exampleEnv initial "a" "b" "user2@gmail.com" "user2" "css"
    (by decide) (by decide)
  have h1 := h.1 (Or.inl (by decide)) (by decide)
  have h2 := h.2 [.join "c" (some "user2@gmail.com") (some "user2") (some "css")] (by decide)
  have h3 := (rejoin_after_disconnect exampleEnv exampleState "b" "d" "kaye.cenizal@gmail.com"
    "kaye" "css" (by decide) (by decide)).1 (Or.inr ⟨exampleOps, rfl⟩) (by decide)
  refine ⟨by decide, h1.1, ?_, (h2.2.2 (by decide)).1, h3.1⟩
  have hkey : normalizeRoomName exampleEnv "css" = "css" := by decide
  have := h1.2.1
  rw [hkey] at this
  rw [this]
  decide

/-! ### Order of the active rooms -/

theorem getActiveRoomNames_subset (st : State) :
    ∀ n ∈ getActiveRoomNames st, n ∈ roomNames st := by
  intro n hn
  obtain ⟨r, hr, _, hname⟩ := (mem_getActiveRoomNames st n).mp hn
  simp only [roomNames, List.mem_map]
  exact ⟨r, hr, hname⟩

theorem getActiveRoomNames_sublist (st : State) :
    (getActiveRoomNames st).Sublist (roomNames st) := by
  unfold getActiveRoomNames roomNames
  exact (List.filter_sublist _).map _

theorem getActiveRoomNames_append (st st1 : State) (key : String) (user : User)
    (h : st1.rooms = st.rooms ++ [{ name := key, users := [user] }]) :
    getActiveRoomNames st1 = getActiveRoomNames st ++ [key] := by
  simp [getActiveRoomNames, h, List.filter_append]

/-- One request extends the record of first activations to the names of
the rooms after it, when the record was the names of the rooms before. -/
theorem recordActivations_step (E : Env) (st : State) (op : Op) :
    recordActivations (roomNames st) (getActiveRoomNames (step E st op)) =
      roomNames (step E st op) := by
  unfold recordActivations
  rcases step_rooms E st op with hn | ⟨key, user, hkey, hrooms⟩
  · have hnil : (getActiveRoomNames (step E st op)).filter
        (fun n => !(roomNames st).contains n) = [] := by
      rw [List.filter_eq_nil_iff]
      intro a ha
      have := getActiveRoomNames_subset (step E st op) a ha
      rw [hn] at this
      simpa using this
    rw [hnil, hn, List.append_nil]
  · rw [getActiveRoomNames_append st (step E st op) key user hrooms, List.filter_append]
    have hnil : (getActiveRoomNames st).filter (fun n => !(roomNames st).contains n) = [] := by
      rw [List.filter_eq_nil_iff]
      intro a ha
      simpa using getActiveRoomNames_subset st a ha
    have hkey' : (!(roomNames st).contains key) = true := by simpa using hkey
    rw [hnil]
    simp only [List.filter, hkey', List.nil_append]
    simp [roomNames, hrooms]

theorem activationLog_eq (E : Env) (ops : List Op) (st : State) :
    activationLog E st (roomNames st) ops = roomNames (run E st ops) := by
  induction ops generalizing st with
  | nil => rfl
  | cons op ops ih =>
    simp only [activationLog, run, List.foldl_cons]
    rw [recordActivations_step E st op]
    exact ih (step E st op)

theorem firstActivationOrder_eq (E : Env) (ops : List Op) :
    firstActivationOrder E ops = roomNames (run E initial ops) :=
  activationLog_eq E ops initial

theorem roomNames_run_append (E : Env) (more : List Op) (st : State) :
    ∃ t, roomNames (run E st more) = roomNames st ++ t := by
  induction more generalizing st with
  | nil => exact ⟨[], by simp [run]⟩
  | cons op more ih =>
    obtain ⟨t, ht⟩ := ih (step E st op)
    simp only [run, List.foldl_cons] at ht ⊢
    rcases step_rooms E st op with hn | ⟨key, user, _, hrooms⟩
    · exact ⟨t, by rw [ht, hn]⟩
    · refine ⟨key :: t, ?_⟩
      rw [ht]
      simp [roomNames, hrooms]

/-- The rooms after a successful join to a name that is not stored. -/
theorem join_new_room (E : Env) (st : State) (c : String) (email username : Option String)
    (r : String) (hjoin : (join E st c email username (some r)).1 = .success)
    (hnew : findRoom E st r = none) :
    ∃ user, (join E st c email username (some r)).2.rooms =
      st.rooms ++ [{ name := normalizeRoomName E r, users := [user] }] := by
  obtain ⟨e, u, r', _, _, hr', _, _, _, _, hst⟩ :=
    join_success E st c email username (some r) hjoin
  cases hr'
  rcases getOrCreateRoom_cases E st r with ⟨room, hlook, _⟩ | ⟨hlook, hg⟩
  · unfold findRoom at hnew; rw [hnew] at hlook; cases hlook
  · refine ⟨{ connectionId := c, email := E.toLowerCase (trim e), username := trim u,
              room := normalizeRoomName E r }, ?_⟩
    rw [hst, hg]
    simp only [putRoom, List.map_append, List.map_cons, List.map_nil, beq_self_eq_true,
      if_true, List.nil_append, comparedUsers_nil]
    have := map_put_of_absent st.rooms
      { name := normalizeRoomName E r,
        users := [{ connectionId := c, email := E.toLowerCase (trim e), username := trim u,
                    room := normalizeRoomName E r }] }
      (lookupRoom_none st _ hlook)
    simp only at this
    rw [this]

/-- C13: along every run from the empty registry, the active-rooms list
keeps the order of first activation: it is a sublist of the record of
first activations, in which every room occurs once; the record only grows
at its end as the run goes on, so a room keeps its place when it empties
and refills; and a successful join to a room name that is not stored
yields the former active-rooms list followed by that name. -/
theorem getActiveRoomNames_order (E : Env) (ops : List Op) :
    (firstActivationOrder E ops).Nodup ∧
    (getActiveRoomNames (run E initial ops)).Sublist (firstActivationOrder E ops) ∧
    (∀ more, ∃ t, firstActivationOrder E (ops ++ more) = firstActivationOrder E ops ++ t) ∧
    (∀ c email username r,
      (join E (run E initial ops) c email username (some r)).1 = .success →
      findRoom E (run E initial ops) r = none →
      getActiveRoomNames (join E (run E initial ops) c email username (some r)).2 =
        getActiveRoomNames (run E initial ops) ++ [normalizeRoomName E r]) := by
  refine ⟨?_, ?_, ?_, ?_⟩
  · rw [firstActivationOrder_eq]
    exact nodup_run E ops initial List.nodup_nil
  · rw [firstActivationOrder_eq]
    exact getActiveRoomNames_sublist _
  · intro more
    rw [firstActivationOrder_eq, firstActivationOrder_eq]
    have : run E initial (ops ++ more) = run E (run E initial ops) more := by
      simp [run, List.foldl_append]
    rw [this]
    exact roomNames_run_append E more _
  · intro c email username r hjoin hnew
    obtain ⟨user, hrooms⟩ := join_new_room E _ c email username r hjoin hnew
    exact getActiveRoomNames_append _ _ _ user hrooms

theorem getActiveRoomNames_order_witness :
    getActiveRoomNames (run exampleEnv initial threeRoomsOps) = ["javascript", "css", "html"] ∧
    getActiveRoomNames
      (join exampleEnv (run exampleEnv initial threeRoomsOps) "d"
        (some "callie.par@gmail.com") (some "callie") (some "python")).2 =
      ["javascript", "css", "html", "python"] ∧
    getActiveRoomNames (run exampleEnv initial (threeRoomsOps ++ [.disconnect "b"])) =
      ["javascript", "html"] ∧
    getActiveRoomNames (run exampleEnv initial refillOps) = ["javascript", "css", "html"] := by
  have h := (getActiveRoomNames_order exampleEnv threeRoomsOps).2.2.2 "d"
    (some "callie.par@gmail.com") (some "callie") "python" (by decide) (by decide)
  refine ⟨by decide, ?_, by decide, by decide⟩
  rw [h]
  decide

end Registry

namespace JSVal

theorem dropWhile_append_of_all (p : Char → Bool) (pre l : List Char)
    (h : ∀ c ∈ pre, p c = true) : (pre ++ l).dropWhile p = l.dropWhile p := by
  induction pre with
  | nil => rfl
  | cons a pre ih =>
    have ha : p a = true := h a (List.mem_cons_self a pre)
    simp only [List.cons_append, List.dropWhile, ha]
    exact ih (fun c hc => h c (List.mem_cons_of_mem a hc))

theorem dropWhile_append_of_exists (p : Char → Bool) (l post : List Char)
    (h : ∃ c ∈ l, p c = false) : (l ++ post).dropWhile p = l.dropWhile p ++ post := by
  induction l with
  | nil => obtain ⟨c, hc, _⟩ := h; cases hc
  | cons a l ih =>
    cases hpa : p a with
    | false => simp [List.dropWhile, hpa]
    | true =>
      obtain ⟨c, hc, hpc⟩ := h
      rcases List.mem_cons.mp hc with rfl | hc'
      · rw [hpa] at hpc; cases hpc
      · simp only [List.cons_append, List.dropWhile, hpa]
        exact ih ⟨c, hc', hpc⟩

theorem trimEnd_append_of_all (l post : List Char)
    (h : ∀ c ∈ post, isWhiteSpace c = true) : trimEnd (l ++ post) = trimEnd l := by
  unfold trimEnd
  rw [List.reverse_append, dropWhile_append_of_all]
  intro c hc
  exact h c (List.mem_reverse.mp hc)

/-- White space put before and after a text is trimmed away with the white
space the text had. -/
theorem trim_pad (s : String) (pre post : List Char)
    (hpre : ∀ c ∈ pre, isWhiteSpace c = true) (hpost : ∀ c ∈ post, isWhiteSpace c = true) :
    trim ⟨pre ++ s.data ++ post⟩ = trim s := by
  unfold trim
  congr 1
  show trimEnd (trimStart (pre ++ s.data ++ post)) = trimEnd (trimStart s.data)
  unfold trimStart
  rw [List.append_assoc, dropWhile_append_of_all _ _ _ hpre]
  by_cases hex : ∃ c ∈ s.data, isWhiteSpace c = false
  · rw [dropWhile_append_of_exists _ _ _ hex, trimEnd_append_of_all _ _ hpost]
  · have hall : ∀ c ∈ s.data, isWhiteSpace c = true := by
      intro c hc
      cases hw : isWhiteSpace c with
      | true => rfl
      | false => exact absurd ⟨c, hc, hw⟩ hex
    have hall2 : ∀ c ∈ s.data ++ post, isWhiteSpace c = true := by
      intro c hc
      rcases List.mem_append.mp hc with h | h
      · exact hall c h
      · exact hpost c h
    rw [dropWhile_eq_nil_of_all _ _ hall2, dropWhile_eq_nil_of_all _ _ hall]

end JSVal

namespace RoomRouter

open JSVal

/-- The first call of the handler is the lookup of the room, whatever the
query holds. -/
theorem validateUser_calls_head {ρ : Type} (R : RoomModel ρ) (qprops : List (String × JSVal)) :
    ∃ rest, (validateUser R (.obj qprops)).calls =
      .findOne (.obj [("name", lookup "room" qprops)]) :: rest := by
  simp only [validateUser, getProp]
  cases hf : R.findOne (.obj [("name", lookup "room" qprops)]) with
  | error e =>
    simp only [sendError]
    cases e.getProp "message" <;> exact ⟨[], rfl⟩
  | ok found =>
    cases found with
    | none => exact ⟨[], rfl⟩
    | some chatRoom =>
      simp only
      cases hv : R.validateUser chatRoom (lookup "email" qprops) (lookup "username" qprops) with
      | error e =>
        simp only [sendError]
        cases e.getProp "message" <;> exact ⟨_, rfl⟩
      | ok v => exact ⟨_, rfl⟩

/-- Every response of the handler has status 200 or status 400. -/
theorem validateUser_status {ρ : Type} (R : RoomModel ρ) (query : JSVal) :
    (validateUser R query).responses.all (fun r => r.status == 200 || r.status == 400) = true := by
  have hsend : ∀ (e : JSVal) (calls : List (RoomCall ρ)),
      (sendError e calls).responses.all (fun r => r.status == 200 || r.status == 400) = true := by
    intro e calls
    simp only [sendError]
    cases e.getProp "message" <;> simp
  unfold validateUser
  cases query.getProp "email" with
  | error e => exact hsend e _
  | ok email =>
    cases query.getProp "username" with
    | error e => exact hsend e _
    | ok username =>
      cases query.getProp "room" with
      | error e => exact hsend e _
      | ok room =>
        simp only
        cases R.findOne (.obj [("name", room)]) with
        | error e => exact hsend e _
        | ok found =>
          cases found with
          | none => simp
          | some chatRoom =>
            simp only
            cases R.validateUser chatRoom email username with
            | error e => exact hsend e _
            | ok v => simp

/-- The responses of the handler depend on the room name only through
what the lookup finds for it. -/
theorem validateUser_responses_congr {ρ : Type} (R : RoomModel ρ)
    (email username room1 room2 : JSVal)
    (h : R.findOne (.obj [("name", room1)]) = R.findOne (.obj [("name", room2)])) :
    (validateUser R (.obj [("email", email), ("username", username), ("room", room1)])).responses =
    (validateUser R (.obj [("email", email), ("username", username), ("room", room2)])).responses := by
  have hl1 : ∀ room : JSVal,
      lookup "email" [("email", email), ("username", username), ("room", room)] = email := by
    intro room; simp [lookup]
  have hl2 : ∀ room : JSVal,
      lookup "username" [("email", email), ("username", username), ("room", room)] = username := by
    intro room; simp [lookup]
  have hl3 : ∀ room : JSVal,
      lookup "room" [("email", email), ("username", username), ("room", room)] = room := by
    intro room; simp [lookup]
  simp only [validateUser, getProp, hl1, hl2, hl3]
  rw [h]
  cases R.findOne (.obj [("name", room2)]) with
  | error e =>
    simp only [sendError]
    cases e.getProp "message" <;> rfl
  | ok found =>
    cases found with
    | none => rfl
    | some chatRoom =>
      simp only
      cases R.validateUser chatRoom email username with
      | error e =>
        simp only [sendError]
        cases e.getProp "message" <;> rfl
      | ok v => rfl

/-- C17, evaluated on the code: the handler of `src/router/room.js` answers
a failure of the room lookup or of the access check with status 400 and
the message of the error, and no response of it ever has a status of the
500 class. -/
theorem validateUser_unexpected_error :
    (validateUser failingRooms
      (exampleQuery "kaye.cenizal@gmail.com" "kaye" "javascript")).responses =
      [{ status := 400, body := .obj [("error", .str "Mock Error")] }] ∧
    (validateUser failingCheck
      (exampleQuery "kaye.cenizal@gmail.com" "kaye" "javascript")).responses =
      [{ status := 400, body := .obj [("error", .str "Mock Error")] }] ∧
    isServerError 400 = false ∧
    (∀ (ρ : Type) (R : RoomModel ρ) (query : JSVal),
      (validateUser R query).responses.all (fun r => !isServerError r.status) = true) := by
  refine ⟨rfl, rfl, rfl, ?_⟩
  intro ρ R query
  have h := validateUser_status R query
  rw [List.all_eq_true] at h ⊢
  intro r hr
  have := h r hr
  simp only [Bool.or_eq_true, beq_iff_eq] at this
  rcases this with h200 | h400
  · rw [h200]; rfl
  · rw [h400]; rfl

/-- C18, evaluated on the code: the handler of `src/router/room.js` checks
no parameter.  Whatever the query holds, its first call is the lookup of
the room; a request without `room` looks up the name `undefined` and, no
room being found, is answered 200 with `isValid: true`; a request without
`email` for a stored room goes on to the access check and is answered
200. -/
theorem validateUser_missing_parameter :
    (∀ (ρ : Type) (R : RoomModel ρ) (qprops : List (String × JSVal)),
      ∃ rest, (validateUser R (.obj qprops)).calls =
        .findOne (.obj [("name", lookup "room" qprops)]) :: rest) ∧
    (validateUser exampleRooms
      (.obj [("email", .str "kaye.cenizal@gmail.com"), ("username", .str "kaye")])).calls =
      [.findOne (.obj [("name", .undefined)])] ∧
    (validateUser exampleRooms
      (.obj [("email", .str "kaye.cenizal@gmail.com"), ("username", .str "kaye")])).responses =
      [{ status := 200, body := .obj [("isValid", .bool true)] }] ∧
    (validateUser exampleRooms
      (.obj [("username", .str "kaye"), ("room", .str "javascript")])).calls =
      [.findOne (.obj [("name", .str "javascript")]),
       .validateUser ["kaye.cenizal@gmail.com"] .undefined (.str "kaye")] ∧
    (validateUser exampleRooms
      (.obj [("username", .str "kaye"), ("room", .str "javascript")])).responses =
      [{ status := 200, body := .obj [("isValid", .bool true)] }] :=
  ⟨fun _ R qprops => validateUser_calls_head R qprops, rfl, rfl, rfl, rfl⟩

/-- C19, evaluated on the code: the handler of `src/router/room.js` does not
test the email.  For the malformed email `kaye.cenizal!gmail.com` and the
stored room `javascript` it looks up the room, calls the access check
with that email, and answers 200 with the result of the check. -/
theorem validateUser_invalid_email :
    (validateUser exampleRooms
      (exampleQuery "kaye.cenizal!gmail.com" "kaye" "javascript")).calls =
      [.findOne (.obj [("name", .str "javascript")]),
       .validateUser ["kaye.cenizal@gmail.com"] (.str "kaye.cenizal!gmail.com") (.str "kaye")] ∧
    (validateUser exampleRooms
      (exampleQuery "kaye.cenizal!gmail.com" "kaye" "javascript")).responses =
      [{ status := 200, body := .obj [("isValid", .bool true)] }] ∧
    (validateUser exampleRooms
      (exampleQuery "kaye.cenizal!gmail.com" "kaye" "node.js")).responses =
      [{ status := 200, body := .obj [("isValid", .bool true)] }] :=
  ⟨rfl, rfl, rfl⟩

end RoomRouter

namespace RoomRouter

open JSVal

/-- C20, the claim as worded fails for the handler: it hands the room name
to `Room.findOne` as it was received.  With a lookup that compares the
name of the filter with the stored name, the request for the stored room
`javascript` is checked and answered `isValid: false` for an email in use,
while the requests for the variants `JavaScript` and ` javascript ` look up
those very names, find no room, and are answered `isValid: true` without
an access check. -/
theorem validateUser_room_variant_counterexample :
    (validateUser exampleRooms
      (exampleQuery "kaye.cenizal@gmail.com" "kaye" "javascript")).calls =
      [.findOne (.obj [("name", .str "javascript")]),
       .validateUser ["kaye.cenizal@gmail.com"] (.str "kaye.cenizal@gmail.com") (.str "kaye")] ∧
    (validateUser exampleRooms
      (exampleQuery "kaye.cenizal@gmail.com" "kaye" "javascript")).responses =
      [{ status := 200, body := .obj [("isValid", .bool false)] }] ∧
    (validateUser exampleRooms
      (exampleQuery "kaye.cenizal@gmail.com" "kaye" "JavaScript")).calls =
      [.findOne (.obj [("name", .str "JavaScript")])] ∧
    (validateUser exampleRooms
      (exampleQuery "kaye.cenizal@gmail.com" "kaye" "JavaScript")).responses =
      [{ status := 200, body := .obj [("isValid", .bool true)] }] ∧
    (validateUser exampleRooms
      (exampleQuery "kaye.cenizal@gmail.com" "kaye" " javascript ")).calls =
      [.findOne (.obj [("name", .str " javascript ")])] ∧
    (validateUser exampleRooms
      (exampleQuery "kaye.cenizal@gmail.com" "kaye" " javascript ")).responses =
      [{ status := 200, body := .obj [("isValid", .bool true)] }] :=
  ⟨rfl, rfl, rfl, rfl, rfl, rfl⟩

/-- C20, amended: for every `Room` model, email, username and room names
`n` and `n2`, the handler of `GET /validateUser` looks up the name `n2` as
it was received, neither trimmed nor lower-cased, as its first call.  The
request for `n2` gets the same responses as the request for `n` whenever
the lookup resolves the two names alike, as a lookup that normalises does
for a variant; and the request for `n2` is always answered by what the
lookup resolves `n2` itself to: `isValid: true` with no access check when
no room is found, and the result of the access check of the room found
otherwise. -/
theorem validateUser_room_variant {ρ : Type} (R : RoomModel ρ) (email username : JSVal)
    (n n2 : String) :
    (∃ rest, (validateUser R
        (.obj [("email", email), ("username", username), ("room", .str n2)])).calls =
      .findOne (.obj [("name", .str n2)]) :: rest) ∧
    (R.findOne (.obj [("name", .str n2)]) = R.findOne (.obj [("name", .str n)]) →
      (validateUser R
        (.obj [("email", email), ("username", username), ("room", .str n2)])).responses =
      (validateUser R
        (.obj [("email", email), ("username", username), ("room", .str n)])).responses) ∧
    (R.findOne (.obj [("name", .str n2)]) = .ok none →
      validateUser R (.obj [("email", email), ("username", username), ("room", .str n2)]) =
        { responses := [{ status := 200, body := .obj [("isValid", .bool true)] }],
          calls := [.findOne (.obj [("name", .str n2)])], escaped := none }) ∧
    (∀ chatRoom isValid, R.findOne (.obj [("name", .str n2)]) = .ok (some chatRoom) →
      R.validateUser chatRoom email username = .ok isValid →
      validateUser R (.obj [("email", email), ("username", username), ("room", .str n2)]) =
        { responses := [{ status := 200, body := .obj [("isValid", isValid)] }],
          calls := [.findOne (.obj [("name", .str n2)]),
                    .validateUser chatRoom email username],
          escaped := none }) := by
  have hl1 : lookup "email" [("email", email), ("username", username), ("room", .str n2)] =
      email := by simp [lookup]
  have hl2 : lookup "username" [("email", email), ("username", username), ("room", .str n2)] =
      username := by simp [lookup]
  have hl3 : lookup "room" [("email", email), ("username", username), ("room", .str n2)] =
      .str n2 := by simp [lookup]
  refine ⟨?_, ?_, ?_, ?_⟩
  · have h := validateUser_calls_head R
      [("email", email), ("username", username), ("room", .str n2)]
    rw [hl3] at h
    exact h
  · intro h
    exact validateUser_responses_congr R email username (.str n2) (.str n) h
  · intro h
    simp only [validateUser, getProp, hl3, h]
  · intro chatRoom isValid hf hv
    simp only [validateUser, getProp, hl1, hl2, hl3, hf, hv]

theorem validateUser_room_variant_witness :
    (validateUser normalisingRooms
      (exampleQuery "kaye.cenizal@gmail.com" "kaye" "  JavaScript ")).responses =
    (validateUser normalisingRooms
      (exampleQuery "kaye.cenizal@gmail.com" "kaye" "javascript")).responses ∧
    (validateUser normalisingRooms
      (exampleQuery "kaye.cenizal@gmail.com" "kaye" "javascript")).responses =
      [{ status := 200, body := .obj [("isValid", .bool false)] }] ∧
    validateUser exampleRooms (exampleQuery "kaye.cenizal@gmail.com" "kaye" "JavaScript") =
      { responses := [{ status := 200, body := .obj [("isValid", .bool true)] }],
        calls := [.findOne (.obj [("name", .str "JavaScript")])], escaped := none } :=
  ⟨(validateUser_room_variant normalisingRooms (.str "kaye.cenizal@gmail.com") (.str "kaye")
      "javascript" "  JavaScript ").2.1 rfl,
    rfl,
    (validateUser_room_variant exampleRooms (.str "kaye.cenizal@gmail.com") (.str "kaye")
      "javascript" "JavaScript").2.2.1 rfl⟩

end RoomRouter

/-! ## Theorems on `public/js/common/common-fetch.js` -/

namespace CommonFetch

open JSVal

theorem typeError_ne_statusError (msg : String) (status : Nat) :
    typeError msg ≠ statusError status := by
  intro h
  simp [typeError, statusError] at h

theorem getProp_ne_statusError (body : JSVal) (key : String) (status : Nat) :
    body.getProp key ≠ .error (statusError status) := by
  cases body <;> simp [getProp, typeError_ne_statusError]

/-- The steps after `fetch` has resolved with a response whose JSON body
can be read. -/
theorem readProperty_resolved (response : FetchResponse) (url key : String) (body : JSVal)
    (hjson : response.json = .ok body) :
    (response.ok = false →
      (readProperty (.ok response) url key).result = .error (statusError response.status) ∧
      (readProperty (.ok response) url key).calls = [.fetch url]) ∧
    (response.ok = true →
      (readProperty (.ok response) url key).result = body.getProp key ∧
      (readProperty (.ok response) url key).calls = [.fetch url, .json]) ∧
    ((readProperty (.ok response) url key).result = .error (statusError response.status) ↔
      response.ok = false) := by
  refine ⟨?_, ?_, ?_⟩
  · intro hok
    simp [readProperty, hok]
  · intro hok
    simp [readProperty, hok, hjson]
  · cases hok : response.ok with
    | false => simp [readProperty, hok]
    | true =>
      have hres : (readProperty (.ok response) url key).result = body.getProp key := by
        simp [readProperty, hok, hjson]
      rw [hres]
      constructor
      · intro h
        exact absurd h (getProp_ne_statusError body key response.status)
      · intro h; cases h

/-- C21: for every response of `GET /getActiveRooms` that is ok and whose
JSON body is an object with `rooms` equal to `R`, `getActiveRooms` returns
`R` as it is, after one `fetch` of `/getActiveRooms` and one reading of
the body. -/
theorem getActiveRooms_returns (fetch : Fetch) (response : FetchResponse)
    (props : List (String × JSVal)) (R : JSVal)
    (hfetch : fetch "/getActiveRooms" = .ok response) (hok : response.ok = true)
    (hbody : response.json = .ok (.obj props)) (hrooms : lookup "rooms" props = R) :
    (getActiveRooms fetch).result = .ok R ∧
    (getActiveRooms fetch).calls = [.fetch "/getActiveRooms", .json] := by
  simp [getActiveRooms, readProperty, hfetch, hok, hbody, getProp, hrooms]

theorem getActiveRooms_returns_witness :
    (getActiveRooms exampleFetch).result = .ok (.arr [.str "javascript", .str "python"]) ∧
    (getActiveRooms emptyFetch).result = .ok (.arr []) :=
  ⟨(getActiveRooms_returns exampleFetch
      { ok := true, status := 200,
        json := .ok (.obj [("rooms", .arr [.str "javascript", .str "python"])]) }
      [("rooms", .arr [.str "javascript", .str "python"])]
      (.arr [.str "javascript", .str "python"]) rfl rfl rfl rfl).1,
    rfl⟩

/-- C23: when `fetch` resolves with a response whose JSON body can be read,
`isUserValid` throws an `Error` whose message is `An error has occured: `
followed by the decimal digits of the status of the response exactly when
the response is not ok, then without reading the body; when the response
is ok it returns the `isValid` of the body as it is (the body being an
object).  `getActiveRooms` throws the same error exactly when its response
is not ok.  For the statuses 400, 404 and 500 the messages are
`An error has occured: 400`, `An error has occured: 404` and
`An error has occured: 500`, three different messages. -/
theorem isUserValid_status_error (fetch : Fetch) :
    (∀ (email username room : String) (response : FetchResponse) (body : JSVal),
      fetch (validateUserUrl email username room) = .ok response →
      response.json = .ok body →
      ((isUserValid fetch email username room).result =
          .error (.obj [("name", .str "Error"),
            ("message", .str ("An error has occured: " ++ toString response.status))]) ↔
        response.ok = false) ∧
      (response.ok = false →
        (isUserValid fetch email username room).calls =
          [.fetch (validateUserUrl email username room)]) ∧
      (response.ok = true → ∀ props, body = .obj props →
        (isUserValid fetch email username room).result = .ok (lookup "isValid" props))) ∧
    (∀ (response : FetchResponse) (body : JSVal),
      fetch "/getActiveRooms" = .ok response →
      response.json = .ok body →
      ((getActiveRooms fetch).result =
          .error (.obj [("name", .str "Error"),
            ("message", .str ("An error has occured: " ++ toString response.status))]) ↔
        response.ok = false) ∧
      (response.ok = false → (getActiveRooms fetch).calls = [.fetch "/getActiveRooms"])) ∧
    ("An error has occured: " ++ toString (400 : Nat) = "An error has occured: 400" ∧
      "An error has occured: " ++ toString (404 : Nat) = "An error has occured: 404" ∧
      "An error has occured: " ++ toString (500 : Nat) = "An error has occured: 500") ∧
    (statusError 400 ≠ statusError 404 ∧ statusError 404 ≠ statusError 500 ∧
      statusError 400 ≠ statusError 500) := by
  refine ⟨?_, ?_, ⟨by decide, by decide, by decide⟩, ?_⟩
  · intro email username room response body hfetch hjson
    have h1 := readProperty_resolved response (validateUserUrl email username room) "isValid"
      body hjson
    simp only [statusError] at h1
    simp only [isUserValid, hfetch]
    refine ⟨h1.2.2, fun h => (h1.1 h).2, ?_⟩
    intro hok props hprops
    rw [(h1.2.1 hok).1, hprops]
    rfl
  · intro response body hfetch hjson
    have h2 := readProperty_resolved response "/getActiveRooms" "rooms" body hjson
    simp only [statusError] at h2
    simp only [getActiveRooms, hfetch]
    exact ⟨h2.2.2, fun h => (h2.1 h).2⟩
  · refine ⟨?_, ?_, ?_⟩ <;>
    · intro h
      simp only [statusError, JSVal.obj.injEq, List.cons.injEq, Prod.mk.injEq,
        JSVal.str.injEq, true_and, and_true] at h
      revert h
      decide

theorem isUserValid_status_error_witness :
    (isUserValid exampleFetch "kaye.cenizal@gmail.com" "kaye" "javascript").result =
      .error (.obj [("name", .str "Error"), ("message", .str "An error has occured: 404")]) ∧
    (isUserValid emptyFetch "kaye.cenizal@gmail.com" "kaye" "javascript").result =
      .ok (.bool true) ∧
    ((getActiveRooms exampleFetch).result =
      .error (.obj [("name", .str "Error"),
        ("message", .str ("An error has occured: " ++ toString (200 : Nat)))]) ↔
      true = false) := by
  have h := (isUserValid_status_error exampleFetch).1 "kaye.cenizal@gmail.com" "kaye"
    "javascript"
    { ok := false, status := 404, json := .ok (.obj [("error", .str "Not found")]) }
    (.obj [("error", .str "Not found")]) rfl rfl
  have h2 := (isUserValid_status_error emptyFetch).1 "kaye.cenizal@gmail.com" "kaye"
    "javascript"
    { ok := true, status := 200,
      json := .ok (.obj [("rooms", .arr []), ("isValid", .bool true)]) }
    (.obj [("rooms", .arr []), ("isValid", .bool true)]) rfl rfl
  have h3 := (isUserValid_status_error exampleFetch).2.1
    { ok := true, status := 200,
      json := .ok (.obj [("rooms", .arr [.str "javascript", .str "python"])]) }
    (.obj [("rooms", .arr [.str "javascript", .str "python"])]) rfl rfl
  exact ⟨h.1.mpr rfl, h2.2.2 rfl _ rfl, h3.1⟩

/-- C24, evaluated on the code: `isUserValid` puts the three values into the
URL as they are, so a value with a character that has a meaning in a URL
does not come back.  A `+` in the email is read as a blank by the server; a
`#` ends what is sent; an `&` in the username starts a further parameter;
and an escape `%42` in a value is decoded.  Values without such characters
do come back. -/
theorem validateUserUrl_received :
    receivedQuery "kaye+chat@gmail.com" "kaye" "css" =
      .obj [("email", .str "kaye chat@gmail.com"), ("username", .str "kaye"),
            ("room", .str "css")] ∧
    receivedQuery "kaye#1@gmail.com" "kaye" "css" = .obj [("email", .str "kaye")] ∧
    receivedQuery "kaye@gmail.com" "kaye&room=lobby" "css" =
      .obj [("email", .str "kaye@gmail.com"), ("username", .str "kaye"),
            ("room", .arr [.str "lobby", .str "css"])] ∧
    receivedQuery "kaye@gmail.com" "A%42C" "css" =
      .obj [("email", .str "kaye@gmail.com"), ("username", .str "ABC"),
            ("room", .str "css")] ∧
    receivedQuery "kaye.cenizal@gmail.com" "kaye cenizal" "javascript" =
      .obj [("email", .str "kaye.cenizal@gmail.com"), ("username", .str "kaye cenizal"),
            ("room", .str "javascript")] :=
  ⟨rfl, rfl, rfl, rfl, rfl⟩

end CommonFetch

/-! ## Further theorems on `src/router/room.js` -/

namespace RoomRouter

open JSVal

theorem sendError_of_not_nullish {ρ : Type} (e : JSVal) (calls : List (RoomCall ρ))
    (h : Message.isNullish e = false) :
    ∃ message, e.getProp "message" = .ok message ∧
      sendError e calls =
        { responses := [{ status := 400, body := .obj [("error", message)] }],
          calls := calls, escaped := none } := by
  obtain ⟨message, hm⟩ := Message.getProp_of_not_nullish e "message" h
  exact ⟨message, hm, by simp [sendError, hm]⟩

theorem validateUser_find_none {ρ : Type} (R : RoomModel ρ) (qprops : List (String × JSVal))
    (hf : R.findOne (.obj [("name", lookup "room" qprops)]) = .ok none) :
    validateUser R (.obj qprops) =
      { responses := [{ status := 200, body := .obj [("isValid", .bool true)] }],
        calls := [.findOne (.obj [("name", lookup "room" qprops)])], escaped := none } := by
  simp only [validateUser, getProp, hf]

theorem validateUser_find_error {ρ : Type} (R : RoomModel ρ) (qprops : List (String × JSVal))
    (e : JSVal) (hf : R.findOne (.obj [("name", lookup "room" qprops)]) = .error e) :
    validateUser R (.obj qprops) =
      sendError e [.findOne (.obj [("name", lookup "room" qprops)])] := by
  simp only [validateUser, getProp, hf]

theorem validateUser_check_ok {ρ : Type} (R : RoomModel ρ) (qprops : List (String × JSVal))
    (chatRoom : ρ) (isValid : JSVal)
    (hf : R.findOne (.obj [("name", lookup "room" qprops)]) = .ok (some chatRoom))
    (hv : R.validateUser chatRoom (lookup "email" qprops) (lookup "username" qprops) =
      .ok isValid) :
    validateUser R (.obj qprops) =
      { responses := [{ status := 200, body := .obj [("isValid", isValid)] }],
        calls := [.findOne (.obj [("name", lookup "room" qprops)]),
                  .validateUser chatRoom (lookup "email" qprops) (lookup "username" qprops)],
        escaped := none } := by
  simp only [validateUser, getProp, hf, hv]

theorem validateUser_check_error {ρ : Type} (R : RoomModel ρ) (qprops : List (String × JSVal))
    (chatRoom : ρ) (e : JSVal)
    (hf : R.findOne (.obj [("name", lookup "room" qprops)]) = .ok (some chatRoom))
    (hv : R.validateUser chatRoom (lookup "email" qprops) (lookup "username" qprops) =
      .error e) :
    validateUser R (.obj qprops) =
      sendError e [.findOne (.obj [("name", lookup "room" qprops)]),
                   .validateUser chatRoom (lookup "email" qprops) (lookup "username" qprops)] := by
  simp only [validateUser, getProp, hf, hv]

theorem sendError_of_nullish {ρ : Type} (e : JSVal) (calls : List (RoomCall ρ))
    (h : Message.isNullish e = true) :
    ∃ err, sendError e calls = { responses := [], calls := calls, escaped := some err } := by
  cases e <;> simp [Message.isNullish] at h <;> exact ⟨_, rfl⟩

/-- C22, the claim as worded fails when what is thrown is `null` or
`undefined`: the `catch` block reads `error.message`, which throws a
`TypeError` in its turn.  With a lookup that rejects with `null` the
handler sends no response and the `TypeError` leaves it; with an access
check that throws `undefined` likewise. -/
theorem validateUser_one_response_counterexample :
    (validateUser nullRejectingRooms
      (exampleQuery "kaye.cenizal@gmail.com" "kaye" "javascript")).responses = [] ∧
    (validateUser nullRejectingRooms
      (exampleQuery "kaye.cenizal@gmail.com" "kaye" "javascript")).escaped =
      some (typeError "Cannot read property message of null") ∧
    (validateUser undefinedThrowingCheck
      (exampleQuery "kaye.cenizal@gmail.com" "kaye" "javascript")).responses = [] ∧
    (validateUser undefinedThrowingCheck
      (exampleQuery "kaye.cenizal@gmail.com" "kaye" "javascript")).escaped =
      some (typeError "Cannot read property message of undefined") :=
  ⟨rfl, rfl, rfl, rfl⟩

/-- C22, amended: for every request and every behaviour of the room lookup
and of the access check, the handler sends status 200 with `isValid: true`
when no room is found, and status 200 with the value of the access check
as `isValid` when a room is found and the check returns; when the lookup
or the check throws a value that is neither `undefined` nor `null`, it
sends status 400 with the message of that value as `error`; in all these
runs it sends exactly one response and lets no exception out.  When the
lookup or the check throws `undefined` or `null`, it sends no response and
an exception leaves the handler.  So it sends at most one response, and
exactly one, with nothing escaping, exactly when nothing thrown is
`undefined` or `null`. -/
theorem validateUser_one_response {ρ : Type} (R : RoomModel ρ)
    (qprops : List (String × JSVal)) :
    (R.findOne (.obj [("name", lookup "room" qprops)]) = .ok none →
      (validateUser R (.obj qprops)).responses =
        [{ status := 200, body := .obj [("isValid", .bool true)] }] ∧
      (validateUser R (.obj qprops)).escaped = none) ∧
    (∀ chatRoom isValid,
      R.findOne (.obj [("name", lookup "room" qprops)]) = .ok (some chatRoom) →
      R.validateUser chatRoom (lookup "email" qprops) (lookup "username" qprops) = .ok isValid →
      (validateUser R (.obj qprops)).responses =
        [{ status := 200, body := .obj [("isValid", isValid)] }] ∧
      (validateUser R (.obj qprops)).escaped = none) ∧
    (∀ e, R.findOne (.obj [("name", lookup "room" qprops)]) = .error e →
      (Message.isNullish e = false →
        ∃ message, e.getProp "message" = .ok message ∧
          (validateUser R (.obj qprops)).responses =
            [{ status := 400, body := .obj [("error", message)] }] ∧
          (validateUser R (.obj qprops)).escaped = none) ∧
      (Message.isNullish e = true →
        (validateUser R (.obj qprops)).responses = [] ∧
        ∃ err, (validateUser R (.obj qprops)).escaped = some err)) ∧
    (∀ chatRoom e,
      R.findOne (.obj [("name", lookup "room" qprops)]) = .ok (some chatRoom) →
      R.validateUser chatRoom (lookup "email" qprops) (lookup "username" qprops) = .error e →
      (Message.isNullish e = false →
        ∃ message, e.getProp "message" = .ok message ∧
          (validateUser R (.obj qprops)).responses =
            [{ status := 400, body := .obj [("error", message)] }] ∧
          (validateUser R (.obj qprops)).escaped = none) ∧
      (Message.isNullish e = true →
        (validateUser R (.obj qprops)).responses = [] ∧
        ∃ err, (validateUser R (.obj qprops)).escaped = some err)) ∧
    (validateUser R (.obj qprops)).responses.length ≤ 1 ∧
    (((validateUser R (.obj qprops)).responses.length = 1 ∧
        (validateUser R (.obj qprops)).escaped = none) ↔
      (∀ e, R.findOne (.obj [("name", lookup "room" qprops)]) = .error e →
        Message.isNullish e = false) ∧
      (∀ chatRoom e,
        R.findOne (.obj [("name", lookup "room" qprops)]) = .ok (some chatRoom) →
        R.validateUser chatRoom (lookup "email" qprops) (lookup "username" qprops) = .error e →
        Message.isNullish e = false)) := by
  cases hf : R.findOne (.obj [("name", lookup "room" qprops)]) with
  | error e =>
    have hrun := validateUser_find_error R qprops e hf
    cases hn : Message.isNullish e with
    | false =>
      obtain ⟨message, hm, hsend⟩ := sendError_of_not_nullish e
        [RoomCall.findOne (.obj [("name", lookup "room" qprops)])] hn
      rw [hsend] at hrun
      rw [hrun]
      refine ⟨?_, ?_, ?_, ?_, by simp, ?_⟩
      · intro h; cases h
      · intro _ _ h; cases h
      · intro e2 he2
        cases he2
        exact ⟨fun _ => ⟨message, hm, rfl, rfl⟩, fun h => (by rw [hn] at h; cases h)⟩
      · intro _ _ h; cases h
      · constructor
        · intro _
          refine ⟨?_, ?_⟩
          · intro e2 he2; cases he2; exact hn
          · intro _ _ h; cases h
        · intro _; exact ⟨rfl, rfl⟩
    | true =>
      obtain ⟨err, hsend⟩ := sendError_of_nullish e
        [RoomCall.findOne (.obj [("name", lookup "room" qprops)])] hn
      rw [hsend] at hrun
      rw [hrun]
      refine ⟨?_, ?_, ?_, ?_, by simp, ?_⟩
      · intro h; cases h
      · intro _ _ h; cases h
      · intro e2 he2
        cases he2
        exact ⟨fun h => (by rw [hn] at h; cases h), fun _ => ⟨rfl, err, rfl⟩⟩
      · intro _ _ h; cases h
      · constructor
        · intro h; simp at h
        · intro h
          have := h.1 e rfl
          rw [hn] at this; cases this
  | ok found =>
    cases found with
    | none =>
      rw [validateUser_find_none R qprops hf]
      refine ⟨?_, ?_, ?_, ?_, by simp, ?_⟩
      · intro _; exact ⟨rfl, rfl⟩
      · intro _ _ h; cases h
      · intro _ h; cases h
      · intro _ _ h; cases h
      · constructor
        · intro _
          refine ⟨?_, ?_⟩
          · intro _ h; cases h
          · intro _ _ h; cases h
        · intro _; exact ⟨rfl, rfl⟩
    | some chatRoom =>
      cases hv : R.validateUser chatRoom (lookup "email" qprops) (lookup "username" qprops) with
      | error e =>
        have hrun := validateUser_check_error R qprops chatRoom e hf hv
        cases hn : Message.isNullish e with
        | false =>
          obtain ⟨message, hm, hsend⟩ := sendError_of_not_nullish e
            [RoomCall.findOne (.obj [("name", lookup "room" qprops)]),
             RoomCall.validateUser chatRoom (lookup "email" qprops) (lookup "username" qprops)]
            hn
          rw [hsend] at hrun
          rw [hrun]
          refine ⟨?_, ?_, ?_, ?_, by simp, ?_⟩
          · intro h; cases h
          · intro room v hroom hval
            cases hroom
            rw [hv] at hval; cases hval
          · intro _ h; cases h
          · intro room e2 hroom herr
            cases hroom
            rw [hv] at herr; cases herr
            exact ⟨fun _ => ⟨message, hm, rfl, rfl⟩, fun h => (by rw [hn] at h; cases h)⟩
          · constructor
            · intro _
              refine ⟨?_, ?_⟩
              · intro _ h; cases h
              · intro room e2 hroom herr
                cases hroom
                rw [hv] at herr; cases herr
                exact hn
            · intro _; exact ⟨rfl, rfl⟩
        | true =>
          obtain ⟨err, hsend⟩ := sendError_of_nullish e
            [RoomCall.findOne (.obj [("name", lookup "room" qprops)]),
             RoomCall.validateUser chatRoom (lookup "email" qprops) (lookup "username" qprops)]
            hn
          rw [hsend] at hrun
          rw [hrun]
          refine ⟨?_, ?_, ?_, ?_, by simp, ?_⟩
          · intro h; cases h
          · intro room v hroom hval
            cases hroom
            rw [hv] at hval; cases hval
          · intro _ h; cases h
          · intro room e2 hroom herr
            cases hroom
            rw [hv] at herr; cases herr
            exact ⟨fun h => (by rw [hn] at h; cases h), fun _ => ⟨rfl, err, rfl⟩⟩
          · constructor
            · intro h; simp at h
            · intro h
              have := h.2 chatRoom e rfl hv
              rw [hn] at this; cases this
      | ok v =>
        rw [validateUser_check_ok R qprops chatRoom v hf hv]
        refine ⟨?_, ?_, ?_, ?_, by simp, ?_⟩
        · intro h; cases h
        · intro room v2 hroom hval
          cases hroom
          rw [hv] at hval; cases hval
          exact ⟨rfl, rfl⟩
        · intro _ h; cases h
        · intro room e2 hroom herr
          cases hroom
          rw [hv] at herr; cases herr
        · constructor
          · intro _
            refine ⟨?_, ?_⟩
            · intro _ h; cases h
            · intro room e2 hroom herr
              cases hroom
              rw [hv] at herr; cases herr
          · intro _; exact ⟨rfl, rfl⟩

theorem validateUser_one_response_witness :
    (∃ message,
      (JSVal.obj [("name", .str "Error"), ("message", .str "Mock Error")]).getProp "message" =
        .ok message ∧
      (validateUser failingRooms
        (exampleQuery "kaye.cenizal@gmail.com" "kaye" "javascript")).responses =
        [{ status := 400, body := .obj [("error", message)] }] ∧
      (validateUser failingRooms
        (exampleQuery "kaye.cenizal@gmail.com" "kaye" "javascript")).escaped = none) ∧
    (validateUser failingRooms
      (exampleQuery "kaye.cenizal@gmail.com" "kaye" "javascript")).responses =
      [{ status := 400, body := .obj [("error", .str "Mock Error")] }] ∧
    (validateUser nullRejectingRooms
      (exampleQuery "kaye.cenizal@gmail.com" "kaye" "javascript")).responses = [] := by
  have h := validateUser_one_response failingRooms
    [("email", .str "kaye.cenizal@gmail.com"), ("username", .str "kaye"),
     ("room", .str "javascript")]
  have h2 := validateUser_one_response nullRejectingRooms
    [("email", .str "kaye.cenizal@gmail.com"), ("username", .str "kaye"),
     ("room", .str "javascript")]
  exact ⟨(h.2.2.1 _ rfl).1 rfl, rfl, ((h2.2.2.1 _ rfl).2 rfl).1⟩

end RoomRouter

/-! ## Theorems on `public/js/chat/chat-utils.js` -/

namespace ChatUtils

open JSVal

/-- C25: when the container has a last message whose bottom margin
`parseInt` reads as an integer, `autoscroll` throws nothing, and it assigns
to `scrollTop` exactly when the scroll height less the height of the last
message (its `offsetHeight` plus its bottom margin) is at most `scrollTop`
plus the `offsetHeight` of the container; the one assignment it then makes
sets `scrollTop` to the scroll height, and otherwise no write touches
`scrollTop`. -/
theorem autoscroll_scrolls (B : Browser) (view : MessagesView) (newMessage : MessageBox)
    (margin : Int) (hlast : view.lastElementChild = some newMessage)
    (hmargin : B.parseInt newMessage.marginBottom = some margin) :
    ∃ writes, autoscroll B (some view) = .ok writes ∧
      writes.filter DomWrite.isScroll =
        (if view.scrollHeight - (newMessage.offsetHeight + margin) ≤
            view.scrollTop + view.offsetHeight
         then [.setScrollTop view.scrollHeight] else []) ∧
      (DomWrite.setScrollTop view.scrollHeight ∈ writes ↔
        view.scrollHeight - (newMessage.offsetHeight + margin) ≤
          view.scrollTop + view.offsetHeight) ∧
      (¬ (view.scrollHeight - (newMessage.offsetHeight + margin) ≤
          view.scrollTop + view.offsetHeight) →
        ∀ w ∈ writes, w.isScroll = false) := by
  by_cases hc : view.scrollHeight - (newMessage.offsetHeight + margin) ≤
      view.scrollTop + view.offsetHeight
  · cases hm : B.isMobile <;>
      simp [autoscroll, hlast, hmargin, hc, hm, DomWrite.isScroll]
  · cases hm : B.isMobile <;>
      simp [autoscroll, hlast, hmargin, hc, hm, DomWrite.isScroll]

theorem autoscroll_scrolls_witness :
    (∃ writes, autoscroll exampleBrowser
      (some { lastElementChild := some { offsetHeight := 40, marginBottom := "16px" },
              offsetHeight := 400, scrollHeight := 1000, scrollTop := 544 }) = .ok writes ∧
      DomWrite.setScrollTop 1000 ∈ writes) ∧
    autoscroll exampleBrowser
      (some { lastElementChild := some { offsetHeight := 40, marginBottom := "16px" },
              offsetHeight := 400, scrollHeight := 1000, scrollTop := 544 }) =
      .ok [.setScrollTop 1000, .setItem "messages-scroll" "600"] ∧
    autoscroll exampleBrowser
      (some { lastElementChild := some { offsetHeight := 40, marginBottom := "16px" },
              offsetHeight := 400, scrollHeight := 1000, scrollTop := 543 }) =
      .ok [.setItem "messages-scroll" "543"] := by
  obtain ⟨writes, hrun, _, hmem, _⟩ := autoscroll_scrolls exampleBrowser
    { lastElementChild := some { offsetHeight := 40, marginBottom := "16px" },
      offsetHeight := 400, scrollHeight := 1000, scrollTop := 544 }
    { offsetHeight := 40, marginBottom := "16px" } 16 rfl (by decide)
  exact ⟨⟨writes, hrun, hmem.mpr (by decide)⟩, rfl, rfl⟩

/-- C26: on a parent with at least two spans, `toggleCollapseLinkText` sets
the link text to `Show more` and the icon to the angle-down markup, an `i`
element of class `fas fa-angle-down`, when the link text is exactly
`Show less`, and to `Show less` and the angle-up markup, an `i` element of
class `fas fa-angle-up`, for every other link text, the further spans
staying as they are; the two markups differ; so after a call the pair of
link text and icon is one of these two pairs, and from either of the two
pairs two calls give the pair back. -/
theorem toggleCollapseLinkText_pairs (icon_span link_text : Span) (rest : List Span) :
    (link_text.textContent = "Show less" →
      toggleCollapseLinkText (icon_span :: link_text :: rest) =
        .ok ({ textContent := "",
               innerHTML := "<i class=" ++ String.singleton (Char.ofNat 34) ++
                 "fas fa-angle-down" ++ String.singleton (Char.ofNat 34) ++ "></i>" } ::
             { textContent := "Show more", innerHTML := "Show more" } :: rest)) ∧
    (link_text.textContent ≠ "Show less" →
      toggleCollapseLinkText (icon_span :: link_text :: rest) =
        .ok ({ textContent := "",
               innerHTML := "<i class=" ++ String.singleton (Char.ofNat 34) ++
                 "fas fa-angle-up" ++ String.singleton (Char.ofNat 34) ++ "></i>" } ::
             { textContent := "Show less", innerHTML := "Show less" } :: rest)) ∧
    (∃ spans, toggleCollapseLinkText (icon_span :: link_text :: rest) = .ok spans ∧
      (linkPair spans = some ("Show more",
          "<i class=" ++ String.singleton (Char.ofNat 34) ++
            "fas fa-angle-down" ++ String.singleton (Char.ofNat 34) ++ "></i>") ∨
       linkPair spans = some ("Show less",
          "<i class=" ++ String.singleton (Char.ofNat 34) ++
            "fas fa-angle-up" ++ String.singleton (Char.ofNat 34) ++ "></i>"))) ∧
    ((linkPair (icon_span :: link_text :: rest) = some ("Show more",
          "<i class=" ++ String.singleton (Char.ofNat 34) ++
            "fas fa-angle-down" ++ String.singleton (Char.ofNat 34) ++ "></i>") ∨
      linkPair (icon_span :: link_text :: rest) = some ("Show less",
          "<i class=" ++ String.singleton (Char.ofNat 34) ++
            "fas fa-angle-up" ++ String.singleton (Char.ofNat 34) ++ "></i>")) →
      ∃ spans, toggleTwice (icon_span :: link_text :: rest) = .ok spans ∧
        linkPair spans = linkPair (icon_span :: link_text :: rest)) ∧
    (angleDown.data.map Char.toNat =
      [60, 105, 32, 99, 108, 97, 115, 115, 61, 34, 102, 97, 115, 32, 102, 97, 45, 97, 110,
       103, 108, 101, 45, 100, 111, 119, 110, 34, 62, 60, 47, 105, 62] ∧
      angleUp.data.map Char.toNat =
      [60, 105, 32, 99, 108, 97, 115, 115, 61, 34, 102, 97, 115, 32, 102, 97, 45, 97, 110,
       103, 108, 101, 45, 117, 112, 34, 62, 60, 47, 105, 62] ∧
      angleDown ≠ angleUp) := by
  have hdown : "<i class=" ++ String.singleton (Char.ofNat 34) ++
      "fas fa-angle-down" ++ String.singleton (Char.ofNat 34) ++ "></i>" = angleDown := rfl
  have hup : "<i class=" ++ String.singleton (Char.ofNat 34) ++
      "fas fa-angle-up" ++ String.singleton (Char.ofNat 34) ++ "></i>" = angleUp := rfl
  rw [hdown, hup]
  refine ⟨?_, ?_, ?_, ?_, ⟨by decide, by decide, by decide⟩⟩
  · intro h
    simp [toggleCollapseLinkText, h]
  · intro h
    simp [toggleCollapseLinkText, h]
  · by_cases h : link_text.textContent = "Show less"
    · exact ⟨{ textContent := "", innerHTML := angleDown } ::
        { textContent := "Show more", innerHTML := "Show more" } :: rest,
        by simp [toggleCollapseLinkText, h], Or.inl rfl⟩
    · exact ⟨{ textContent := "", innerHTML := angleUp } ::
        { textContent := "Show less", innerHTML := "Show less" } :: rest,
        by simp [toggleCollapseLinkText, h], Or.inr rfl⟩
  · intro h
    rcases h with h | h
    · simp only [linkPair, Option.some.injEq, Prod.mk.injEq] at h
      obtain ⟨ht, hi⟩ := h
      refine ⟨{ textContent := "", innerHTML := angleDown } ::
        { textContent := "Show more", innerHTML := "Show more" } :: rest, ?_, ?_⟩
      · simp [toggleTwice, toggleCollapseLinkText, ht]
      · simp [linkPair, ht, hi]
    · simp only [linkPair, Option.some.injEq, Prod.mk.injEq] at h
      obtain ⟨ht, hi⟩ := h
      refine ⟨{ textContent := "", innerHTML := angleUp } ::
        { textContent := "Show less", innerHTML := "Show less" } :: rest, ?_, ?_⟩
      · simp [toggleTwice, toggleCollapseLinkText, ht]
      · simp [linkPair, ht, hi]

theorem toggleCollapseLinkText_pairs_witness :
    toggleCollapseLinkText
      [{ textContent := "",
         innerHTML := "<i class=" ++ String.singleton (Char.ofNat 34) ++
           "fas fa-angle-up" ++ String.singleton (Char.ofNat 34) ++ "></i>" },
       { textContent := "Show less", innerHTML := "Show less" }] =
      .ok [{ textContent := "",
             innerHTML := "<i class=" ++ String.singleton (Char.ofNat 34) ++
               "fas fa-angle-down" ++ String.singleton (Char.ofNat 34) ++ "></i>" },
           { textContent := "Show more", innerHTML := "Show more" }] ∧
    toggleCollapseLinkText
      [{ textContent := "", innerHTML := "" },
       { textContent := "show less", innerHTML := "show less" }] =
      .ok [{ textContent := "",
             innerHTML := "<i class=" ++ String.singleton (Char.ofNat 34) ++
               "fas fa-angle-up" ++ String.singleton (Char.ofNat 34) ++ "></i>" },
           { textContent := "Show less", innerHTML := "Show less" }] ∧
    (∃ spans, toggleTwice
      [{ textContent := "",
         innerHTML := "<i class=" ++ String.singleton (Char.ofNat 34) ++
           "fas fa-angle-up" ++ String.singleton (Char.ofNat 34) ++ "></i>" },
       { textContent := "Show less", innerHTML := "Show less" }] = .ok spans ∧
      linkPair spans = some ("Show less",
        "<i class=" ++ String.singleton (Char.ofNat 34) ++
          "fas fa-angle-up" ++ String.singleton (Char.ofNat 34) ++ "></i>")) := by
  have h1 := toggleCollapseLinkText_pairs
    { textContent := "",
      innerHTML := "<i class=" ++ String.singleton (Char.ofNat 34) ++
        "fas fa-angle-up" ++ String.singleton (Char.ofNat 34) ++ "></i>" }
    { textContent := "Show less", innerHTML := "Show less" } []
  have h2 := toggleCollapseLinkText_pairs { textContent := "", innerHTML := "" }
    { textContent := "show less", innerHTML := "show less" } []
  exact ⟨h1.1 rfl, h2.2.1 (by decide), h1.2.2.2.1 (Or.inr rfl)⟩

/-- C27, evaluated on the code: `removeTypingIndicatorMsg` puts the username
into the selector as it is, so the selector finds the element of id
`<username>-temp-msg-div` only when that id reads as one CSS identifier.
For the username `kaye.cenizal` the selector asks for the id `kaye` with
the class `cenizal-temp-msg-div`: the element of id
`kaye.cenizal-temp-msg-div` stays in the document, and an element of id
`kaye` with that class is removed in its place.  For the username `1abc`
the selector is invalid and the call throws.  For the username `kaye` the
element is removed, and a second call changes nothing. -/
theorem removeTypingIndicatorMsg_selector :
    typingSelector "kaye.cenizal" = "#kaye.cenizal-temp-msg-div" ∧
    readSelector "#kaye.cenizal-temp-msg-div" = some ("kaye", ["cenizal-temp-msg-div"]) ∧
    removeTypingIndicatorMsg listDom
      [{ id := "messages-div", classes := [] },
       { id := "kaye.cenizal-temp-msg-div", classes := [] }] "kaye.cenizal" =
      .ok [{ id := "messages-div", classes := [] },
           { id := "kaye.cenizal-temp-msg-div", classes := [] }] ∧
    removeTypingIndicatorMsg listDom
      [{ id := "kaye", classes := ["cenizal-temp-msg-div"] },
       { id := "kaye.cenizal-temp-msg-div", classes := [] }] "kaye.cenizal" =
      .ok [{ id := "kaye.cenizal-temp-msg-div", classes := [] }] ∧
    removeTypingIndicatorMsg listDom
      [{ id := "1abc-temp-msg-div", classes := [] }] "1abc" =
      .error (selectorError "#1abc-temp-msg-div") ∧
    removeTypingIndicatorMsg listDom
      [{ id := "messages-div", classes := [] },
       { id := "kaye-temp-msg-div", classes := [] }] "kaye" =
      .ok [{ id := "messages-div", classes := [] }] ∧
    removeTypingIndicatorMsg listDom [{ id := "messages-div", classes := [] }] "kaye" =
      .ok [{ id := "messages-div", classes := [] }] :=
  ⟨by decide, by decide, rfl, rfl, rfl, rfl, rfl⟩

end ChatUtils

end ChatApp
